import Mathlib

/-!
# Gaze signal conditioning and dwell detection of the HUD

Shallow embedding of `src/js/utils.js` (`lerp`, `calculateDistance`,
`isGazeOnElement`) and of the class `EyeTracking` of `src/js/eye-tracking.js`
(constructor, gaze listener, `startTracking`, `stopTracking`, `checkStaring`,
`getGazeVelocity`, `getGazeDirection`).

Modelling conventions.

* Finite JavaScript numbers are exact rationals: rounding of IEEE doubles is
  abstracted away, so `0.3` is `3/10`.  A division is the one place of the
  embedded code where a non-finite value can arise from finite operands; its
  result type `JSNumber` keeps `Infinity`, `-Infinity` and `NaN` apart from the
  finite values.
* `Date.now()` is an integer number of milliseconds.
* `Math.sqrt` is a host builtin and is passed as a parameter `sqrt`.
* DOM nodes are records carrying an identity `ref` (reference equality of
  objects), the `data-name` attribute and the bounding rectangle.
* Writes to presentation objects (styles, canvas target lock, camera rotation,
  `HUD.state.gazePosition`, sounds) are not part of the state: none of them is
  read back by the embedded functions.
-/

namespace IronmanHud

/-! ## Numbers -/

/-- Value of a JavaScript arithmetic expression that may leave the finite numbers. -/
inductive JSNumber where
  | finite (q : ℚ)
  | posInfinity
  | negInfinity
  | nan
  deriving DecidableEq

/-- Division `a / b` of two finite numbers as JavaScript evaluates it.  A zero
divisor here is `+0` (it is the difference of two equal finite numbers), so the
quotient is `Infinity`, `-Infinity` or `NaN` according to the sign of `a`. -/
def jsDiv (a b : ℚ) : JSNumber :=
  if b = 0 then
    if 0 < a then JSNumber.posInfinity
    else if a < 0 then JSNumber.negInfinity
    else JSNumber.nan
  else JSNumber.finite (a / b)

/-- The comparison `v < 0` of JavaScript: false for `NaN` and `Infinity`. -/
def JSNumber.isNegative : JSNumber → Bool
  | JSNumber.finite q => decide (q < 0)
  | JSNumber.posInfinity => false
  | JSNumber.negInfinity => true
  | JSNumber.nan => false

/-- The comparison `v >= 0` of JavaScript: false for `NaN`. -/
def JSNumber.isNonNegative : JSNumber → Bool
  | JSNumber.finite q => decide (0 ≤ q)
  | JSNumber.posInfinity => true
  | JSNumber.negInfinity => false
  | JSNumber.nan => false

/-! ## utils.js -/

/-- A point `{x, y}`. -/
structure Point where
  x : ℚ
  y : ℚ
  deriving DecidableEq

/-- `lerp(a, b, t)` of utils.js: `a + (b - a) * t`. -/
def lerp (a b t : ℚ) : ℚ :=
  a + (b - a) * t

/-- `calculateDistance(point1, point2)` of utils.js:
`Math.sqrt(Math.pow(point2.x - point1.x, 2) + Math.pow(point2.y - point1.y, 2))`. -/
def calculateDistance (sqrt : ℚ → ℚ) (point1 point2 : Point) : ℚ :=
  sqrt ((point2.x - point1.x) ^ 2 + (point2.y - point1.y) ^ 2)

/-- Result of `element.getBoundingClientRect()`. -/
structure Rect where
  left : ℚ
  right : ℚ
  top : ℚ
  bottom : ℚ
  deriving DecidableEq

/-- A DOM element as the tracker sees it. -/
structure Element where
  /-- identity of the node (object reference) -/
  ref : Nat
  /-- `getAttribute('data-name')`, `none` for `null` -/
  dataName : Option String
  /-- `getBoundingClientRect()` -/
  rect : Rect
  deriving DecidableEq

/-- `isGazeOnElement(gazePoint, element)` of utils.js. -/
def isGazeOnElement (gazePoint : Point) (element : Element) : Bool :=
  decide (gazePoint.x ≥ element.rect.left) &&
  decide (gazePoint.x ≤ element.rect.right) &&
  decide (gazePoint.y ≥ element.rect.top) &&
  decide (gazePoint.y ≤ element.rect.bottom)

/-! ## eye-tracking.js: state -/

/-- One entry `{x, y, timestamp}` of `gazeHistory`. -/
structure GazeSnapshot where
  x : ℚ
  y : ℚ
  timestamp : ℚ
  deriving DecidableEq

/-- One entry `{element, x, y}` of `calibrationPoints` (percent positions). -/
structure CalibrationPoint where
  x : Nat
  y : Nat
  deriving DecidableEq

/-- Fields of an `EyeTracking` instance (the `gazeDot` node is presentation only). -/
structure EyeTracking where
  isInitialized : Bool
  isCalibrated : Bool
  isTracking : Bool
  gazeData : Point
  lastGazeData : Point
  smoothedGazeData : Point
  gazeHistory : List GazeSnapshot
  calibrationPoints : List CalibrationPoint
  currentCalibrationPoint : Nat
  stareStartTime : ℤ
  stareElement : Option Element
  gazeThreshold : ℚ
  stareThreshold : ℚ
  smoothingFactor : ℚ
  deriving DecidableEq

/-- The constructor of `EyeTracking`. -/
def EyeTracking.new : EyeTracking :=
  { isInitialized := false
    isCalibrated := false
    isTracking := false
    gazeData := { x := 0, y := 0 }
    lastGazeData := { x := 0, y := 0 }
    smoothedGazeData := { x := 0, y := 0 }
    gazeHistory := []
    calibrationPoints := []
    currentCalibrationPoint := 0
    stareStartTime := 0
    stareElement := none
    gazeThreshold := 50
    stareThreshold := 3 / 2
    smoothingFactor := 3 / 10 }

/-- The state change of a successful `init()`: `this.isInitialized = true`. -/
def EyeTracking.initSucceeded (s : EyeTracking) : EyeTracking :=
  { s with isInitialized := true }

/-- `startTracking()`: the new state and the returned boolean. -/
def EyeTracking.startTracking (s : EyeTracking) : EyeTracking × Bool :=
  if !s.isInitialized then (s, false)
  else ({ s with isTracking := true }, true)

/-- `stopTracking()`. -/
def EyeTracking.stopTracking (s : EyeTracking) : EyeTracking :=
  { s with isTracking := false }

/-! ## eye-tracking.js: dwell detection -/

/-- What a call of the gaze listener reads from its surroundings. -/
structure Env where
  /-- `document.querySelectorAll('[data-activatable="true"]')`, in document order -/
  activatable : List Element
  /-- `Date.now()` -/
  now : ℤ

/-- A request `hudElements.activateElement(elementName)`. -/
structure ActivationEvent where
  elementName : Option String
  deriving DecidableEq

/-- The `forEach` loop of `checkStaring`: every element under the gaze point
overwrites `foundElement`. -/
def findElement (gazePoint : Point) (elements : List Element) : Option Element :=
  elements.foldl
    (fun foundElement element =>
      if isGazeOnElement gazePoint element then some element else foundElement)
    none

/-- `checkStaring()`: the new state and the activation it requests, if any. -/
def EyeTracking.checkStaring (env : Env) (s : EyeTracking) :
    EyeTracking × Option ActivationEvent :=
  if !s.isTracking then (s, none)
  else
    match findElement s.smoothedGazeData env.activatable with
    | some foundElement =>
      if s.stareElement.map Element.ref ≠ some foundElement.ref then
        ({ s with stareElement := some foundElement, stareStartTime := env.now }, none)
      else
        let stareTime : ℚ := ((env.now - s.stareStartTime : ℤ) : ℚ) / 1000
        if stareTime ≥ s.stareThreshold then
          ({ s with stareStartTime := env.now + 2000 },
            some { elementName := foundElement.dataName })
        else (s, none)
    | none =>
      if s.stareElement.isSome then ({ s with stareElement := none }, none)
      else (s, none)

/-! ## eye-tracking.js: the gaze listener -/

/-- The callback given to `webgazer.setGazeListener`; `data` is `none` for `null`. -/
def EyeTracking.gazeListener (env : Env) (s : EyeTracking) (data : Option Point)
    (timestamp : ℚ) : EyeTracking × Option ActivationEvent :=
  match data with
  | none => (s, none)
  | some d =>
    if !s.isTracking then (s, none)
    else
      let s1 := { s with lastGazeData := s.gazeData, gazeData := { x := d.x, y := d.y } }
      let s2 := { s1 with smoothedGazeData :=
        { s1.smoothedGazeData with
          x := lerp s1.smoothedGazeData.x s1.gazeData.x s1.smoothingFactor } }
      let s3 := { s2 with smoothedGazeData :=
        { s2.smoothedGazeData with
          y := lerp s2.smoothedGazeData.y s2.gazeData.y s2.smoothingFactor } }
      let pushed := s3.gazeHistory ++
        [{ x := s3.smoothedGazeData.x, y := s3.smoothedGazeData.y, timestamp := timestamp }]
      let s4 := { s3 with gazeHistory := if pushed.length > 100 then pushed.tail else pushed }
      s4.checkStaring env

/-- One delivery of the gaze listener: what it reads and what it is called with. -/
structure GazeInput where
  env : Env
  data : Option Point
  timestamp : ℚ

/-- The tracker after a sequence of deliveries to the gaze listener. -/
def EyeTracking.run (s : EyeTracking) (inputs : List GazeInput) : EyeTracking :=
  inputs.foldl (fun st i => (st.gazeListener i.env i.data i.timestamp).1) s

/-! ## eye-tracking.js: velocity and direction -/

/-- `getGazeVelocity()`.  Both indices are in range once the length is at least
2, so the last branch of the `match` is never taken. -/
def EyeTracking.getGazeVelocity (sqrt : ℚ → ℚ) (s : EyeTracking) : JSNumber :=
  if s.gazeHistory.length < 2 then JSNumber.finite 0
  else
    match s.gazeHistory[s.gazeHistory.length - 1]?, s.gazeHistory[s.gazeHistory.length - 2]? with
    | some last, some prev =>
      let distance := calculateDistance sqrt { x := prev.x, y := prev.y } { x := last.x, y := last.y }
      let timeDiff := (last.timestamp - prev.timestamp) / 1000
      jsDiv distance timeDiff
    | _, _ => JSNumber.nan

/-- The strings `getGazeDirection()` can return. -/
inductive Direction where
  | center
  | up
  | down
  | left
  | right
  deriving DecidableEq

/-- `getGazeDirection()`; the viewport size is `window.innerWidth`, `window.innerHeight`. -/
def EyeTracking.getGazeDirection (viewportWidth viewportHeight : ℚ) (s : EyeTracking) :
    Direction :=
  let centerX := viewportWidth / 2
  let centerY := viewportHeight / 2
  let offsetX := s.smoothedGazeData.x - centerX
  let offsetY := s.smoothedGazeData.y - centerY
  let absOffsetX := |offsetX|
  let absOffsetY := |offsetY|
  if absOffsetX < 100 ∧ absOffsetY < 100 then Direction.center
  else if absOffsetX > absOffsetY then
    if offsetX > 0 then Direction.right else Direction.left
  else
    if offsetY > 0 then Direction.down else Direction.up

/-! ## Specification-side descriptions of the gaze history -/

/-- The samples of a sequence of deliveries that carry data, each with its
timestamp, in delivery order. -/
def samplesWithData (inputs : List GazeInput) : List (Point × ℚ) :=
  inputs.filterMap (fun i => i.data.map (fun d => (d, i.timestamp)))

/-- Specification of the snapshots: starting from the smoothed position `p`,
every sample moves the position by `alpha` of the way to the raw position and
records the new position with the timestamp of the sample, oldest first. -/
def specSnapshots (alpha : ℚ) (p : Point) : List (Point × ℚ) → List GazeSnapshot
  | [] => []
  | (d, timestamp) :: rest =>
    let q : Point := { x := p.x + (d.x - p.x) * alpha, y := p.y + (d.y - p.y) * alpha }
    { x := q.x, y := q.y, timestamp := timestamp } :: specSnapshots alpha q rest

/-- A delivery of the raw position `(x, y)` at `timestamp` on a page without
activatable elements. -/
def plainSample (x y timestamp : ℚ) : GazeInput :=
  { env := { activatable := [], now := 0 }, data := some { x := x, y := y },
    timestamp := timestamp }

/-- A function that agrees with `Math.sqrt` at 0, 25 and 441, the arguments the
examples below evaluate it at. -/
def sqrtOnExamples (q : ℚ) : ℚ :=
  if q = 441 then 21 else if q = 25 then 5 else 0

/-! ## Reachable tracker states -/

/-- States an `EyeTracking` instance can be in: the constructor followed by any
calls of its methods.  The calibration methods only write `isCalibrated`,
`calibrationPoints` and `currentCalibrationPoint` (and call `startTracking`). -/
inductive Reachable : EyeTracking → Prop where
  | constructed : Reachable EyeTracking.new
  | init (s : EyeTracking) : Reachable s → Reachable s.initSucceeded
  | start (s : EyeTracking) : Reachable s → Reachable s.startTracking.1
  | stop (s : EyeTracking) : Reachable s → Reachable s.stopTracking
  | calibration (s : EyeTracking) (done : Bool) (points : List CalibrationPoint)
      (current : Nat) : Reachable s →
      Reachable { s with isCalibrated := done, calibrationPoints := points,
                         currentCalibrationPoint := current }
  | gaze (s : EyeTracking) (env : Env) (data : Option Point) (timestamp : ℚ) :
      Reachable s → Reachable (s.gazeListener env data timestamp).1

/-- The tracker of a page whose `init()` succeeded and whose tracking was started. -/
def EyeTracking.tracking : EyeTracking :=
  EyeTracking.new.initSucceeded.startTracking.1

/-- The snapshot a sample pushes: the smoothed position after the sample, with
the timestamp of the sample. -/
def pushedSnapshot (s : EyeTracking) (d : Point) (timestamp : ℚ) : GazeSnapshot :=
  { x := lerp s.smoothedGazeData.x d.x s.smoothingFactor
    y := lerp s.smoothedGazeData.y d.y s.smoothingFactor
    timestamp := timestamp }

/-! ## Sequences of deliveries: activations and hovered zones -/

/-- The activation requested by each delivery of a sequence, in delivery order. -/
def EyeTracking.runTrace (s : EyeTracking) : List GazeInput → List (Option ActivationEvent)
  | [] => []
  | i :: rest =>
    (s.gazeListener i.env i.data i.timestamp).2 ::
      EyeTracking.runTrace (s.gazeListener i.env i.data i.timestamp).1 rest

/-- The element under the smoothed gaze point at each delivery of a sequence
(the `foundElement` of the `checkStaring` call the delivery makes). -/
def EyeTracking.hoverTrace (s : EyeTracking) : List GazeInput → List (Option Element)
  | [] => []
  | i :: rest =>
    findElement (s.gazeListener i.env i.data i.timestamp).1.smoothedGazeData i.env.activatable ::
      EyeTracking.hoverTrace (s.gazeListener i.env i.data i.timestamp).1 rest

/-- A delivery of the raw position `(x, y)` at clock value `now` on a page whose
activatable elements are `zones`. -/
def gazeAt (zones : List Element) (now : ℤ) (x y : ℚ) : GazeInput :=
  { env := { activatable := zones, now := now }, data := some { x := x, y := y },
    timestamp := now }

/-- The zone of the dwell example: rectangle `{left: 0, top: 0, right: 100, bottom: 100}`. -/
def exampleZone : Element :=
  { ref := 1, dataName := some "arc-reactor",
    rect := { left := 0, right := 100, top := 0, bottom := 100 } }

/-- A second zone, to the right of `exampleZone`. -/
def otherZone : Element :=
  { ref := 2, dataName := some "weapons",
    rect := { left := 200, right := 400, top := 0, bottom := 100 } }

/-- The started tracker after one delivery that moves the smoothed gaze point to
`(50, 50)`, inside `exampleZone`, at clock value 0. -/
def EyeTracking.hovering : EyeTracking :=
  EyeTracking.tracking.run [gazeAt [exampleZone] 0 (500 / 3) (500 / 3)]

/-- The started tracker after one delivery that moves the smoothed gaze point to
`(50, 50)` on a page without activatable elements: the stare tracker is idle. -/
def EyeTracking.centered : EyeTracking :=
  EyeTracking.tracking.run [gazeAt [] 0 (500 / 3) (500 / 3)]

/-- The transition of the stare tracker `(stareElement, stareStartTime)` made by
a call of `checkStaring` that finds `found` at clock value `now`, with the
activation it requests. -/
def dwellStep (tracked : Option Element) (start : ℤ) (found : Option Element) (now : ℤ) :
    (Option Element × ℤ) × Option ActivationEvent :=
  match found with
  | none => ((none, start), none)
  | some z =>
    if tracked.map Element.ref ≠ some z.ref then ((some z, now), none)
    else if 1500 ≤ now - start then
      ((tracked, now + 2000), some { elementName := z.dataName })
    else ((tracked, start), none)

/-- The tracker is tracking with the smoothed gaze point at `p`, its stare
tracker holds the element with identity `r`, and the dwell clock reads `st`. -/
def Dwelling (s : EyeTracking) (p : Point) (r : Nat) (st : ℤ) : Prop :=
  s.isTracking = true ∧ s.stareThreshold = 3 / 2 ∧ s.smoothedGazeData = p ∧
  s.stareElement.map Element.ref = some r ∧ s.stareStartTime = st

/-- What a tracking state shows to `checkStaring`: the smoothed gaze point, the
tracked element and the dwell clock, with the constructor's constants. -/
def StareView (s : EyeTracking) (p : Point) (e : Option Element) (st : ℤ) : Prop :=
  s.isTracking = true ∧ s.stareThreshold = 3 / 2 ∧ s.smoothingFactor = 3 / 10 ∧
  s.smoothedGazeData = p ∧ s.stareElement = e ∧ s.stareStartTime = st

/-- The stare tracker run on its own: from the smoothed point `p`, the tracked
element `e` and the dwell clock `st`, the element found and the activation
requested at each delivery. -/
def simulateStare (p : Point) (e : Option Element) (st : ℤ) :
    List GazeInput → List (Option Element × Option ActivationEvent)
  | [] => []
  | i :: rest =>
    match i.data with
    | none => (findElement p i.env.activatable, none) :: simulateStare p e st rest
    | some d =>
      (findElement { x := lerp p.x d.x (3 / 10), y := lerp p.y d.y (3 / 10) } i.env.activatable,
        (dwellStep e st
          (findElement { x := lerp p.x d.x (3 / 10), y := lerp p.y d.y (3 / 10) }
            i.env.activatable) i.env.now).2) ::
      simulateStare { x := lerp p.x d.x (3 / 10), y := lerp p.y d.y (3 / 10) }
        (dwellStep e st
          (findElement { x := lerp p.x d.x (3 / 10), y := lerp p.y d.y (3 / 10) }
            i.env.activatable) i.env.now).1.1
        (dwellStep e st
          (findElement { x := lerp p.x d.x (3 / 10), y := lerp p.y d.y (3 / 10) }
            i.env.activatable) i.env.now).1.2
        rest

/-- A zone that covers `exampleZone` and comes after it in document order. -/
def coverZone : Element :=
  { ref := 3, dataName := some "overlay",
    rect := { left := 0, right := 200, top := 0, bottom := 200 } }

/-- A zone with negative width and height. -/
def malformedZone : Element :=
  { ref := 9, dataName := some "broken",
    rect := { left := 100, right := 0, top := 100, bottom := 0 } }

/-! ## utils.js: clamp; eye-tracking.js: calibration grid -/

/-- `clamp(value, min, max)` of utils.js: `Math.min(Math.max(value, min), max)`. -/
def clamp (value min max : ℚ) : ℚ :=
  Min.min (Max.max value min) max

/-- `generateCalibrationPoints()`: the stored points are reset and the loop
`for (i = 0; i < 9; i++)` pushes `{x: 10 + (i % 3) * 40, y: 10 + floor(i / 3) * 40}`. -/
def EyeTracking.generateCalibrationPoints (s : EyeTracking) : EyeTracking :=
  { s with
    calibrationPoints :=
      (List.range 9).foldl
        (fun points i => points ++ [{ x := 10 + (i % 3) * 40, y := 10 + (i / 3) * 40 }]) [] }

/-! ## performance-optimizer.js -/

/-- The comparison `v < q` of JavaScript against a finite number: false for `NaN`. -/
def JSNumber.lt (v : JSNumber) (q : ℚ) : Bool :=
  match v with
  | JSNumber.finite a => decide (a < q)
  | JSNumber.posInfinity => false
  | JSNumber.negInfinity => true
  | JSNumber.nan => false

/-- The comparison `v > q` of JavaScript against a finite number: false for `NaN`. -/
def JSNumber.gt (v : JSNumber) (q : ℚ) : Bool :=
  match v with
  | JSNumber.finite a => decide (a > q)
  | JSNumber.posInfinity => true
  | JSNumber.negInfinity => false
  | JSNumber.nan => false

/-- Fields of a `PerformanceOptimizer` instance.  The configuration objects of
the constructor (`thresholds`, `optimizations`, `statsMaxLength` = 60,
`fpsUpdateInterval` = 1000) are assigned once and never written again; their
values appear as literals in the functions below.  The three arrays of `stats`
are the fields `statsFps`, `statsFrameTime` and `statsMemory`. -/
structure PerformanceOptimizer where
  fps : ℚ
  frameTime : ℚ
  frameCount : ℕ
  lastTime : ℚ
  lastFpsUpdate : ℚ
  isMonitoring : Bool
  optimizationLevel : ℤ
  statsFps : List ℚ
  statsFrameTime : List ℚ
  statsMemory : List ℚ
  initialized : Bool
  deriving DecidableEq

/-- The constructor of `PerformanceOptimizer`. -/
def PerformanceOptimizer.new : PerformanceOptimizer :=
  { fps := 0
    frameTime := 0
    frameCount := 0
    lastTime := 0
    lastFpsUpdate := 0
    isMonitoring := false
    optimizationLevel := 0
    statsFps := []
    statsFrameTime := []
    statsMemory := []
    initialized := false }

/-- An exception thrown by the JavaScript runtime: calling a property that is
not a function (`x.slice(...)` where `x.slice` is `undefined`) throws a
`TypeError`. -/
inductive JSError where
  | typeError
  deriving DecidableEq

/-- The properties every plain object inherits from `Object.prototype` (ECMAScript
with Annex B), each with what `.length` yields on its value: the declared number
of parameters for the built-in functions, and nothing (`undefined`) for the
prototype object that `__proto__` yields. -/
def objectPrototype : List (String × Option ℕ) :=
  [("constructor", some 1), ("__defineGetter__", some 2), ("__defineSetter__", some 2),
   ("hasOwnProperty", some 1), ("__lookupGetter__", some 1), ("__lookupSetter__", some 1),
   ("isPrototypeOf", some 1), ("propertyIsEnumerable", some 1), ("toString", some 0),
   ("valueOf", some 0), ("__proto__", none), ("toLocaleString", some 0)]

/-- What the property lookup `this.stats[type]` yields: one of the three arrays,
a value inherited from `Object.prototype` (truthy, not an array, with its
`.length`), or `undefined`. -/
inductive StatsValue where
  | history (values : List ℚ)
  | inherited (length : Option ℕ)
  | undefined
  deriving DecidableEq

/-- `this.stats[type]` on the object literal `{ fps, frameTime, memory }`: own
properties first, then the prototype. -/
def PerformanceOptimizer.stats (s : PerformanceOptimizer) (type : String) : StatsValue :=
  if type = "fps" then StatsValue.history s.statsFps
  else if type = "frameTime" then StatsValue.history s.statsFrameTime
  else if type = "memory" then StatsValue.history s.statsMemory
  else
    match objectPrototype.lookup type with
    | some length => StatsValue.inherited length
    | none => StatsValue.undefined

/-- Assignment to the array `this.stats[type]` of a known key. -/
def PerformanceOptimizer.setStats (s : PerformanceOptimizer) (type : String)
    (values : List ℚ) : PerformanceOptimizer :=
  if type = "fps" then { s with statsFps := values }
  else if type = "frameTime" then { s with statsFrameTime := values }
  else if type = "memory" then { s with statsMemory := values }
  else s

/-- `addStat(type, value)`.  An inherited value passes the guard
`!this.stats[type]` and has no `push`, so the call throws before any write. -/
def PerformanceOptimizer.addStat (s : PerformanceOptimizer) (type : String) (value : ℚ) :
    Except JSError PerformanceOptimizer :=
  match s.stats type with
  | StatsValue.undefined => Except.ok s
  | StatsValue.inherited _ => Except.error JSError.typeError
  | StatsValue.history history =>
    let pushed := history ++ [value]
    Except.ok (s.setStats type (if pushed.length > 60 then pushed.tail else pushed))

/-- `getAverageStat(type, samples)`.  `slice(-count)` is the whole array when
`count` is 0 and the last `count` entries otherwise.  An inherited value is
truthy: the guard returns 0 only when its `.length` is 0, otherwise the call
reaches `.slice`, which the value does not have, and throws. -/
def PerformanceOptimizer.getAverageStat (s : PerformanceOptimizer) (type : String)
    (samples : ℕ) : Except JSError JSNumber :=
  match s.stats type with
  | StatsValue.undefined => Except.ok (JSNumber.finite 0)
  | StatsValue.inherited length =>
    if length = some 0 then Except.ok (JSNumber.finite 0)
    else Except.error JSError.typeError
  | StatsValue.history history =>
    if history.length = 0 then Except.ok (JSNumber.finite 0)
    else
      let count := Min.min samples history.length
      let values := if count = 0 then history else history.drop (history.length - count)
      Except.ok (jsDiv (values.foldl (fun sum value => sum + value) 0) (count : ℚ))

/-- `setOptimizationLevel(level)`; `applyOptimizations` writes to the renderer only. -/
def PerformanceOptimizer.setOptimizationLevel (s : PerformanceOptimizer) (level : ℤ) :
    PerformanceOptimizer :=
  let level := Max.max 0 (Min.min 3 level)
  if level = s.optimizationLevel then s
  else { s with optimizationLevel := level }

/-- `checkOptimization()`. -/
def PerformanceOptimizer.checkOptimization (s : PerformanceOptimizer) :
    Except JSError PerformanceOptimizer := do
  let avgFps ← s.getAverageStat "fps" 5
  let avgFrameTime ← s.getAverageStat "frameTime" 5
  let newLevel :=
    if avgFps.lt 20 || avgFrameTime.gt 50 then Min.min 3 (s.optimizationLevel + 1)
    else if avgFps.lt 30 || avgFrameTime.gt 33 then Min.min 2 s.optimizationLevel
    else if avgFps.gt 50 && avgFrameTime.lt 16 && decide (s.optimizationLevel > 0) then
      Max.max 0 (s.optimizationLevel - 1)
    else s.optimizationLevel
  pure (if newLevel ≠ s.optimizationLevel then s.setOptimizationLevel newLevel else s)

/-- An array lookup `table[level]`: `none` (undefined) outside the array. -/
def tableLookup {α : Type} (table : List α) (level : ℤ) : Option α :=
  if level < 0 then none else table[level.toNat]?

/-- The values `applyOptimizations()` reads from the tables of `optimizations`. -/
structure AppliedSettings where
  particleCount : Option ℕ
  shadowsEnabled : Option Bool
  renderScale : Option ℚ
  effectsQuality : Option ℚ
  deriving DecidableEq

/-- The table lookups of `applyOptimizations()` at the current level. -/
def PerformanceOptimizer.applyOptimizations (s : PerformanceOptimizer) : AppliedSettings :=
  { particleCount := tableLookup [1000, 500, 200, 100] s.optimizationLevel
    shadowsEnabled := tableLookup [true, true, false, false] s.optimizationLevel
    renderScale := tableLookup [1, 9 / 10, 8 / 10, 7 / 10] s.optimizationLevel
    effectsQuality := tableLookup [1, 8 / 10, 6 / 10, 4 / 10] s.optimizationLevel }

/-- `Math.round`: the nearest integer, halves rounded up. -/
def mathRound (x : ℚ) : ℤ :=
  ⌊x + 1 / 2⌋

/-- `monitorPerformance()` at `performance.now() = now`; `heap` is
`performance.memory.usedJSHeapSize` when the browser provides it. -/
def PerformanceOptimizer.monitorPerformance (s : PerformanceOptimizer) (now : ℚ)
    (heap : Option ℚ) : Except JSError PerformanceOptimizer :=
  if !s.isMonitoring then pure s
  else do
    let s1 := { s with frameTime := now - s.lastTime }
    let s2 ← s1.addStat "frameTime" s1.frameTime
    let s3 := { s2 with frameCount := s2.frameCount + 1 }
    let s4 ←
      if now - s3.lastFpsUpdate ≥ 1000 then do
        let s5 := { s3 with
          fps := (mathRound ((s3.frameCount * 1000 : ℚ) / (now - s3.lastFpsUpdate)) : ℚ) }
        let s6 := { s5 with lastFpsUpdate := now, frameCount := 0 }
        let s7 ← s6.addStat "fps" s6.fps
        let s8 ← s7.checkOptimization
        match heap with
        | some used => s8.addStat "memory" (used / 1048576)
        | none => pure s8
      else pure s3
    pure { s4 with lastTime := now }

/-- `startMonitoring()`; `now` and `now2` are the two readings of
`performance.now()` it makes. -/
def PerformanceOptimizer.startMonitoring (s : PerformanceOptimizer) (now now2 : ℚ)
    (heap : Option ℚ) : Except JSError PerformanceOptimizer :=
  if s.isMonitoring then pure s
  else
    ({ s with isMonitoring := true, lastTime := now, frameCount := 0,
              lastFpsUpdate := now } : PerformanceOptimizer).monitorPerformance now2 heap

/-- `stopMonitoring()`. -/
def PerformanceOptimizer.stopMonitoring (s : PerformanceOptimizer) : PerformanceOptimizer :=
  { s with isMonitoring := false }

/-- `init()`. -/
def PerformanceOptimizer.init (s : PerformanceOptimizer) (now now2 : ℚ) (heap : Option ℚ) :
    Except JSError PerformanceOptimizer := do
  let s1 ← s.startMonitoring now now2 heap
  pure { s1.setOptimizationLevel 1 with initialized := true }

/-- A sequence of `addStat(type, value)` calls, one for each value in order; it
ends at the first call that throws. -/
def PerformanceOptimizer.addStats (s : PerformanceOptimizer) (type : String) :
    List ℚ → Except JSError PerformanceOptimizer
  | [] => pure s
  | value :: values => do
    let s1 ← s.addStat type value
    s1.addStats type values

/-- States a `PerformanceOptimizer` can be in: the constructor followed by any
calls of its methods that return.  A call that throws does so before it has
written anything (`addStat` on an inherited key; the calls the other methods
make use the three own keys and never throw). -/
inductive OptimizerReachable : PerformanceOptimizer → Prop where
  | constructed : OptimizerReachable PerformanceOptimizer.new
  | init (s after : PerformanceOptimizer) (now now2 : ℚ) (heap : Option ℚ) :
      OptimizerReachable s → s.init now now2 heap = Except.ok after →
      OptimizerReachable after
  | start (s after : PerformanceOptimizer) (now now2 : ℚ) (heap : Option ℚ) :
      OptimizerReachable s → s.startMonitoring now now2 heap = Except.ok after →
      OptimizerReachable after
  | stop (s : PerformanceOptimizer) : OptimizerReachable s → OptimizerReachable s.stopMonitoring
  | monitor (s after : PerformanceOptimizer) (now : ℚ) (heap : Option ℚ) :
      OptimizerReachable s → s.monitorPerformance now heap = Except.ok after →
      OptimizerReachable after
  | stat (s after : PerformanceOptimizer) (type : String) (value : ℚ) :
      OptimizerReachable s → s.addStat type value = Except.ok after →
      OptimizerReachable after
  | check (s after : PerformanceOptimizer) :
      OptimizerReachable s → s.checkOptimization = Except.ok after →
      OptimizerReachable after
  | level (s : PerformanceOptimizer) (level : ℤ) :
      OptimizerReachable s → OptimizerReachable (s.setOptimizationLevel level)

/-- What the optimizer keeps from call to call: the level is in `0..3` and each
history holds at most 60 values. -/
def PerformanceOptimizer.WithinBounds (s : PerformanceOptimizer) : Prop :=
  (0 ≤ s.optimizationLevel ∧ s.optimizationLevel ≤ 3) ∧
  s.statsFps.length ≤ 60 ∧ s.statsFrameTime.length ≤ 60 ∧ s.statsMemory.length ≤ 60

/-- The optimizer after `init()` on a fresh instance with the clock readings 0
and 16: monitoring, one frame of 16 ms recorded, level 1. -/
def startedOptimizer : PerformanceOptimizer :=
  { PerformanceOptimizer.new with
    frameTime := 16
    frameCount := 1
    lastTime := 16
    isMonitoring := true
    optimizationLevel := 1
    statsFrameTime := [16]
    initialized := true }

/-- An optimizer at level 1 whose last five `fps` readings are 15. -/
def slowOptimizer : PerformanceOptimizer :=
  { PerformanceOptimizer.new with
    optimizationLevel := 1
    statsFps := [15, 15, 15, 15, 15] }

/-! ## hud-voice.js -/

/-- A completion callback as far as the voice is concerned: the calls
`speak(text, callback)` it makes, in order.  `done` makes no call (it also
stands for a missing callback). -/
inductive Callback where
  | done
  | speakThen (text : String) (callback : Callback) (rest : Callback)
  deriving DecidableEq

/-- Fields of a `HUDVoice` instance that `speak` reads or writes
(`hasSelectedVoice` is `selectedVoice !== null`). -/
structure HUDVoice where
  hasSelectedVoice : Bool
  speaking : Bool
  queue : List (String × Callback)
  initialized : Bool
  deriving DecidableEq

/-- The voice together with the browser side of speech synthesis: the
utterances handed to `speechSynthesis.speak` that have not ended yet (each with
the callback its `onend`/`onerror` handlers close over), and two histories: the
texts handed to `speechSynthesis.speak` so far, and the texts callers asked
`speak` for so far. -/
structure VoiceWorld where
  voice : HUDVoice
  utterances : List (String × Callback)
  started : List String
  requested : List String
  deriving DecidableEq

/-- The body of `speak(text, callback)` after the guard for a missing voice:
queue while speaking, otherwise start the utterance. -/
def VoiceWorld.queueOrStart (w : VoiceWorld) (text : String) (callback : Callback) :
    VoiceWorld :=
  if w.voice.speaking then
    { w with voice := { w.voice with queue := w.voice.queue ++ [(text, callback)] } }
  else
    { w with
      voice := { w.voice with speaking := true }
      utterances := w.utterances ++ [(text, callback)]
      started := w.started ++ [text] }

/-- Running a callback: each call `speak(text, callback)` it makes is recorded
as requested and executed (`speak` runs the callback at once when the voice is
not initialized or has no voice selected). -/
def VoiceWorld.runCallback : Callback → VoiceWorld → VoiceWorld
  | Callback.done, w => w
  | Callback.speakThen text callback rest, w =>
    VoiceWorld.runCallback rest
      (if !w.voice.initialized || !w.voice.hasSelectedVoice then
        VoiceWorld.runCallback callback { w with requested := w.requested ++ [text] }
      else
        VoiceWorld.queueOrStart { w with requested := w.requested ++ [text] } text callback)

/-- `speak(text, callback)`. -/
def VoiceWorld.speak (w : VoiceWorld) (text : String) (callback : Callback) : VoiceWorld :=
  if !w.voice.initialized || !w.voice.hasSelectedVoice then w.runCallback callback
  else w.queueOrStart text callback

/-- The handler `utterance.onend` of the utterance being spoken (`onerror` has
the same body): `speaking = false`, the callback, then the head of the queue is
handed to `speak`. -/
def VoiceWorld.onend (w : VoiceWorld) : VoiceWorld :=
  match w.utterances with
  | [] => w
  | (_, callback) :: pending =>
    let w1 := { w with utterances := pending, voice := { w.voice with speaking := false } }
    let w2 := w1.runCallback callback
    match w2.voice.queue with
    | [] => w2
    | (text, next) :: queue =>
      VoiceWorld.speak { w2 with voice := { w2.voice with queue := queue } } text next

/-- What happens to the voice: a caller asks for a text, or the utterance
being spoken ends or fails. -/
inductive VoiceEvent where
  | speak (text : String) (callback : Callback)
  | ended
  | failed

/-- One event. -/
def VoiceWorld.handle (w : VoiceWorld) : VoiceEvent → VoiceWorld
  | VoiceEvent.speak text callback =>
    VoiceWorld.speak { w with requested := w.requested ++ [text] } text callback
  | VoiceEvent.ended => w.onend
  | VoiceEvent.failed => w.onend

/-- A sequence of events. -/
def VoiceWorld.runEvents (w : VoiceWorld) (events : List VoiceEvent) : VoiceWorld :=
  events.foldl VoiceWorld.handle w

/-- The voice after `init()` with a voice selected, silent, nothing queued. -/
def VoiceWorld.ready : VoiceWorld :=
  { voice := { hasSelectedVoice := true, speaking := false, queue := [], initialized := true }
    utterances := []
    started := []
    requested := [] }

/-- The voice keeps its promise of first in, first out: it is set up, the
texts requested so far are the texts started followed by the texts queued, a
silent voice has nothing queued, and no pending callback speaks. -/
def VoiceWorld.Orderly (w : VoiceWorld) : Prop :=
  w.voice.initialized = true ∧ w.voice.hasSelectedVoice = true ∧
  w.requested = w.started ++ w.voice.queue.map Prod.fst ∧
  (w.voice.speaking = false → w.voice.queue = []) ∧
  (∀ u ∈ w.utterances, u.2 = Callback.done) ∧
  (∀ q ∈ w.voice.queue, q.2 = Callback.done)

/-! ## Frame lemmas -/

theorem checkStaring_frame (env : Env) (s : EyeTracking) :
    (s.checkStaring env).1.smoothedGazeData = s.smoothedGazeData ∧
    (s.checkStaring env).1.gazeHistory = s.gazeHistory ∧
    (s.checkStaring env).1.isTracking = s.isTracking ∧
    (s.checkStaring env).1.smoothingFactor = s.smoothingFactor ∧
    (s.checkStaring env).1.gazeData = s.gazeData ∧
    (s.checkStaring env).1.lastGazeData = s.lastGazeData := by
  unfold EyeTracking.checkStaring
  split
  · simp
  · split
    · split
      · simp
      · dsimp only
        split <;> simp
    · split <;> simp

theorem gazeListener_accept (env : Env) (s : EyeTracking) (d : Point) (timestamp : ℚ)
    (ht : s.isTracking = true) :
    (s.gazeListener env (some d) timestamp).1.smoothedGazeData =
        { x := lerp s.smoothedGazeData.x d.x s.smoothingFactor
          y := lerp s.smoothedGazeData.y d.y s.smoothingFactor } ∧
    (s.gazeListener env (some d) timestamp).1.gazeHistory =
        (if (s.gazeHistory ++ [pushedSnapshot s d timestamp]).length > 100
          then (s.gazeHistory ++ [pushedSnapshot s d timestamp]).tail
          else s.gazeHistory ++ [pushedSnapshot s d timestamp]) ∧
    (s.gazeListener env (some d) timestamp).1.isTracking = true ∧
    (s.gazeListener env (some d) timestamp).1.smoothingFactor = s.smoothingFactor := by
  unfold EyeTracking.gazeListener
  simp only [ht, Bool.not_true, Bool.false_eq_true, if_false]
  refine ⟨?_, ?_, ?_, ?_⟩
  · rw [(checkStaring_frame env _).1]
  · rw [(checkStaring_frame env _).2.1]; rfl
  · rw [(checkStaring_frame env _).2.2.1]
  · rw [(checkStaring_frame env _).2.2.2.1]

theorem gazeListener_reject (env : Env) (s : EyeTracking) (data : Option Point)
    (timestamp : ℚ) (h : data = none ∨ s.isTracking = false) :
    s.gazeListener env data timestamp = (s, none) := by
  unfold EyeTracking.gazeListener
  cases data with
  | none => rfl
  | some d =>
    rcases h with h | h
    · cases h
    · simp [h]

theorem gazeListener_smoothingFactor (env : Env) (s : EyeTracking) (data : Option Point)
    (timestamp : ℚ) :
    (s.gazeListener env data timestamp).1.smoothingFactor = s.smoothingFactor := by
  cases data with
  | none => rfl
  | some d =>
    cases ht : s.isTracking with
    | false => rw [gazeListener_reject env s (some d) timestamp (Or.inr ht)]
    | true => exact (gazeListener_accept env s d timestamp ht).2.2.2

theorem reachable_smoothingFactor (s : EyeTracking) (h : Reachable s) :
    s.smoothingFactor = 3 / 10 := by
  induction h with
  | constructed => rfl
  | init s _ ih => exact ih
  | start s _ ih =>
    unfold EyeTracking.startTracking
    split <;> exact ih
  | stop s _ ih => exact ih
  | calibration s _ _ _ _ ih => exact ih
  | gaze s env data timestamp _ ih =>
    rw [gazeListener_smoothingFactor]; exact ih

theorem run_nil (s : EyeTracking) : s.run [] = s := rfl

theorem run_cons (s : EyeTracking) (i : GazeInput) (rest : List GazeInput) :
    s.run (i :: rest) = (s.gazeListener i.env i.data i.timestamp).1.run rest := rfl

/-! ## Exponential smoothing -/

/-- C1: for a gaze sample accepted by the listener (data non-null while
tracking) each coordinate of the smoothed gaze position becomes
`old + (raw - old) * 0.3`, the x coordinate from the raw x only and the y
coordinate from the raw y only. -/
theorem gazeListener_exponential_smoothing (s : EyeTracking) (env : Env) (d : Point)
    (timestamp : ℚ) (hr : Reachable s) (ht : s.isTracking = true) :
    (s.gazeListener env (some d) timestamp).1.smoothedGazeData.x =
        s.smoothedGazeData.x + (d.x - s.smoothedGazeData.x) * (3 / 10) ∧
    (s.gazeListener env (some d) timestamp).1.smoothedGazeData.y =
        s.smoothedGazeData.y + (d.y - s.smoothedGazeData.y) * (3 / 10) := by
  rw [(gazeListener_accept env s d timestamp ht).1, reachable_smoothingFactor s hr]
  exact ⟨rfl, rfl⟩

theorem tracking_reachable : Reachable EyeTracking.tracking :=
  Reachable.start _ (Reachable.init _ Reachable.constructed)

theorem gazeListener_exponential_smoothing_witness :
    (EyeTracking.tracking.gazeListener { activatable := [], now := 0 }
        (some { x := 100, y := 50 }) 0).1.smoothedGazeData.x =
      EyeTracking.tracking.smoothedGazeData.x +
        (100 - EyeTracking.tracking.smoothedGazeData.x) * (3 / 10) ∧
    (EyeTracking.tracking.gazeListener { activatable := [], now := 0 }
        (some { x := 100, y := 50 }) 0).1.smoothedGazeData.y =
      EyeTracking.tracking.smoothedGazeData.y +
        (50 - EyeTracking.tracking.smoothedGazeData.y) * (3 / 10) :=
  gazeListener_exponential_smoothing EyeTracking.tracking { activatable := [], now := 0 }
    { x := 100, y := 50 } 0 tracking_reachable rfl

theorem run_constant_closed_form (x0 y0 : ℚ) (inputs : List GazeInput) :
    ∀ s : EyeTracking, s.smoothingFactor = 3 / 10 → s.isTracking = true →
      (∀ i ∈ inputs, i.data = some { x := x0, y := y0 }) →
      (s.run inputs).smoothedGazeData.x =
          x0 + (7 / 10) ^ inputs.length * (s.smoothedGazeData.x - x0) ∧
      (s.run inputs).smoothedGazeData.y =
          y0 + (7 / 10) ^ inputs.length * (s.smoothedGazeData.y - y0) := by
  induction inputs with
  | nil => intro s _ _ _; simp [run_nil]
  | cons i rest ih =>
    intro s hf ht hall
    have hi : i.data = some { x := x0, y := y0 } := hall i (List.mem_cons_self _ _)
    have hacc := gazeListener_accept i.env s { x := x0, y := y0 } i.timestamp ht
    have hstep := ih (s.gazeListener i.env i.data i.timestamp).1
      (by rw [hi, hacc.2.2.2]; exact hf) (by rw [hi]; exact hacc.2.2.1)
      (fun j hj => hall j (List.mem_cons_of_mem _ hj))
    rw [run_cons, hstep.1, hstep.2, hi, hacc.1, hf]
    simp only [lerp, List.length_cons, pow_succ]
    constructor <;> ring

/-- C2: under a constant raw position `(x0, y0)` the smoothed position after
`n` accepted samples is `(x0, y0) + 0.7^n * (s0 - (x0, y0))`, and for every
`ε > 0` there is an `N` such that after every `n ≥ N` accepted samples the
smoothed position is within `ε` of `(x0, y0)` (in each coordinate and in
Euclidean distance). -/
theorem smoothing_converges (s : EyeTracking) (x0 y0 : ℚ) (hr : Reachable s)
    (ht : s.isTracking = true) :
    (∀ inputs : List GazeInput, (∀ i ∈ inputs, i.data = some { x := x0, y := y0 }) →
      (s.run inputs).smoothedGazeData.x =
          x0 + (7 / 10) ^ inputs.length * (s.smoothedGazeData.x - x0) ∧
      (s.run inputs).smoothedGazeData.y =
          y0 + (7 / 10) ^ inputs.length * (s.smoothedGazeData.y - y0)) ∧
    (∀ ε : ℚ, 0 < ε → ∃ N : ℕ, ∀ inputs : List GazeInput,
      (∀ i ∈ inputs, i.data = some { x := x0, y := y0 }) → N ≤ inputs.length →
      |(s.run inputs).smoothedGazeData.x - x0| < ε ∧
      |(s.run inputs).smoothedGazeData.y - y0| < ε ∧
      ((s.run inputs).smoothedGazeData.x - x0) ^ 2 +
        ((s.run inputs).smoothedGazeData.y - y0) ^ 2 < ε ^ 2) := by
  have hf := reachable_smoothingFactor s hr
  refine ⟨fun inputs hall => run_constant_closed_form x0 y0 inputs s hf ht hall, ?_⟩
  intro ε hε
  set a := s.smoothedGazeData.x - x0 with ha
  set b := s.smoothedGazeData.y - y0 with hb
  have hM : (0 : ℚ) < |a| + |b| + 1 := by positivity
  obtain ⟨N, hN⟩ := exists_pow_lt_of_lt_one (div_pos hε hM) (by norm_num : (7 / 10 : ℚ) < 1)
  refine ⟨N, fun inputs hall hlen => ?_⟩
  obtain ⟨hx, hy⟩ := run_constant_closed_form x0 y0 inputs s hf ht hall
  have hp0 : (0 : ℚ) < (7 / 10) ^ inputs.length := by positivity
  have hpN : ((7 / 10 : ℚ)) ^ inputs.length ≤ (7 / 10) ^ N :=
    pow_le_pow_of_le_one (by norm_num) (by norm_num) hlen
  have hpε : ((7 / 10 : ℚ)) ^ inputs.length * (|a| + |b| + 1) < ε := by
    have := lt_of_le_of_lt hpN hN
    rwa [lt_div_iff₀ hM] at this
  have ex : (s.run inputs).smoothedGazeData.x - x0 = (7 / 10) ^ inputs.length * a := by
    rw [hx]; ring
  have ey : (s.run inputs).smoothedGazeData.y - y0 = (7 / 10) ^ inputs.length * b := by
    rw [hy]; ring
  rw [ex, ey]
  have hax : |(7 / 10 : ℚ) ^ inputs.length * a| = (7 / 10) ^ inputs.length * |a| := by
    rw [abs_mul, abs_of_pos hp0]
  have hby : |(7 / 10 : ℚ) ^ inputs.length * b| = (7 / 10) ^ inputs.length * |b| := by
    rw [abs_mul, abs_of_pos hp0]
  have hna := abs_nonneg a
  have hnb := abs_nonneg b
  have hsum : (7 / 10 : ℚ) ^ inputs.length * |a| + (7 / 10) ^ inputs.length * |b| < ε := by
    nlinarith
  have h1 : (0 : ℚ) ≤ (7 / 10) ^ inputs.length * |a| := by positivity
  have h2 : (0 : ℚ) ≤ (7 / 10) ^ inputs.length * |b| := by positivity
  refine ⟨by rw [hax]; linarith, by rw [hby]; linarith, ?_⟩
  have e1 : ((7 / 10 : ℚ) ^ inputs.length * a) ^ 2 = ((7 / 10) ^ inputs.length * |a|) ^ 2 := by
    rw [mul_pow, mul_pow, sq_abs]
  have e2 : ((7 / 10 : ℚ) ^ inputs.length * b) ^ 2 = ((7 / 10) ^ inputs.length * |b|) ^ 2 := by
    rw [mul_pow, mul_pow, sq_abs]
  rw [e1, e2]
  nlinarith

theorem smoothing_converges_witness :
    Reachable EyeTracking.tracking ∧ EyeTracking.tracking.isTracking = true ∧
    ((EyeTracking.tracking.run [plainSample 100 50 0, plainSample 100 50 16]).smoothedGazeData.x =
        100 + (7 / 10) ^ [plainSample 100 50 0, plainSample 100 50 16].length *
          (EyeTracking.tracking.smoothedGazeData.x - 100) ∧
     (EyeTracking.tracking.run [plainSample 100 50 0, plainSample 100 50 16]).smoothedGazeData.y =
        50 + (7 / 10) ^ [plainSample 100 50 0, plainSample 100 50 16].length *
          (EyeTracking.tracking.smoothedGazeData.y - 50)) :=
  ⟨tracking_reachable, rfl,
    (smoothing_converges EyeTracking.tracking 100 50 tracking_reachable rfl).1
      [plainSample 100 50 0, plainSample 100 50 16] (by simp [plainSample])⟩

/-! ## The bounded gaze history -/

theorem run_isTracking (inputs : List GazeInput) :
    ∀ s : EyeTracking, s.isTracking = true → (s.run inputs).isTracking = true := by
  induction inputs with
  | nil => intro s h; exact h
  | cons i rest ih =>
    intro s h
    rw [run_cons]
    apply ih
    cases hd : i.data with
    | none => rw [gazeListener_reject i.env s none i.timestamp (Or.inl rfl)]; exact h
    | some d => exact (gazeListener_accept i.env s d i.timestamp h).2.2.1

/-- An accepted sample appends its snapshot and, on overflow, drops the oldest entry. -/
theorem gazeListener_history (env : Env) (s : EyeTracking) (d : Point) (timestamp : ℚ)
    (ht : s.isTracking = true) (hlen : s.gazeHistory.length ≤ 100) :
    (s.gazeListener env (some d) timestamp).1.gazeHistory =
      (s.gazeHistory ++ [pushedSnapshot s d timestamp]).drop (s.gazeHistory.length + 1 - 100) := by
  rw [(gazeListener_accept env s d timestamp ht).2.1]
  by_cases h : s.gazeHistory.length = 100
  · have h1 : (s.gazeHistory ++ [pushedSnapshot s d timestamp]).length > 100 := by
      simp [h]
    rw [if_pos h1, h]
    simp
  · have h1 : ¬ (s.gazeHistory ++ [pushedSnapshot s d timestamp]).length > 100 := by
      simp only [List.length_append, List.length_singleton]; omega
    have h2 : s.gazeHistory.length + 1 - 100 = 0 := by omega
    rw [if_neg h1, h2, List.drop_zero]

theorem gazeListener_history_length (env : Env) (s : EyeTracking) (data : Option Point)
    (timestamp : ℚ) (hlen : s.gazeHistory.length ≤ 100) :
    (s.gazeListener env data timestamp).1.gazeHistory.length ≤ 100 := by
  cases data with
  | none => exact hlen
  | some d =>
    cases ht : s.isTracking with
    | false => rw [gazeListener_reject env s (some d) timestamp (Or.inr ht)]; exact hlen
    | true =>
      rw [gazeListener_history env s d timestamp ht hlen]
      simp only [List.length_drop, List.length_append, List.length_singleton]
      omega

theorem reachable_history_length (s : EyeTracking) (h : Reachable s) :
    s.gazeHistory.length ≤ 100 := by
  induction h with
  | constructed => simp [EyeTracking.new]
  | init s _ ih => exact ih
  | start s _ ih =>
    unfold EyeTracking.startTracking
    split <;> exact ih
  | stop s _ ih => exact ih
  | calibration s _ _ _ _ ih => exact ih
  | gaze s env data timestamp _ ih => exact gazeListener_history_length env s data timestamp ih

theorem samplesWithData_cons_none (i : GazeInput) (rest : List GazeInput)
    (h : i.data = none) : samplesWithData (i :: rest) = samplesWithData rest := by
  simp [samplesWithData, h]

theorem samplesWithData_cons_some (i : GazeInput) (rest : List GazeInput) (d : Point)
    (h : i.data = some d) :
    samplesWithData (i :: rest) = (d, i.timestamp) :: samplesWithData rest := by
  simp [samplesWithData, h]

/-- Trimming a list to its last 100 entries before appending more and trimming
again gives the last 100 entries of the whole. -/
theorem drop_overflow_append {α : Type} (L T : List α) (k : ℕ) (hk : k = L.length - 100) :
    (L.drop k ++ T).drop ((L.drop k ++ T).length - 100) =
      (L ++ T).drop ((L ++ T).length - 100) := by
  have hk1 : k ≤ L.length := by omega
  have h1 : L.drop k ++ T = (L ++ T).drop k := (List.drop_append_of_le_length hk1).symm
  have e : k + (((L ++ T).drop k).length - 100) = (L ++ T).length - 100 := by
    simp only [List.length_drop, List.length_append]
    omega
  rw [h1, List.drop_drop, e]

/-- The history after a run, from any tracking state with at most 100 entries. -/
theorem run_history (inputs : List GazeInput) :
    ∀ s : EyeTracking, s.isTracking = true → s.gazeHistory.length ≤ 100 →
      (s.run inputs).gazeHistory =
        (s.gazeHistory ++
            specSnapshots s.smoothingFactor s.smoothedGazeData (samplesWithData inputs)).drop
          ((s.gazeHistory ++
            specSnapshots s.smoothingFactor s.smoothedGazeData
              (samplesWithData inputs)).length - 100) := by
  induction inputs with
  | nil =>
    intro s _ hlen
    have h0 : s.gazeHistory.length - 100 = 0 := by omega
    simp [run_nil, samplesWithData, specSnapshots, h0]
  | cons i rest ih =>
    intro s ht hlen
    rw [run_cons]
    cases hd : i.data with
    | none =>
      rw [gazeListener_reject i.env s none i.timestamp (Or.inl rfl),
        samplesWithData_cons_none i rest hd]
      exact ih s ht hlen
    | some d =>
      have hacc := gazeListener_accept i.env s d i.timestamp ht
      have hhist := gazeListener_history i.env s d i.timestamp ht hlen
      have hlen1 := gazeListener_history_length i.env s (some d) i.timestamp hlen
      have hspec : specSnapshots s.smoothingFactor s.smoothedGazeData
            ((d, i.timestamp) :: samplesWithData rest) =
          pushedSnapshot s d i.timestamp ::
            specSnapshots s.smoothingFactor
              { x := lerp s.smoothedGazeData.x d.x s.smoothingFactor
                y := lerp s.smoothedGazeData.y d.y s.smoothingFactor }
              (samplesWithData rest) := rfl
      rw [ih _ hacc.2.2.1 hlen1, samplesWithData_cons_some i rest d hd, hacc.2.2.2, hacc.1,
        hhist, hspec]
      have happ : ∀ T : List GazeSnapshot,
          s.gazeHistory ++ pushedSnapshot s d i.timestamp :: T =
            (s.gazeHistory ++ [pushedSnapshot s d i.timestamp]) ++ T := by
        intro T; simp
      generalize specSnapshots s.smoothingFactor _ (samplesWithData rest) = T
      rw [happ T]
      exact drop_overflow_append (s.gazeHistory ++ [pushedSnapshot s d i.timestamp]) _
        (s.gazeHistory.length + 1 - 100)
        (by rw [List.length_append, List.length_singleton])

theorem specSnapshots_length (alpha : ℚ) (samples : List (Point × ℚ)) :
    ∀ p : Point, (specSnapshots alpha p samples).length = samples.length := by
  induction samples with
  | nil => intro p; rfl
  | cons a rest ih =>
    intro p
    obtain ⟨d, t⟩ := a
    simp [specSnapshots, ih]

theorem run_reachable (inputs : List GazeInput) :
    ∀ s : EyeTracking, Reachable s → Reachable (s.run inputs) := by
  induction inputs with
  | nil => intro s h; exact h
  | cons i rest ih =>
    intro s h
    rw [run_cons]
    exact ih _ (Reachable.gaze s i.env i.data i.timestamp h)

theorem run_history_from_empty (s : EyeTracking) (inputs : List GazeInput)
    (ht : s.isTracking = true) (hh : s.gazeHistory = []) :
    (s.run inputs).gazeHistory =
      (specSnapshots s.smoothingFactor s.smoothedGazeData (samplesWithData inputs)).drop
        ((samplesWithData inputs).length - 100) := by
  rw [run_history inputs s ht (by simp [hh]), hh, List.nil_append, specSnapshots_length]

theorem run_history_length_from_empty (s : EyeTracking) (inputs : List GazeInput)
    (ht : s.isTracking = true) (hh : s.gazeHistory = []) :
    (s.run inputs).gazeHistory.length = min (samplesWithData inputs).length 100 := by
  rw [run_history_from_empty s inputs ht hh, List.length_drop, specSnapshots_length]
  omega

/-- C3: the gaze history never holds more than 100 entries (in every reachable
state), and from the empty history its length after `n` accepted samples is
`min n 100`, whatever else is delivered in between. -/
theorem gazeHistory_length_bounded :
    (∀ s : EyeTracking, Reachable s → s.gazeHistory.length ≤ 100) ∧
    (∀ (s : EyeTracking) (inputs : List GazeInput),
      s.isTracking = true → s.gazeHistory = [] →
      (s.run inputs).gazeHistory.length = min (samplesWithData inputs).length 100 ∧
      (s.run inputs).gazeHistory.length ≤ 100) := by
  refine ⟨reachable_history_length, fun s inputs ht hh => ?_⟩
  have h := run_history_length_from_empty s inputs ht hh
  exact ⟨h, by rw [h]; exact Nat.min_le_right _ _⟩

theorem samplesWithData_replicate (n : ℕ) (x y t : ℚ) :
    (samplesWithData (List.replicate n (plainSample x y t))).length = n := by
  induction n with
  | zero => rfl
  | succ k ih =>
    rw [List.replicate_succ, samplesWithData_cons_some _ _ { x := x, y := y } rfl,
      List.length_cons, ih]

theorem gazeHistory_length_bounded_witness :
    EyeTracking.tracking.isTracking = true ∧ EyeTracking.tracking.gazeHistory = [] ∧
    (EyeTracking.tracking.run (List.replicate 500 (plainSample 640 360 0))).gazeHistory.length
      = 100 := by
  refine ⟨rfl, rfl, ?_⟩
  rw [(gazeHistory_length_bounded.2 EyeTracking.tracking
    (List.replicate 500 (plainSample 640 360 0)) rfl rfl).1, samplesWithData_replicate]
  decide

/-- C4: from the empty history, after `n` accepted samples the gaze history is
the last `min n 100` snapshots (smoothed position after the sample, timestamp
of the sample), oldest first; one more accepted sample appends its snapshot at
the end and, when the history is full, evicts the oldest entry only. -/
theorem gazeHistory_most_recent (s : EyeTracking) (inputs : List GazeInput)
    (hr : Reachable s) (ht : s.isTracking = true) (hh : s.gazeHistory = []) :
    (s.run inputs).gazeHistory =
      (specSnapshots (3 / 10) s.smoothedGazeData (samplesWithData inputs)).drop
        ((samplesWithData inputs).length - 100) ∧
    (s.run inputs).gazeHistory.length = min (samplesWithData inputs).length 100 ∧
    (∀ (env : Env) (d : Point) (timestamp : ℚ),
      ((s.run inputs).gazeListener env (some d) timestamp).1.gazeHistory =
        (if (s.run inputs).gazeHistory.length < 100 then (s.run inputs).gazeHistory
          else (s.run inputs).gazeHistory.tail) ++
        [{ x := ((s.run inputs).gazeListener env (some d) timestamp).1.smoothedGazeData.x
           y := ((s.run inputs).gazeListener env (some d) timestamp).1.smoothedGazeData.y
           timestamp := timestamp }]) := by
  refine ⟨?_, run_history_length_from_empty s inputs ht hh, ?_⟩
  · rw [run_history_from_empty s inputs ht hh, reachable_smoothingFactor s hr]
  · intro env d timestamp
    have ht1 := run_isTracking inputs s ht
    have hlen := reachable_history_length _ (run_reachable inputs s hr)
    rw [gazeListener_history env _ d timestamp ht1 hlen,
      (gazeListener_accept env _ d timestamp ht1).1]
    have hsnap : pushedSnapshot (s.run inputs) d timestamp =
        { x := lerp (s.run inputs).smoothedGazeData.x d.x (s.run inputs).smoothingFactor
          y := lerp (s.run inputs).smoothedGazeData.y d.y (s.run inputs).smoothingFactor
          timestamp := timestamp } := rfl
    rw [← hsnap]
    generalize pushedSnapshot (s.run inputs) d timestamp = snap
    generalize (s.run inputs).gazeHistory = h at hlen ⊢
    by_cases hlt : h.length < 100
    · have h0 : h.length + 1 - 100 = 0 := by omega
      rw [if_pos hlt, h0, List.drop_zero]
    · have h1 : h.length + 1 - 100 = 1 := by omega
      rw [if_neg hlt, h1]
      cases h with
      | nil => simp at hlt
      | cons a t => simp

theorem gazeHistory_most_recent_witness :
    Reachable EyeTracking.tracking ∧ EyeTracking.tracking.isTracking = true ∧
    EyeTracking.tracking.gazeHistory = [] ∧
    (EyeTracking.tracking.run [plainSample 100 50 0, plainSample 100 50 16]).gazeHistory =
      [{ x := 30, y := 15, timestamp := 0 }, { x := 51, y := 51 / 2, timestamp := 16 }] := by
  refine ⟨tracking_reachable, rfl, rfl, ?_⟩
  rw [(gazeHistory_most_recent EyeTracking.tracking
    [plainSample 100 50 0, plainSample 100 50 16] tracking_reachable rfl rfl).1]
  have e : samplesWithData [plainSample 100 50 0, plainSample 100 50 16] =
      [({ x := 100, y := 50 }, 0), ({ x := 100, y := 50 }, 16)] := rfl
  rw [e]
  norm_num [specSnapshots, EyeTracking.tracking, EyeTracking.startTracking,
    EyeTracking.initSucceeded, EyeTracking.new]

/-! ## Gaze velocity -/

/-- With at least two entries the velocity is the quotient computed from the
last two entries. -/
theorem getGazeVelocity_last_two (sqrt : ℚ → ℚ) (s : EyeTracking)
    (older : List GazeSnapshot) (prev last : GazeSnapshot)
    (hh : s.gazeHistory = older ++ [prev, last]) :
    s.getGazeVelocity sqrt =
      jsDiv (sqrt ((last.x - prev.x) ^ 2 + (last.y - prev.y) ^ 2))
        ((last.timestamp - prev.timestamp) / 1000) := by
  have hlen : s.gazeHistory.length = older.length + 2 := by simp [hh]
  have h1 : s.gazeHistory[s.gazeHistory.length - 1]? = some last := by
    have e : s.gazeHistory.length - 1 = older.length + 1 := by omega
    rw [e, hh, List.getElem?_append_right (by omega)]
    have e1 : older.length + 1 - older.length = 1 := by omega
    rw [e1]
    rfl
  have h2 : s.gazeHistory[s.gazeHistory.length - 2]? = some prev := by
    have e : s.gazeHistory.length - 2 = older.length := by omega
    rw [e, hh, List.getElem?_append_right (le_refl _), Nat.sub_self]
    rfl
  unfold EyeTracking.getGazeVelocity
  rw [if_neg (by omega), h1, h2]
  rfl

/-- The history of the started tracker after two deliveries of the same raw
position `(x, y)`, at `t1` and then at `t2`. -/
theorem tracking_two_samples (x y t1 t2 : ℚ) :
    (EyeTracking.tracking.run [plainSample x y t1, plainSample x y t2]).gazeHistory =
      [] ++ [({ x := x * (3 / 10), y := y * (3 / 10), timestamp := t1 } : GazeSnapshot),
        { x := x * (51 / 100), y := y * (51 / 100), timestamp := t2 }] := by
  rw [run_history_from_empty EyeTracking.tracking _ rfl rfl]
  have e : samplesWithData [plainSample x y t1, plainSample x y t2] =
      [({ x := x, y := y }, t1), ({ x := x, y := y }, t2)] := rfl
  rw [e]
  simp only [specSnapshots, EyeTracking.tracking, EyeTracking.startTracking,
    EyeTracking.initSucceeded, EyeTracking.new]
  norm_num
  constructor <;> ring

/-- C5: `getGazeVelocity` returns 0 whenever the gaze history has zero or one
entries. -/
theorem getGazeVelocity_short_history (sqrt : ℚ → ℚ) (s : EyeTracking)
    (h : s.gazeHistory.length < 2) : s.getGazeVelocity sqrt = JSNumber.finite 0 := by
  unfold EyeTracking.getGazeVelocity
  rw [if_pos h]

theorem getGazeVelocity_short_history_witness :
    (EyeTracking.tracking.run [plainSample 100 50 0]).gazeHistory.length < 2 ∧
    (EyeTracking.tracking.run [plainSample 100 50 0]).getGazeVelocity sqrtOnExamples =
      JSNumber.finite 0 :=
  have h : (EyeTracking.tracking.run [plainSample 100 50 0]).gazeHistory.length < 2 := by
    rw [run_history_length_from_empty EyeTracking.tracking _ rfl rfl]
    decide
  ⟨h, getGazeVelocity_short_history sqrtOnExamples _ h⟩

/-- C6: with at least two entries and the last timestamp strictly greater than
the previous one, `getGazeVelocity` is the distance `calculateDistance` between
the two most recent positions divided by the timestamp difference in seconds
(ms / 1000), whatever the older entries are; where `Math.sqrt` is exact this is
the non-negative number whose product with the time difference squares to the
squared Euclidean distance. -/
theorem getGazeVelocity_two_latest (sqrt : ℚ → ℚ) (s : EyeTracking)
    (older : List GazeSnapshot) (prev last : GazeSnapshot)
    (hh : s.gazeHistory = older ++ [prev, last])
    (hlt : prev.timestamp < last.timestamp) :
    s.getGazeVelocity sqrt =
      JSNumber.finite
        (calculateDistance sqrt { x := prev.x, y := prev.y } { x := last.x, y := last.y } /
          ((last.timestamp - prev.timestamp) / 1000)) ∧
    calculateDistance sqrt { x := prev.x, y := prev.y } { x := last.x, y := last.y } =
      sqrt ((last.x - prev.x) ^ 2 + (last.y - prev.y) ^ 2) ∧
    (0 ≤ sqrt ((last.x - prev.x) ^ 2 + (last.y - prev.y) ^ 2) ∧
      sqrt ((last.x - prev.x) ^ 2 + (last.y - prev.y) ^ 2) ^ 2 =
        (last.x - prev.x) ^ 2 + (last.y - prev.y) ^ 2 →
      ∃ v : ℚ, s.getGazeVelocity sqrt = JSNumber.finite v ∧ 0 ≤ v ∧
        (v * ((last.timestamp - prev.timestamp) / 1000)) ^ 2 =
          (last.x - prev.x) ^ 2 + (last.y - prev.y) ^ 2) := by
  have hpos : (0 : ℚ) < (last.timestamp - prev.timestamp) / 1000 := by
    apply div_pos <;> linarith
  have hv : s.getGazeVelocity sqrt =
      JSNumber.finite (sqrt ((last.x - prev.x) ^ 2 + (last.y - prev.y) ^ 2) /
        ((last.timestamp - prev.timestamp) / 1000)) := by
    rw [getGazeVelocity_last_two sqrt s older prev last hh, jsDiv, if_neg (ne_of_gt hpos)]
  refine ⟨hv, rfl, fun hs => ⟨_, hv, div_nonneg hs.1 (le_of_lt hpos), ?_⟩⟩
  rw [div_mul_cancel₀ _ (ne_of_gt hpos), hs.2]

theorem getGazeVelocity_two_latest_witness :
    (500 : ℚ) < 1000 ∧
    ({ EyeTracking.tracking with
        gazeHistory := [{ x := 9, y := 9, timestamp := 0 }, { x := 0, y := 0, timestamp := 500 },
          { x := 3, y := 4, timestamp := 1000 }] } : EyeTracking).getGazeVelocity sqrtOnExamples =
      JSNumber.finite 10 := by
  refine ⟨by norm_num, ?_⟩
  rw [(getGazeVelocity_two_latest sqrtOnExamples
    { EyeTracking.tracking with
        gazeHistory := [{ x := 9, y := 9, timestamp := 0 }, { x := 0, y := 0, timestamp := 500 },
          { x := 3, y := 4, timestamp := 1000 }] }
    [{ x := 9, y := 9, timestamp := 0 }] { x := 0, y := 0, timestamp := 500 }
    { x := 3, y := 4, timestamp := 1000 } rfl (by norm_num)).1]
  norm_num [calculateDistance, sqrtOnExamples]

/-- C7 (the code at equal timestamps): when the two most recent entries have
equal timestamps the division is not guarded, and `getGazeVelocity` is not 0:
it is `Infinity` when the computed distance is positive and `NaN` when it is 0. -/
theorem getGazeVelocity_equal_timestamps (sqrt : ℚ → ℚ) (s : EyeTracking)
    (older : List GazeSnapshot) (prev last : GazeSnapshot)
    (hh : s.gazeHistory = older ++ [prev, last])
    (heq : prev.timestamp = last.timestamp) :
    s.getGazeVelocity sqrt ≠ JSNumber.finite 0 ∧
    (0 < sqrt ((last.x - prev.x) ^ 2 + (last.y - prev.y) ^ 2) →
      s.getGazeVelocity sqrt = JSNumber.posInfinity) ∧
    (sqrt ((last.x - prev.x) ^ 2 + (last.y - prev.y) ^ 2) = 0 →
      s.getGazeVelocity sqrt = JSNumber.nan) := by
  have h0 : (last.timestamp - prev.timestamp) / 1000 = 0 := by rw [heq]; simp
  rw [getGazeVelocity_last_two sqrt s older prev last hh, h0]
  unfold jsDiv
  rw [if_pos rfl]
  refine ⟨?_, fun hp => by rw [if_pos hp], fun hz => by rw [hz]; simp⟩
  split_ifs <;> simp

theorem getGazeVelocity_equal_timestamps_witness :
    (EyeTracking.tracking.run [plainSample 100 0 1000, plainSample 100 0 1000]).getGazeVelocity
        sqrtOnExamples = JSNumber.posInfinity ∧
    (EyeTracking.tracking.run [plainSample 0 0 1000, plainSample 0 0 1000]).getGazeVelocity
        sqrtOnExamples = JSNumber.nan :=
  ⟨(getGazeVelocity_equal_timestamps sqrtOnExamples _ [] _ _
      (tracking_two_samples 100 0 1000 1000) rfl).2.1 (by norm_num [sqrtOnExamples]),
   (getGazeVelocity_equal_timestamps sqrtOnExamples _ [] _ _
      (tracking_two_samples 0 0 1000 1000) rfl).2.2 (by norm_num [sqrtOnExamples])⟩

/-- C8 (the code at out-of-order timestamps): when the most recent timestamp is
smaller than the previous one and the computed distance is positive,
`getGazeVelocity` returns a negative number. -/
theorem getGazeVelocity_out_of_order (sqrt : ℚ → ℚ) (s : EyeTracking)
    (older : List GazeSnapshot) (prev last : GazeSnapshot)
    (hh : s.gazeHistory = older ++ [prev, last])
    (hgt : last.timestamp < prev.timestamp)
    (hd : 0 < sqrt ((last.x - prev.x) ^ 2 + (last.y - prev.y) ^ 2)) :
    s.getGazeVelocity sqrt =
      JSNumber.finite (sqrt ((last.x - prev.x) ^ 2 + (last.y - prev.y) ^ 2) /
        ((last.timestamp - prev.timestamp) / 1000)) ∧
    sqrt ((last.x - prev.x) ^ 2 + (last.y - prev.y) ^ 2) /
        ((last.timestamp - prev.timestamp) / 1000) < 0 ∧
    (s.getGazeVelocity sqrt).isNegative = true ∧
    (s.getGazeVelocity sqrt).isNonNegative = false := by
  have hneg : (last.timestamp - prev.timestamp) / 1000 < 0 := by
    apply div_neg_of_neg_of_pos <;> linarith
  have hq : sqrt ((last.x - prev.x) ^ 2 + (last.y - prev.y) ^ 2) /
      ((last.timestamp - prev.timestamp) / 1000) < 0 := div_neg_of_pos_of_neg hd hneg
  have hv : s.getGazeVelocity sqrt =
      JSNumber.finite (sqrt ((last.x - prev.x) ^ 2 + (last.y - prev.y) ^ 2) /
        ((last.timestamp - prev.timestamp) / 1000)) := by
    rw [getGazeVelocity_last_two sqrt s older prev last hh, jsDiv, if_neg (ne_of_lt hneg)]
  refine ⟨hv, hq, ?_, ?_⟩
  · rw [hv]; simpa [JSNumber.isNegative] using hq
  · rw [hv]; simpa [JSNumber.isNonNegative] using hq

theorem getGazeVelocity_out_of_order_witness :
    (500 : ℚ) < 1000 ∧
    (EyeTracking.tracking.run [plainSample 100 0 1000, plainSample 100 0 500]).getGazeVelocity
        sqrtOnExamples = JSNumber.finite (-42) := by
  refine ⟨by norm_num, ?_⟩
  rw [(getGazeVelocity_out_of_order sqrtOnExamples _ [] _ _
      (tracking_two_samples 100 0 1000 500) (by norm_num)
      (by norm_num [sqrtOnExamples])).1]
  norm_num [sqrtOnExamples]

/-! ## Gaze direction -/

/-- C9: `getGazeDirection` returns `center` if and only if both absolute offsets
from the viewport centre are strictly below 100; offset `(0, 0)` is `center`,
and an offset of exactly 100 (either sign) on either axis is not. -/
theorem getGazeDirection_center_iff (viewportWidth viewportHeight : ℚ) (s : EyeTracking) :
    (s.getGazeDirection viewportWidth viewportHeight = Direction.center ↔
      |s.smoothedGazeData.x - viewportWidth / 2| < 100 ∧
      |s.smoothedGazeData.y - viewportHeight / 2| < 100) ∧
    ({ s with smoothedGazeData := { x := viewportWidth / 2, y := viewportHeight / 2 } } :
      EyeTracking).getGazeDirection viewportWidth viewportHeight = Direction.center ∧
    (∀ y : ℚ,
      ({ s with smoothedGazeData := { x := viewportWidth / 2 + 100, y := y } } :
        EyeTracking).getGazeDirection viewportWidth viewportHeight ≠ Direction.center ∧
      ({ s with smoothedGazeData := { x := viewportWidth / 2 - 100, y := y } } :
        EyeTracking).getGazeDirection viewportWidth viewportHeight ≠ Direction.center) ∧
    (∀ x : ℚ,
      ({ s with smoothedGazeData := { x := x, y := viewportHeight / 2 + 100 } } :
        EyeTracking).getGazeDirection viewportWidth viewportHeight ≠ Direction.center ∧
      ({ s with smoothedGazeData := { x := x, y := viewportHeight / 2 - 100 } } :
        EyeTracking).getGazeDirection viewportWidth viewportHeight ≠ Direction.center) := by
  have key : ∀ t : EyeTracking,
      (t.getGazeDirection viewportWidth viewportHeight = Direction.center ↔
        |t.smoothedGazeData.x - viewportWidth / 2| < 100 ∧
        |t.smoothedGazeData.y - viewportHeight / 2| < 100) := by
    intro t
    unfold EyeTracking.getGazeDirection
    simp only []
    split_ifs with h1 h2 h3 h3 <;> simp [h1]
  refine ⟨key s, ?_, fun y => ⟨?_, ?_⟩, fun x => ⟨?_, ?_⟩⟩
  · rw [key]; simp
  · rw [Ne, key]; simp
  · rw [Ne, key]; simp
  · rw [Ne, key]; simp
  · rw [Ne, key]; simp

/-- C10: outside the deadzone and with different absolute offsets,
`getGazeDirection` reports the axis with the strictly greater absolute offset
and the sign of that offset. -/
theorem getGazeDirection_dominant_axis (viewportWidth viewportHeight : ℚ) (s : EyeTracking)
    (hout : ¬ (|s.smoothedGazeData.x - viewportWidth / 2| < 100 ∧
      |s.smoothedGazeData.y - viewportHeight / 2| < 100))
    (hne : |s.smoothedGazeData.x - viewportWidth / 2| ≠
      |s.smoothedGazeData.y - viewportHeight / 2|) :
    (s.getGazeDirection viewportWidth viewportHeight = Direction.right ↔
      |s.smoothedGazeData.x - viewportWidth / 2| > |s.smoothedGazeData.y - viewportHeight / 2| ∧
      s.smoothedGazeData.x - viewportWidth / 2 > 0) ∧
    (s.getGazeDirection viewportWidth viewportHeight = Direction.left ↔
      |s.smoothedGazeData.x - viewportWidth / 2| > |s.smoothedGazeData.y - viewportHeight / 2| ∧
      s.smoothedGazeData.x - viewportWidth / 2 < 0) ∧
    (s.getGazeDirection viewportWidth viewportHeight = Direction.down ↔
      |s.smoothedGazeData.y - viewportHeight / 2| > |s.smoothedGazeData.x - viewportWidth / 2| ∧
      s.smoothedGazeData.y - viewportHeight / 2 > 0) ∧
    (s.getGazeDirection viewportWidth viewportHeight = Direction.up ↔
      |s.smoothedGazeData.y - viewportHeight / 2| > |s.smoothedGazeData.x - viewportWidth / 2| ∧
      s.smoothedGazeData.y - viewportHeight / 2 < 0) ∧
    s.getGazeDirection viewportWidth viewportHeight ≠ Direction.center := by
  unfold EyeTracking.getGazeDirection
  simp only []
  generalize s.smoothedGazeData.x - viewportWidth / 2 = ox at hout hne ⊢
  generalize s.smoothedGazeData.y - viewportHeight / 2 = oy at hout hne ⊢
  rw [if_neg hout]
  have hax := abs_nonneg ox
  have hay := abs_nonneg oy
  by_cases h2 : |ox| > |oy|
  · rw [if_pos h2]
    have hox : ox ≠ 0 := by
      intro h; rw [h, abs_zero] at h2; linarith
    by_cases h3 : ox > 0
    · rw [if_pos h3]
      refine ⟨?_, ?_, ?_, ?_, ?_⟩ <;> simp [h2, h3, not_lt_of_gt h2, not_lt_of_gt h3]
    · rw [if_neg h3]
      have h4 : ox < 0 := lt_of_le_of_ne (not_lt.mp h3) hox
      refine ⟨?_, ?_, ?_, ?_, ?_⟩ <;> simp [h2, h3, h4, not_lt_of_gt h2]
  · rw [if_neg h2]
    have h5 : |oy| > |ox| := lt_of_le_of_ne (not_lt.mp h2) hne
    have hoy : oy ≠ 0 := by
      intro h; rw [h, abs_zero] at h5; linarith
    by_cases h3 : oy > 0
    · rw [if_pos h3]
      refine ⟨?_, ?_, ?_, ?_, ?_⟩ <;> simp [h2, h3, h5, not_lt_of_gt h3]
    · rw [if_neg h3]
      have h4 : oy < 0 := lt_of_le_of_ne (not_lt.mp h3) hoy
      refine ⟨?_, ?_, ?_, ?_, ?_⟩ <;> simp [h2, h3, h4, h5]

theorem getGazeDirection_dominant_axis_witness :
    ({ EyeTracking.tracking with smoothedGazeData := { x := 840, y := 360 } } :
      EyeTracking).getGazeDirection 1280 720 = Direction.right ∧
    ({ EyeTracking.tracking with smoothedGazeData := { x := 640, y := 160 } } :
      EyeTracking).getGazeDirection 1280 720 = Direction.up := by
  constructor
  · exact (getGazeDirection_dominant_axis 1280 720
      { EyeTracking.tracking with smoothedGazeData := { x := 840, y := 360 } }
      (by norm_num) (by norm_num)).1.mpr (by norm_num)
  · exact (getGazeDirection_dominant_axis 1280 720
      { EyeTracking.tracking with smoothedGazeData := { x := 640, y := 160 } }
      (by norm_num) (by norm_num)).2.2.2.1.mpr (by norm_num)

/-- C11: outside the deadzone, when the absolute offsets are exactly equal the
vertical axis wins: `down` for a positive vertical offset, `up` for a negative
one, never `left` or `right`. -/
theorem getGazeDirection_tie_vertical (viewportWidth viewportHeight : ℚ) (s : EyeTracking)
    (hout : ¬ (|s.smoothedGazeData.x - viewportWidth / 2| < 100 ∧
      |s.smoothedGazeData.y - viewportHeight / 2| < 100))
    (htie : |s.smoothedGazeData.x - viewportWidth / 2| =
      |s.smoothedGazeData.y - viewportHeight / 2|) :
    (s.smoothedGazeData.y - viewportHeight / 2 > 0 →
      s.getGazeDirection viewportWidth viewportHeight = Direction.down) ∧
    (s.smoothedGazeData.y - viewportHeight / 2 < 0 →
      s.getGazeDirection viewportWidth viewportHeight = Direction.up) ∧
    s.smoothedGazeData.y - viewportHeight / 2 ≠ 0 ∧
    s.getGazeDirection viewportWidth viewportHeight ≠ Direction.left ∧
    s.getGazeDirection viewportWidth viewportHeight ≠ Direction.right ∧
    s.getGazeDirection viewportWidth viewportHeight ≠ Direction.center := by
  unfold EyeTracking.getGazeDirection
  simp only []
  generalize s.smoothedGazeData.x - viewportWidth / 2 = ox at hout htie ⊢
  generalize s.smoothedGazeData.y - viewportHeight / 2 = oy at hout htie ⊢
  have h2 : ¬ |ox| > |oy| := by rw [htie]; exact lt_irrefl _
  have hoy : oy ≠ 0 := by
    intro h
    rw [h, abs_zero] at htie
    rw [htie, h, abs_zero] at hout
    exact hout ⟨by norm_num, by norm_num⟩
  rw [if_neg hout, if_neg h2]
  refine ⟨fun h => by rw [if_pos h], fun h => by rw [if_neg (not_lt_of_gt h)], hoy, ?_, ?_, ?_⟩
  · split_ifs <;> simp
  · split_ifs <;> simp
  · split_ifs <;> simp

theorem getGazeDirection_tie_vertical_witness :
    ({ EyeTracking.tracking with smoothedGazeData := { x := 790, y := 510 } } :
      EyeTracking).getGazeDirection 1280 720 = Direction.down ∧
    ({ EyeTracking.tracking with smoothedGazeData := { x := 790, y := 210 } } :
      EyeTracking).getGazeDirection 1280 720 = Direction.up := by
  constructor
  · exact (getGazeDirection_tie_vertical 1280 720
      { EyeTracking.tracking with smoothedGazeData := { x := 790, y := 510 } }
      (by norm_num) (by norm_num)).1 (by norm_num)
  · exact (getGazeDirection_tie_vertical 1280 720
      { EyeTracking.tracking with smoothedGazeData := { x := 790, y := 210 } }
      (by norm_num) (by norm_num)).2.1 (by norm_num)

/-! ## One call of `checkStaring` -/

/-- The test `stareTime >= 1.5` in whole milliseconds. -/
theorem stareTime_ge_iff (d : ℤ) : ((d : ℚ) / 1000 ≥ 3 / 2) ↔ 1500 ≤ d := by
  constructor
  · intro h
    have h1 : (1500 : ℚ) ≤ (d : ℚ) := by linarith
    exact_mod_cast h1
  · intro h
    have h1 : (1500 : ℚ) ≤ (d : ℚ) := by exact_mod_cast h
    show (3 / 2 : ℚ) ≤ (d : ℚ) / 1000
    linarith

theorem checkStaring_found_other (env : Env) (s : EyeTracking) (z : Element)
    (ht : s.isTracking = true)
    (hf : findElement s.smoothedGazeData env.activatable = some z)
    (hne : s.stareElement.map Element.ref ≠ some z.ref) :
    s.checkStaring env =
      ({ s with stareElement := some z, stareStartTime := env.now }, none) := by
  unfold EyeTracking.checkStaring
  simp only [ht, Bool.not_true, Bool.false_eq_true, if_false, hf]
  rw [if_pos hne]

theorem checkStaring_found_same_dwelled (env : Env) (s : EyeTracking) (z : Element)
    (ht : s.isTracking = true) (hth : s.stareThreshold = 3 / 2)
    (hf : findElement s.smoothedGazeData env.activatable = some z)
    (heq : s.stareElement.map Element.ref = some z.ref)
    (hd : 1500 ≤ env.now - s.stareStartTime) :
    s.checkStaring env =
      ({ s with stareStartTime := env.now + 2000 }, some { elementName := z.dataName }) := by
  unfold EyeTracking.checkStaring
  simp only [ht, Bool.not_true, Bool.false_eq_true, if_false, hf]
  rw [if_neg (not_not.mpr heq), hth, if_pos ((stareTime_ge_iff _).mpr hd)]

theorem checkStaring_found_same_waiting (env : Env) (s : EyeTracking) (z : Element)
    (ht : s.isTracking = true) (hth : s.stareThreshold = 3 / 2)
    (hf : findElement s.smoothedGazeData env.activatable = some z)
    (heq : s.stareElement.map Element.ref = some z.ref)
    (hd : env.now - s.stareStartTime < 1500) :
    s.checkStaring env = (s, none) := by
  unfold EyeTracking.checkStaring
  simp only [ht, Bool.not_true, Bool.false_eq_true, if_false, hf]
  rw [if_neg (not_not.mpr heq), hth,
    if_neg (fun h => absurd ((stareTime_ge_iff _).mp h) (not_le.mpr hd))]

theorem checkStaring_found_none (env : Env) (s : EyeTracking)
    (ht : s.isTracking = true)
    (hf : findElement s.smoothedGazeData env.activatable = none) :
    s.checkStaring env = ({ s with stareElement := none }, none) := by
  unfold EyeTracking.checkStaring
  simp only [ht, Bool.not_true, Bool.false_eq_true, if_false, hf]
  cases hs : s.stareElement with
  | none =>
    simp only [Option.isSome_none, Bool.false_eq_true, if_false]
    cases s
    simp_all
  | some z => simp

theorem checkStaring_stareThreshold (env : Env) (s : EyeTracking) :
    (s.checkStaring env).1.stareThreshold = s.stareThreshold := by
  unfold EyeTracking.checkStaring
  split
  · rfl
  · split
    · split
      · rfl
      · dsimp only
        split <;> rfl
    · split <;> rfl

/-- For an accepted sample the listener is `checkStaring` run in a state with
the new smoothed point and the old stare tracker. -/
theorem gazeListener_eq_checkStaring (env : Env) (s : EyeTracking) (d : Point)
    (timestamp : ℚ) (ht : s.isTracking = true) :
    ∃ s4 : EyeTracking, s.gazeListener env (some d) timestamp = s4.checkStaring env ∧
      s4.isTracking = true ∧ s4.stareElement = s.stareElement ∧
      s4.stareStartTime = s.stareStartTime ∧ s4.stareThreshold = s.stareThreshold ∧
      s4.smoothedGazeData = (s.gazeListener env (some d) timestamp).1.smoothedGazeData := by
  unfold EyeTracking.gazeListener
  simp only [ht, Bool.not_true, Bool.false_eq_true, if_false]
  exact ⟨_, rfl, rfl, rfl, rfl, rfl, ((checkStaring_frame env _).1).symm⟩

theorem gazeListener_stareThreshold (env : Env) (s : EyeTracking) (data : Option Point)
    (timestamp : ℚ) :
    (s.gazeListener env data timestamp).1.stareThreshold = s.stareThreshold := by
  cases data with
  | none => rfl
  | some d =>
    cases ht : s.isTracking with
    | false => rw [gazeListener_reject env s (some d) timestamp (Or.inr ht)]
    | true =>
      obtain ⟨s4, h, _, _, _, hth, _⟩ := gazeListener_eq_checkStaring env s d timestamp ht
      rw [h, checkStaring_stareThreshold, hth]

theorem reachable_stareThreshold (s : EyeTracking) (h : Reachable s) :
    s.stareThreshold = 3 / 2 := by
  induction h with
  | constructed => rfl
  | init s _ ih => exact ih
  | start s _ ih =>
    unfold EyeTracking.startTracking
    split <;> exact ih
  | stop s _ ih => exact ih
  | calibration s _ _ _ _ ih => exact ih
  | gaze s env data timestamp _ ih =>
    rw [gazeListener_stareThreshold]; exact ih

theorem hovering_reachable : Reachable EyeTracking.hovering :=
  run_reachable _ _ tracking_reachable

theorem hovering_fields :
    EyeTracking.hovering.isTracking = true ∧
    EyeTracking.hovering.smoothedGazeData = { x := 50, y := 50 } ∧
    EyeTracking.hovering.stareElement = some exampleZone ∧
    EyeTracking.hovering.stareStartTime = 0 := by
  have hs : (EyeTracking.tracking.gazeListener { activatable := [exampleZone], now := 0 }
      (some { x := 500 / 3, y := 500 / 3 }) 0).1.smoothedGazeData = { x := 50, y := 50 } := by
    rw [(gazeListener_accept _ _ _ _ rfl).1]
    norm_num [lerp, EyeTracking.tracking, EyeTracking.startTracking,
      EyeTracking.initSucceeded, EyeTracking.new]
  obtain ⟨s4, h, ht4, he4, hst4, _, hsm4⟩ := gazeListener_eq_checkStaring
    { activatable := [exampleZone], now := 0 } EyeTracking.tracking
    { x := 500 / 3, y := 500 / 3 } 0 rfl
  rw [hs] at hsm4
  have hf : findElement s4.smoothedGazeData [exampleZone] = some exampleZone := by
    rw [hsm4]
    norm_num [findElement, isGazeOnElement, exampleZone]
  have hne : s4.stareElement.map Element.ref ≠ some exampleZone.ref := by
    rw [he4]; simp [EyeTracking.tracking, EyeTracking.startTracking,
      EyeTracking.initSucceeded, EyeTracking.new]
  have hrun : EyeTracking.hovering =
      (s4.checkStaring { activatable := [exampleZone], now := 0 }).1 := by
    rw [← h]; rfl
  rw [hrun, checkStaring_found_other _ s4 exampleZone ht4 hf hne]
  exact ⟨ht4, hsm4, rfl, rfl⟩

/-- C12: a call of `checkStaring` (made by the gaze listener, so while tracking)
at clock value `now` requests an activation if and only if the zone found under
the smoothed gaze point is the tracked stare zone and `now - stareStartTime` is
at least 1500 ms; the activation then carries the name of that zone and the
dwell clock becomes `now + 2000`. -/
theorem checkStaring_activation_iff (env : Env) (s : EyeTracking)
    (hr : Reachable s) (ht : s.isTracking = true) :
    ((s.checkStaring env).2.isSome = true ↔
      ∃ z : Element, findElement s.smoothedGazeData env.activatable = some z ∧
        s.stareElement.map Element.ref = some z.ref ∧
        1500 ≤ env.now - s.stareStartTime) ∧
    (∀ z : Element, findElement s.smoothedGazeData env.activatable = some z →
      (s.checkStaring env).2.isSome = true →
      (s.checkStaring env).2 = some { elementName := z.dataName } ∧
      (s.checkStaring env).1.stareStartTime = env.now + 2000 ∧
      (s.checkStaring env).1.stareElement = s.stareElement) := by
  have hth := reachable_stareThreshold s hr
  have key : ∀ z : Element, findElement s.smoothedGazeData env.activatable = some z →
      ((s.checkStaring env).2.isSome = true ↔
        (s.stareElement.map Element.ref = some z.ref ∧ 1500 ≤ env.now - s.stareStartTime)) ∧
      ((s.checkStaring env).2.isSome = true →
        (s.checkStaring env).2 = some { elementName := z.dataName } ∧
        (s.checkStaring env).1.stareStartTime = env.now + 2000 ∧
        (s.checkStaring env).1.stareElement = s.stareElement) := by
    intro z hf
    by_cases heq : s.stareElement.map Element.ref = some z.ref
    · by_cases hd : 1500 ≤ env.now - s.stareStartTime
      · rw [checkStaring_found_same_dwelled env s z ht hth hf heq hd]
        exact ⟨⟨fun _ => ⟨heq, hd⟩, fun _ => rfl⟩, fun _ => ⟨rfl, rfl, rfl⟩⟩
      · rw [checkStaring_found_same_waiting env s z ht hth hf heq (not_le.mp hd)]
        exact ⟨⟨fun h => by simp at h, fun h => absurd h.2 hd⟩, fun h => by simp at h⟩
    · rw [checkStaring_found_other env s z ht hf heq]
      exact ⟨⟨fun h => by simp at h, fun h => absurd h.1 heq⟩, fun h => by simp at h⟩
  refine ⟨?_, fun z hf => (key z hf).2⟩
  cases hf : findElement s.smoothedGazeData env.activatable with
  | none =>
    rw [checkStaring_found_none env s ht hf]
    constructor
    · intro h; simp at h
    · rintro ⟨z, hz, _⟩; cases hz
  | some z =>
    rw [(key z hf).1]
    constructor
    · intro h; exact ⟨z, rfl, h.1, h.2⟩
    · rintro ⟨z1, hz, h1, h2⟩
      cases hz
      exact ⟨h1, h2⟩

theorem checkStaring_activation_iff_witness :
    Reachable EyeTracking.hovering ∧ EyeTracking.hovering.isTracking = true ∧
    (EyeTracking.hovering.checkStaring { activatable := [exampleZone], now := 1500 }).2 =
      some { elementName := some "arc-reactor" } ∧
    (EyeTracking.hovering.checkStaring
      { activatable := [exampleZone], now := 1500 }).1.stareStartTime = 3500 := by
  have hf : findElement EyeTracking.hovering.smoothedGazeData [exampleZone] =
      some exampleZone := by
    rw [hovering_fields.2.1]
    norm_num [findElement, isGazeOnElement, exampleZone]
  have h := checkStaring_activation_iff { activatable := [exampleZone], now := 1500 }
    EyeTracking.hovering hovering_reachable hovering_fields.1
  have hact := h.1.mpr ⟨exampleZone, hf, by rw [hovering_fields.2.2.1]; rfl,
    by rw [hovering_fields.2.2.2]; norm_num⟩
  have h2 := h.2 exampleZone hf hact
  exact ⟨hovering_reachable, hovering_fields.1, h2.1, by rw [h2.2.1]; norm_num⟩

/-! ## The zone under the gaze point -/

theorem findElement_foldl_or (p : Point) (els : List Element) :
    ∀ acc : Option Element,
      els.foldl (fun foundElement element =>
          if isGazeOnElement p element then some element else foundElement) acc =
        (findElement p els).or acc := by
  unfold findElement
  induction els with
  | nil => intro acc; rfl
  | cons e rest ih =>
    intro acc
    rw [List.foldl_cons, List.foldl_cons, ih, ih (if isGazeOnElement p e then some e else none)]
    cases hon : isGazeOnElement p e with
    | true =>
      simp only [if_true]
      cases List.foldl (fun foundElement element =>
          if isGazeOnElement p element then some element else foundElement) none rest <;> rfl
    | false =>
      simp only [Bool.false_eq_true, if_false]
      cases List.foldl (fun foundElement element =>
          if isGazeOnElement p element then some element else foundElement) none rest <;> rfl

theorem findElement_append (p : Point) (a b : List Element) :
    findElement p (a ++ b) = (findElement p b).or (findElement p a) := by
  have h := findElement_foldl_or p b (findElement p a)
  unfold findElement at h ⊢
  rw [List.foldl_append, h]

theorem findElement_singleton (p : Point) (e : Element) :
    findElement p [e] = if isGazeOnElement p e then some e else none := rfl

theorem findElement_cons (p : Point) (e : Element) (rest : List Element) :
    findElement p (e :: rest) =
      (findElement p rest).or (if isGazeOnElement p e then some e else none) := by
  have h := findElement_append p [e] rest
  rwa [findElement_singleton] at h

theorem findElement_eq_none_iff (p : Point) (els : List Element) :
    findElement p els = none ↔ ∀ z ∈ els, isGazeOnElement p z = false := by
  induction els with
  | nil => simp [findElement]
  | cons e rest ih =>
    rw [findElement_cons]
    cases hr : findElement p rest with
    | some z =>
      simp only [Option.or_some, List.mem_cons, forall_eq_or_imp]
      constructor
      · intro h; cases h
      · intro h
        have := ih.mpr h.2
        rw [hr] at this
        cases this
    | none =>
      have hrest := ih.mp hr
      cases hon : isGazeOnElement p e with
      | true => simp [hon]
      | false => simpa [hon] using hrest

theorem findElement_some_on (p : Point) (els : List Element) (z : Element)
    (h : findElement p els = some z) : z ∈ els ∧ isGazeOnElement p z = true := by
  induction els with
  | nil => simp [findElement] at h
  | cons e rest ih =>
    rw [findElement_cons] at h
    cases hr : findElement p rest with
    | some z1 =>
      rw [hr] at h
      simp only [Option.or_some, Option.some.injEq] at h
      subst h
      exact ⟨List.mem_cons_of_mem _ (ih hr).1, (ih hr).2⟩
    | none =>
      rw [hr] at h
      cases hon : isGazeOnElement p e with
      | true =>
        simp [hon] at h
        subst h
        exact ⟨List.mem_cons_self _ _, hon⟩
      | false => simp [hon] at h

/-- C16: when `checkStaring` finds the gaze point inside a zone that is not the
tracked stare zone (tracker idle, or tracking another zone) the tracker becomes
hovering on the found zone with start time `now`, and no activation is
requested, whatever the previous start time was. -/
theorem checkStaring_new_zone (env : Env) (s : EyeTracking) (z : Element)
    (ht : s.isTracking = true)
    (hf : findElement s.smoothedGazeData env.activatable = some z)
    (hne : s.stareElement.map Element.ref ≠ some z.ref) :
    (s.checkStaring env).1.stareElement = some z ∧
    (s.checkStaring env).1.stareStartTime = env.now ∧
    (s.checkStaring env).2 = none ∧
    (s.checkStaring env).1 = { s with stareElement := some z, stareStartTime := env.now } := by
  rw [checkStaring_found_other env s z ht hf hne]
  exact ⟨rfl, rfl, rfl, rfl⟩

theorem checkStaring_new_zone_witness :
    EyeTracking.hovering.isTracking = true ∧
    (EyeTracking.hovering.checkStaring
      { activatable := [exampleZone, coverZone], now := 5000 }).1.stareElement = some coverZone ∧
    (EyeTracking.hovering.checkStaring
      { activatable := [exampleZone, coverZone], now := 5000 }).1.stareStartTime = 5000 ∧
    (EyeTracking.hovering.checkStaring
      { activatable := [exampleZone, coverZone], now := 5000 }).2 = none := by
  have hf : findElement EyeTracking.hovering.smoothedGazeData [exampleZone, coverZone] =
      some coverZone := by
    rw [hovering_fields.2.1]
    norm_num [findElement, isGazeOnElement, exampleZone, coverZone]
  have h := checkStaring_new_zone
    { activatable := [exampleZone, coverZone], now := 5000 }
    EyeTracking.hovering _ hovering_fields.1 hf
    (by rw [hovering_fields.2.2.1]; simp [exampleZone, coverZone])
  exact ⟨hovering_fields.1, h.1, h.2.1, h.2.2.1⟩

/-- C17: when `checkStaring` finds the gaze point inside the zone that is
already tracked and `now - stareStartTime` is below 1500 ms, the tracked zone
and the start time are unchanged (the whole state is) and no activation is
requested. -/
theorem checkStaring_keeps_dwell (env : Env) (s : EyeTracking) (z : Element)
    (hr : Reachable s) (ht : s.isTracking = true)
    (hf : findElement s.smoothedGazeData env.activatable = some z)
    (heq : s.stareElement.map Element.ref = some z.ref)
    (hd : env.now - s.stareStartTime < 1500) :
    (s.checkStaring env).1.stareElement = s.stareElement ∧
    (s.checkStaring env).1.stareStartTime = s.stareStartTime ∧
    (s.checkStaring env).2 = none ∧
    (s.checkStaring env).1 = s := by
  rw [checkStaring_found_same_waiting env s z ht (reachable_stareThreshold s hr) hf heq hd]
  exact ⟨rfl, rfl, rfl, rfl⟩

theorem checkStaring_keeps_dwell_witness :
    Reachable EyeTracking.hovering ∧ EyeTracking.hovering.isTracking = true ∧
    (EyeTracking.hovering.checkStaring { activatable := [exampleZone], now := 1499 }).1 =
      EyeTracking.hovering ∧
    (EyeTracking.hovering.checkStaring { activatable := [exampleZone], now := 1499 }).2 =
      none := by
  have hf : findElement EyeTracking.hovering.smoothedGazeData [exampleZone] =
      some exampleZone := by
    rw [hovering_fields.2.1]
    norm_num [findElement, isGazeOnElement, exampleZone]
  have h := checkStaring_keeps_dwell { activatable := [exampleZone], now := 1499 }
    EyeTracking.hovering exampleZone hovering_reachable hovering_fields.1 hf
    (by rw [hovering_fields.2.2.1]; rfl) (by rw [hovering_fields.2.2.2]; norm_num)
  exact ⟨hovering_reachable, hovering_fields.1, h.2.2.2, h.2.2.1⟩

/-- C18: when no activatable zone contains the smoothed gaze point (in
particular when there is no activatable zone) `checkStaring` leaves the tracker
idle and requests no activation, whatever the stare tracker held before; the
call always returns a state. -/
theorem checkStaring_no_zone (env : Env) (s : EyeTracking)
    (ht : s.isTracking = true)
    (hno : ∀ z ∈ env.activatable, isGazeOnElement s.smoothedGazeData z = false) :
    (s.checkStaring env).1.stareElement = none ∧
    (s.checkStaring env).2 = none ∧
    (s.checkStaring env).1 = { s with stareElement := none } := by
  rw [checkStaring_found_none env s ht ((findElement_eq_none_iff _ _).mpr hno)]
  exact ⟨rfl, rfl, rfl⟩

theorem checkStaring_no_zone_witness :
    EyeTracking.hovering.isTracking = true ∧
    EyeTracking.hovering.stareElement = some exampleZone ∧
    (EyeTracking.hovering.checkStaring { activatable := [], now := 700 }).1.stareElement =
      none ∧
    (EyeTracking.hovering.checkStaring { activatable := [], now := 700 }).2 = none := by
  have h := checkStaring_no_zone { activatable := [], now := 700 } EyeTracking.hovering
    hovering_fields.1 (by intro z hz; cases hz)
  exact ⟨hovering_fields.1, hovering_fields.2.2.1, h.1, h.2.1⟩

/-! ## Malformed zones -/

theorem isGazeOnElement_malformed (p : Point) (z : Element)
    (hbad : z.rect.right < z.rect.left ∨ z.rect.bottom < z.rect.top) :
    isGazeOnElement p z = false := by
  unfold isGazeOnElement
  rcases hbad with h | h
  · by_cases h1 : p.x ≥ z.rect.left
    · have h2 : ¬ p.x ≤ z.rect.right := by
        intro h3
        exact absurd (lt_of_le_of_lt (le_trans h1 h3) h) (lt_irrefl _)
      simp [h2]
    · simp [h1]
  · by_cases h1 : p.y ≥ z.rect.top
    · have h2 : ¬ p.y ≤ z.rect.bottom := by
        intro h3
        exact absurd (lt_of_le_of_lt (le_trans h1 h3) h) (lt_irrefl _)
      simp [h2]
    · simp [h1]

theorem findElement_skip (p : Point) (z : Element) (before after : List Element)
    (hoff : isGazeOnElement p z = false) :
    findElement p (before ++ z :: after) = findElement p (before ++ after) := by
  rw [findElement_append, findElement_append, findElement_cons, hoff]
  simp

/-- C19 (what the code does): a zone with a malformed rectangle is accepted
without any validation error: the call of `checkStaring` that is handed
`malformedZone` returns a state as usual, treats the zone as not containing the
gaze point, and still activates a well-formed zone listed next to it. -/
theorem malformed_zone_accepted :
    malformedZone.rect.right < malformedZone.rect.left ∧
    malformedZone.rect.bottom < malformedZone.rect.top ∧
    isGazeOnElement { x := 50, y := 50 } malformedZone = false ∧
    EyeTracking.hovering.checkStaring { activatable := [malformedZone], now := 1000 } =
      ({ EyeTracking.hovering with stareElement := none }, none) ∧
    (EyeTracking.hovering.checkStaring
      { activatable := [exampleZone, malformedZone], now := 1500 }).2 =
      some { elementName := some "arc-reactor" } := by
  have hbad : malformedZone.rect.right < malformedZone.rect.left := by
    norm_num [malformedZone]
  have hoff : ∀ p : Point, isGazeOnElement p malformedZone = false :=
    fun p => isGazeOnElement_malformed p malformedZone (Or.inl hbad)
  refine ⟨hbad, by norm_num [malformedZone], hoff _, ?_, ?_⟩
  · exact checkStaring_found_none _ _ hovering_fields.1
      ((findElement_eq_none_iff _ _).mpr (by
        intro z hz
        rw [List.mem_singleton] at hz
        rw [hz]; exact hoff _))
  · have hf : findElement EyeTracking.hovering.smoothedGazeData
        [exampleZone, malformedZone] = some exampleZone := by
      show findElement _ ([exampleZone] ++ malformedZone :: []) = _
      rw [findElement_skip _ malformedZone [exampleZone] [] (hoff _), hovering_fields.2.1]
      norm_num [findElement, isGazeOnElement, exampleZone]
    rw [checkStaring_found_same_dwelled _ _ exampleZone hovering_fields.1
      (reachable_stareThreshold _ hovering_reachable) hf
      (by rw [hovering_fields.2.2.1]; rfl) (by rw [hovering_fields.2.2.2]; norm_num)]
    rfl

/-- C19 (amended): a zone whose rectangle has `right < left` or `bottom < top`
is silently tolerated: it contains no gaze point, is never the found zone, and
`checkStaring` returns exactly what it returns when the zone is absent from the
list of activatable elements. -/
theorem malformed_zone_ignored (z : Element)
    (hbad : z.rect.right < z.rect.left ∨ z.rect.bottom < z.rect.top) :
    (∀ p : Point, isGazeOnElement p z = false) ∧
    (∀ (p : Point) (els : List Element), findElement p els ≠ some z) ∧
    (∀ (p : Point) (before after : List Element),
      findElement p (before ++ z :: after) = findElement p (before ++ after)) ∧
    (∀ (s : EyeTracking) (now : ℤ) (before after : List Element),
      s.checkStaring { activatable := before ++ z :: after, now := now } =
        s.checkStaring { activatable := before ++ after, now := now }) := by
  have hoff : ∀ p : Point, isGazeOnElement p z = false :=
    fun p => isGazeOnElement_malformed p z hbad
  refine ⟨hoff, ?_, fun p before after => findElement_skip p z before after (hoff p), ?_⟩
  · intro p els h
    have := (findElement_some_on p els z h).2
    rw [hoff p] at this
    cases this
  · intro s now before after
    unfold EyeTracking.checkStaring
    simp only [findElement_skip _ z before after (hoff _)]

theorem malformed_zone_ignored_witness :
    (malformedZone.rect.right < malformedZone.rect.left ∨
      malformedZone.rect.bottom < malformedZone.rect.top) ∧
    EyeTracking.hovering.checkStaring
        { activatable := [exampleZone] ++ malformedZone :: [coverZone], now := 1500 } =
      EyeTracking.hovering.checkStaring
        { activatable := [exampleZone] ++ [coverZone], now := 1500 } :=
  ⟨Or.inl (by norm_num [malformedZone]),
    (malformed_zone_ignored malformedZone (Or.inl (by norm_num [malformedZone]))).2.2.2
      EyeTracking.hovering 1500 [exampleZone] [coverZone]⟩

/-! ## The smoothed position and the raw sample -/

/-- C20 (what the code does): a sample equal to the current smoothed position
leaves the smoothed position equal to the raw sample, with smoothing factor 0.3. -/
theorem smoothed_equals_raw_example :
    EyeTracking.tracking.smoothingFactor = 3 / 10 ∧
    (EyeTracking.tracking.gazeListener { activatable := [], now := 0 }
      (some { x := 0, y := 0 }) 0).1.smoothedGazeData = { x := 0, y := 0 } := by
  refine ⟨rfl, ?_⟩
  rw [(gazeListener_accept _ _ _ _ rfl).1]
  norm_num [lerp, EyeTracking.tracking, EyeTracking.startTracking,
    EyeTracking.initSucceeded, EyeTracking.new]

/-- C20 (amended): with smoothing factor 0.3, a coordinate of the smoothed
position after an accepted sample equals the raw coordinate if and only if the
previous smoothed coordinate already did; so the new smoothed position differs
from the raw sample whenever the previous one did. -/
theorem smoothed_eq_raw_iff (s : EyeTracking) (env : Env) (d : Point) (timestamp : ℚ)
    (hr : Reachable s) (ht : s.isTracking = true) :
    ((s.gazeListener env (some d) timestamp).1.smoothedGazeData.x = d.x ↔
      s.smoothedGazeData.x = d.x) ∧
    ((s.gazeListener env (some d) timestamp).1.smoothedGazeData.y = d.y ↔
      s.smoothedGazeData.y = d.y) ∧
    ((s.gazeListener env (some d) timestamp).1.smoothedGazeData = d ↔
      s.smoothedGazeData = d) ∧
    (s.smoothedGazeData ≠ d →
      (s.gazeListener env (some d) timestamp).1.smoothedGazeData ≠ d) := by
  have hx : ∀ a b : ℚ, lerp a b (3 / 10) = b ↔ a = b := by
    intro a b
    unfold lerp
    constructor
    · intro h; linarith
    · intro h; rw [h]; ring
  have hpt : ∀ p q : Point, p = q ↔ p.x = q.x ∧ p.y = q.y := by
    intro p q
    constructor
    · intro h; rw [h]; exact ⟨rfl, rfl⟩
    · intro h
      cases p; cases q
      simp only at h
      rw [h.1, h.2]
  rw [(gazeListener_accept env s d timestamp ht).1, reachable_smoothingFactor s hr]
  have h3 : ∀ a b : ℚ, (Point.mk (lerp a d.x (3 / 10)) (lerp b d.y (3 / 10)) = d ↔
      Point.mk a b = d) := by
    intro a b
    rw [hpt, hpt (Point.mk a b) d]
    exact and_congr (hx _ _) (hx _ _)
  have h4 := h3 s.smoothedGazeData.x s.smoothedGazeData.y
  exact ⟨hx _ _, hx _ _, h4, fun hne h => hne (h4.mp h)⟩

theorem smoothed_eq_raw_iff_witness :
    Reachable EyeTracking.tracking ∧ EyeTracking.tracking.isTracking = true ∧
    (EyeTracking.tracking.gazeListener { activatable := [], now := 0 }
      (some { x := 100, y := 50 }) 0).1.smoothedGazeData ≠ { x := 100, y := 50 } :=
  ⟨tracking_reachable, rfl,
    (smoothed_eq_raw_iff EyeTracking.tracking { activatable := [], now := 0 }
      { x := 100, y := 50 } 0 tracking_reachable rfl).2.2.2
      (by simp [EyeTracking.tracking, EyeTracking.startTracking, EyeTracking.initSucceeded,
        EyeTracking.new])⟩

/-! ## Sequences of deliveries -/

theorem run_append (s : EyeTracking) (a b : List GazeInput) :
    s.run (a ++ b) = (s.run a).run b := by
  unfold EyeTracking.run
  rw [List.foldl_append]

theorem runTrace_append (a b : List GazeInput) :
    ∀ s : EyeTracking, s.runTrace (a ++ b) = s.runTrace a ++ (s.run a).runTrace b := by
  induction a with
  | nil => intro s; rfl
  | cons i rest ih =>
    intro s
    rw [List.cons_append, EyeTracking.runTrace, ih, run_cons, EyeTracking.runTrace,
      List.cons_append]

theorem hoverTrace_append (a b : List GazeInput) :
    ∀ s : EyeTracking, s.hoverTrace (a ++ b) = s.hoverTrace a ++ (s.run a).hoverTrace b := by
  induction a with
  | nil => intro s; rfl
  | cons i rest ih =>
    intro s
    rw [List.cons_append, EyeTracking.hoverTrace, ih, run_cons, EyeTracking.hoverTrace,
      List.cons_append]

theorem hoverTrace_length (inputs : List GazeInput) :
    ∀ s : EyeTracking, (s.hoverTrace inputs).length = inputs.length := by
  induction inputs with
  | nil => intro s; rfl
  | cons i rest ih => intro s; simp [EyeTracking.hoverTrace, ih]

/-- An accepted delivery moves the stare tracker by `dwellStep`, applied to the
element found under the new smoothed gaze point. -/
theorem gazeListener_dwellStep (env : Env) (s : EyeTracking) (d : Point) (timestamp : ℚ)
    (ht : s.isTracking = true) (hth : s.stareThreshold = 3 / 2) :
    (((s.gazeListener env (some d) timestamp).1.stareElement,
        (s.gazeListener env (some d) timestamp).1.stareStartTime),
      (s.gazeListener env (some d) timestamp).2) =
      dwellStep s.stareElement s.stareStartTime
        (findElement (s.gazeListener env (some d) timestamp).1.smoothedGazeData env.activatable)
        env.now := by
  obtain ⟨s4, h, ht4, he4, hst4, hth4, hsm4⟩ := gazeListener_eq_checkStaring env s d timestamp ht
  rw [← hsm4, h, ← he4, ← hst4]
  rw [hth] at hth4
  unfold dwellStep
  cases hf : findElement s4.smoothedGazeData env.activatable with
  | none => rw [checkStaring_found_none env s4 ht4 hf]
  | some z =>
    simp only []
    by_cases hne : s4.stareElement.map Element.ref ≠ some z.ref
    · rw [checkStaring_found_other env s4 z ht4 hf hne, if_pos hne]
    · rw [if_neg hne]
      by_cases hd : 1500 ≤ env.now - s4.stareStartTime
      · rw [checkStaring_found_same_dwelled env s4 z ht4 hth4 hf (not_not.mp hne) hd, if_pos hd]
      · rw [checkStaring_found_same_waiting env s4 z ht4 hth4 hf (not_not.mp hne)
          (not_le.mp hd), if_neg hd]

/-! ## A gaze point resting in one zone -/

theorem gazeListener_fixed_point (env : Env) (s : EyeTracking) (timestamp : ℚ)
    (ht : s.isTracking = true) :
    (s.gazeListener env (some s.smoothedGazeData) timestamp).1.smoothedGazeData =
      s.smoothedGazeData := by
  rw [(gazeListener_accept env s s.smoothedGazeData timestamp ht).1]
  simp [lerp]

theorem gazeListener_tracking_threshold (env : Env) (s : EyeTracking) (d : Point)
    (timestamp : ℚ) (ht : s.isTracking = true) :
    (s.gazeListener env (some d) timestamp).1.isTracking = true ∧
    (s.gazeListener env (some d) timestamp).1.stareThreshold = s.stareThreshold :=
  ⟨(gazeListener_accept env s d timestamp ht).2.2.1, gazeListener_stareThreshold env s _ _⟩

/-- The first delivery over a zone, from the idle tracker: hovering starts. -/
theorem idle_step (s : EyeTracking) (p : Point) (z : Element) (i : GazeInput)
    (ht : s.isTracking = true) (hth : s.stareThreshold = 3 / 2)
    (hp : s.smoothedGazeData = p) (hidle : s.stareElement = none)
    (hd : i.data = some p) (hf : findElement p i.env.activatable = some z) :
    (s.gazeListener i.env i.data i.timestamp).2 = none ∧
    Dwelling (s.gazeListener i.env i.data i.timestamp).1 p z.ref i.env.now := by
  subst hp
  rw [hd]
  have hsm := gazeListener_fixed_point i.env s i.timestamp ht
  have htt := gazeListener_tracking_threshold i.env s s.smoothedGazeData i.timestamp ht
  have hstep := gazeListener_dwellStep i.env s s.smoothedGazeData i.timestamp ht hth
  rw [hsm, hf, hidle] at hstep
  simp only [dwellStep, Option.map_none', ne_eq, not_false_eq_true, if_true, reduceCtorEq,
    Prod.mk.injEq] at hstep
  obtain ⟨⟨he, hst⟩, hout⟩ := hstep
  exact ⟨hout, htt.1, htt.2.trans hth, hsm, by rw [he]; rfl, hst⟩

/-- A delivery over the tracked zone: nothing happens before the dwell clock
shows 1500 ms, and an activation resets the clock to `now + 2000`. -/
theorem dwelling_step (s : EyeTracking) (p : Point) (z : Element) (st : ℤ) (i : GazeInput)
    (h : Dwelling s p z.ref st)
    (hd : i.data = some p) (hf : findElement p i.env.activatable = some z) :
    (i.env.now - st < 1500 →
      (s.gazeListener i.env i.data i.timestamp).2 = none ∧
      Dwelling (s.gazeListener i.env i.data i.timestamp).1 p z.ref st) ∧
    (1500 ≤ i.env.now - st →
      (s.gazeListener i.env i.data i.timestamp).2 = some { elementName := z.dataName } ∧
      Dwelling (s.gazeListener i.env i.data i.timestamp).1 p z.ref (i.env.now + 2000)) := by
  obtain ⟨ht, hth, hp, he, hst⟩ := h
  subst hp
  rw [hd]
  have hsm := gazeListener_fixed_point i.env s i.timestamp ht
  have htt := gazeListener_tracking_threshold i.env s s.smoothedGazeData i.timestamp ht
  have hstep := gazeListener_dwellStep i.env s s.smoothedGazeData i.timestamp ht hth
  rw [hsm, hf, hst] at hstep
  simp only [dwellStep, he, ne_eq, not_true_eq_false, if_false] at hstep
  constructor
  · intro hlt
    rw [if_neg (not_le.mpr hlt)] at hstep
    simp only [Prod.mk.injEq] at hstep
    obtain ⟨⟨he1, hst1⟩, hout⟩ := hstep
    exact ⟨hout, htt.1, htt.2.trans hth, hsm, by rw [he1]; exact he, hst1⟩
  · intro hge
    rw [if_pos hge] at hstep
    simp only [Prod.mk.injEq] at hstep
    obtain ⟨⟨he1, hst1⟩, hout⟩ := hstep
    exact ⟨hout, htt.1, htt.2.trans hth, hsm, by rw [he1]; exact he, hst1⟩

/-- While the dwell clock stays below 1500 ms, deliveries over the tracked zone
request nothing and leave the stare tracker as it is. -/
theorem dwelling_waits (p : Point) (z : Element) (st : ℤ) (inputs : List GazeInput) :
    ∀ s : EyeTracking, Dwelling s p z.ref st →
      (∀ d ∈ inputs, d.data = some p ∧ findElement p d.env.activatable = some z ∧
        d.env.now - st < 1500) →
      s.runTrace inputs = List.replicate inputs.length none ∧
      Dwelling (s.run inputs) p z.ref st := by
  induction inputs with
  | nil => intro s h _; exact ⟨rfl, h⟩
  | cons i rest ih =>
    intro s h hall
    obtain ⟨hd, hf, hlt⟩ := hall i (List.mem_cons_self _ _)
    obtain ⟨hout, hnext⟩ := (dwelling_step s p z st i h hd hf).1 hlt
    obtain ⟨htr, hfin⟩ := ih _ hnext (fun d hd => hall d (List.mem_cons_of_mem _ hd))
    rw [EyeTracking.runTrace, run_cons, hout, htr]
    exact ⟨rfl, hfin⟩

/-- C13: starting idle, with the smoothed gaze point resting at `p` inside the
single zone `z`, nothing is requested before the first delivery whose clock is
1500 ms or more after the first delivery; that delivery (at time `T`) requests
one activation of `z`; and no delivery with clock up to `T + 2000` requests a
second one.  Deliveries after those (`later`) do not change this. -/
theorem dwell_activates_once (s : EyeTracking) (p : Point) (z : Element)
    (first atT : GazeInput) (before during later : List GazeInput)
    (hr : Reachable s) (ht : s.isTracking = true) (hidle : s.stareElement = none)
    (hp : s.smoothedGazeData = p)
    (hfirst : first.data = some p ∧ findElement p first.env.activatable = some z)
    (hbefore : ∀ d ∈ before, d.data = some p ∧ findElement p d.env.activatable = some z ∧
      d.env.now - first.env.now < 1500)
    (hatT : atT.data = some p ∧ findElement p atT.env.activatable = some z ∧
      1500 ≤ atT.env.now - first.env.now)
    (hduring : ∀ d ∈ during, d.data = some p ∧ findElement p d.env.activatable = some z ∧
      d.env.now ≤ atT.env.now + 2000) :
    ∃ rest : List (Option ActivationEvent),
      s.runTrace (first :: (before ++ atT :: (during ++ later))) =
        none :: (List.replicate before.length none ++
          some { elementName := z.dataName } :: (List.replicate during.length none ++ rest)) := by
  have hth := reachable_stareThreshold s hr
  obtain ⟨hout0, hdw0⟩ := idle_step s p z first ht hth hp hidle hfirst.1 hfirst.2
  obtain ⟨htr1, hdw1⟩ := dwelling_waits p z first.env.now before _ hdw0 hbefore
  obtain ⟨houtT, hdwT⟩ := (dwelling_step _ p z first.env.now atT hdw1 hatT.1 hatT.2.1).2 hatT.2.2
  obtain ⟨htr2, _⟩ := dwelling_waits p z (atT.env.now + 2000) during _ hdwT
    (fun d hd => ⟨(hduring d hd).1, (hduring d hd).2.1, by have := (hduring d hd).2.2; omega⟩)
  refine ⟨((((s.gazeListener first.env first.data first.timestamp).1.run before).gazeListener
    atT.env atT.data atT.timestamp).1.run during).runTrace later, ?_⟩
  rw [EyeTracking.runTrace, hout0, runTrace_append, htr1, EyeTracking.runTrace, houtT,
    runTrace_append, htr2]

theorem runTrace_length (inputs : List GazeInput) :
    ∀ s : EyeTracking, (s.runTrace inputs).length = inputs.length := by
  induction inputs with
  | nil => intro s; rfl
  | cons i rest ih => intro s; simp [EyeTracking.runTrace, ih]

theorem centered_reachable : Reachable EyeTracking.centered :=
  run_reachable _ _ tracking_reachable

theorem centered_fields :
    EyeTracking.centered.isTracking = true ∧
    EyeTracking.centered.smoothedGazeData = { x := 50, y := 50 } ∧
    EyeTracking.centered.stareElement = none := by
  have hs : (EyeTracking.tracking.gazeListener { activatable := [], now := 0 }
      (some { x := 500 / 3, y := 500 / 3 }) 0).1.smoothedGazeData = { x := 50, y := 50 } := by
    rw [(gazeListener_accept _ _ _ _ rfl).1]
    norm_num [lerp, EyeTracking.tracking, EyeTracking.startTracking,
      EyeTracking.initSucceeded, EyeTracking.new]
  obtain ⟨s4, h, ht4, _, _, _, hsm4⟩ := gazeListener_eq_checkStaring
    { activatable := [], now := 0 } EyeTracking.tracking { x := 500 / 3, y := 500 / 3 } 0 rfl
  rw [hs] at hsm4
  have hrun : EyeTracking.centered = (s4.checkStaring { activatable := [], now := 0 }).1 := by
    rw [← h]; rfl
  have hf : findElement s4.smoothedGazeData
      ({ activatable := [], now := 0 } : Env).activatable = none := rfl
  rw [hrun, checkStaring_found_none { activatable := [], now := 0 } s4 ht4 hf]
  exact ⟨ht4, hsm4, rfl⟩

theorem exampleZone_found :
    findElement { x := 50, y := 50 } [exampleZone] = some exampleZone := by
  norm_num [findElement, isGazeOnElement, exampleZone]

theorem dwell_activates_once_witness :
    Reachable EyeTracking.centered ∧ EyeTracking.centered.isTracking = true ∧
    EyeTracking.centered.stareElement = none ∧
    EyeTracking.centered.runTrace
      [gazeAt [exampleZone] 1000 50 50, gazeAt [exampleZone] 2000 50 50,
        gazeAt [exampleZone] 2500 50 50, gazeAt [exampleZone] 3000 50 50,
        gazeAt [exampleZone] 4500 50 50] =
      [none, none, some { elementName := some "arc-reactor" }, none, none] := by
  refine ⟨centered_reachable, centered_fields.1, centered_fields.2.2, ?_⟩
  obtain ⟨rest, h⟩ := dwell_activates_once EyeTracking.centered { x := 50, y := 50 }
    exampleZone (gazeAt [exampleZone] 1000 50 50) (gazeAt [exampleZone] 2500 50 50)
    [gazeAt [exampleZone] 2000 50 50]
    [gazeAt [exampleZone] 3000 50 50, gazeAt [exampleZone] 4500 50 50] []
    centered_reachable centered_fields.1 centered_fields.2.2 centered_fields.2.1
    ⟨rfl, exampleZone_found⟩
    (by
      intro d hd
      rw [List.mem_singleton] at hd
      subst hd
      exact ⟨rfl, exampleZone_found, by norm_num [gazeAt]⟩)
    ⟨rfl, exampleZone_found, by norm_num [gazeAt]⟩
    (by
      intro d hd
      simp only [List.mem_cons, List.mem_singleton, List.not_mem_nil, or_false] at hd
      rcases hd with hd | hd <;> subst hd <;>
        exact ⟨rfl, exampleZone_found, by norm_num [gazeAt]⟩)
  have hl := congrArg List.length h
  simp only [runTrace_length, List.length_cons, List.length_append, List.length_replicate,
    List.length_nil, List.length_singleton] at hl
  have hrest : rest = [] := List.length_eq_zero.mp (by omega)
  rw [hrest] at h
  exact h

/-! ## Arbitrary gaze paths -/

theorem dwellStep_cases (tracked : Option Element) (start : ℤ) (found : Option Element)
    (now : ℤ) (e1 : Option Element) (start1 : ℤ) (out : Option ActivationEvent)
    (h : ((e1, start1), out) = dwellStep tracked start found now) :
    (found = none ∧ e1 = none ∧ start1 = start ∧ out = none) ∨
    (∃ z, found = some z ∧ tracked.map Element.ref ≠ some z.ref ∧
      e1 = some z ∧ start1 = now ∧ out = none) ∨
    (∃ z, found = some z ∧ tracked.map Element.ref = some z.ref ∧ now - start < 1500 ∧
      e1 = tracked ∧ start1 = start ∧ out = none) ∨
    (∃ z, found = some z ∧ tracked.map Element.ref = some z.ref ∧ 1500 ≤ now - start ∧
      e1 = tracked ∧ start1 = now + 2000 ∧ out = some { elementName := z.dataName }) := by
  unfold dwellStep at h
  cases found with
  | none =>
    simp only [Prod.mk.injEq] at h
    exact Or.inl ⟨rfl, h.1.1, h.1.2, h.2⟩
  | some z =>
    simp only [] at h
    by_cases hne : tracked.map Element.ref ≠ some z.ref
    · rw [if_pos hne] at h
      simp only [Prod.mk.injEq] at h
      exact Or.inr (Or.inl ⟨z, rfl, hne, h.1.1, h.1.2, h.2⟩)
    · rw [if_neg hne] at h
      by_cases hd : 1500 ≤ now - start
      · rw [if_pos hd] at h
        simp only [Prod.mk.injEq] at h
        exact Or.inr (Or.inr (Or.inr ⟨z, rfl, not_not.mp hne, hd, h.1.1, h.1.2, h.2⟩))
      · rw [if_neg hd] at h
        simp only [Prod.mk.injEq] at h
        exact Or.inr (Or.inr (Or.inl ⟨z, rfl, not_not.mp hne, not_le.mp hd, h.1.1, h.1.2, h.2⟩))

/-- The four ways an accepted delivery moves the stare tracker. -/
theorem gazeListener_cases (env : Env) (s : EyeTracking) (d : Point) (timestamp : ℚ)
    (ht : s.isTracking = true) (hth : s.stareThreshold = 3 / 2) :
    (findElement (s.gazeListener env (some d) timestamp).1.smoothedGazeData env.activatable
        = none ∧
      (s.gazeListener env (some d) timestamp).1.stareElement = none ∧
      (s.gazeListener env (some d) timestamp).1.stareStartTime = s.stareStartTime ∧
      (s.gazeListener env (some d) timestamp).2 = none) ∨
    (∃ z, findElement (s.gazeListener env (some d) timestamp).1.smoothedGazeData
        env.activatable = some z ∧
      s.stareElement.map Element.ref ≠ some z.ref ∧
      (s.gazeListener env (some d) timestamp).1.stareElement = some z ∧
      (s.gazeListener env (some d) timestamp).1.stareStartTime = env.now ∧
      (s.gazeListener env (some d) timestamp).2 = none) ∨
    (∃ z, findElement (s.gazeListener env (some d) timestamp).1.smoothedGazeData
        env.activatable = some z ∧
      s.stareElement.map Element.ref = some z.ref ∧ env.now - s.stareStartTime < 1500 ∧
      (s.gazeListener env (some d) timestamp).1.stareElement = s.stareElement ∧
      (s.gazeListener env (some d) timestamp).1.stareStartTime = s.stareStartTime ∧
      (s.gazeListener env (some d) timestamp).2 = none) ∨
    (∃ z, findElement (s.gazeListener env (some d) timestamp).1.smoothedGazeData
        env.activatable = some z ∧
      s.stareElement.map Element.ref = some z.ref ∧ 1500 ≤ env.now - s.stareStartTime ∧
      (s.gazeListener env (some d) timestamp).1.stareElement = s.stareElement ∧
      (s.gazeListener env (some d) timestamp).1.stareStartTime = env.now + 2000 ∧
      (s.gazeListener env (some d) timestamp).2 = some { elementName := z.dataName }) :=
  dwellStep_cases _ _ _ _ _ _ _ (gazeListener_dwellStep env s d timestamp ht hth)

theorem run_stareThreshold (inputs : List GazeInput) :
    ∀ s : EyeTracking, (s.run inputs).stareThreshold = s.stareThreshold := by
  induction inputs with
  | nil => intro s; rfl
  | cons i rest ih => intro s; rw [run_cons, ih, gazeListener_stareThreshold]

theorem run_snoc (s : EyeTracking) (l : List GazeInput) (a : GazeInput) :
    s.run (l ++ [a]) = ((s.run l).gazeListener a.env a.data a.timestamp).1 := by
  rw [run_append]; rfl

theorem hoverTrace_snoc (s : EyeTracking) (l : List GazeInput) (a : GazeInput) :
    s.hoverTrace (l ++ [a]) = s.hoverTrace l ++
      [findElement ((s.run l).gazeListener a.env a.data a.timestamp).1.smoothedGazeData
        a.env.activatable] := by
  rw [hoverTrace_append]; rfl

/-- Where a hover began: starting idle, if the stare tracker holds `z` after a
run of accepted deliveries with non-decreasing clocks, then some delivery `j`
of the run was made no later than the dwell clock reads, and `z` was the
element found at `j` and at every delivery since. -/
theorem hover_origin (s : EyeTracking) (ht : s.isTracking = true)
    (hth : s.stareThreshold = 3 / 2) (hidle : s.stareElement = none)
    (inputs : List GazeInput) :
    (∀ i ∈ inputs, i.data ≠ none) →
    List.Pairwise (fun a b : GazeInput => a.env.now ≤ b.env.now) inputs →
    ∀ z : Element, (s.run inputs).stareElement = some z →
      ∃ (j : ℕ) (ij : GazeInput), inputs[j]? = some ij ∧
        ij.env.now ≤ (s.run inputs).stareStartTime ∧
        ∀ h ∈ (s.hoverTrace inputs).drop j, h.map Element.ref = some z.ref := by
  induction inputs using List.reverseRecOn with
  | nil =>
    intro _ _ z hz
    rw [run_nil, hidle] at hz
    cases hz
  | append_singleton l a ih =>
    intro hacc hmono z hz
    have hmono1 := List.pairwise_append.mp hmono
    have ih1 := ih (fun i hi => hacc i (List.mem_append_left _ hi)) hmono1.1
    obtain ⟨d, hd⟩ : ∃ d, a.data = some d :=
      Option.ne_none_iff_exists'.mp (hacc a (List.mem_append_right _ (List.mem_singleton_self _)))
    have htl := run_isTracking l s ht
    have hthl : (s.run l).stareThreshold = 3 / 2 := (run_stareThreshold l s).trans hth
    have hlen := hoverTrace_length l s
    rw [run_snoc, hd] at hz ⊢
    rw [hoverTrace_snoc, hd]
    rcases gazeListener_cases a.env (s.run l) d a.timestamp htl hthl with
      ⟨_, he, _, _⟩ | ⟨z1, hf, _, he, hst, _⟩ | ⟨z1, hf, heq, _, he, hst, _⟩ |
      ⟨z1, hf, heq, hdw, he, hst, _⟩
    · rw [he] at hz; cases hz
    · rw [he] at hz
      cases hz
      refine ⟨l.length, a, List.getElem?_concat_length l a, by rw [hst], ?_⟩
      intro h hh
      rw [List.drop_left' hlen, List.mem_singleton] at hh
      rw [hh, hf]; rfl
    · rw [he] at hz
      obtain ⟨j, ij, hj, hle, hall⟩ := ih1 z hz
      have hjlt : j < l.length := (List.getElem?_eq_some.mp hj).1
      refine ⟨j, ij, by rw [List.getElem?_append_left hjlt]; exact hj, by rw [hst]; exact hle, ?_⟩
      intro h hh
      rw [List.drop_append_of_le_length (by omega), List.mem_append, List.mem_singleton] at hh
      rcases hh with hh | hh
      · exact hall h hh
      · rw [hh, hf]
        rw [hz] at heq
        simp only [Option.map_some', Option.some.injEq] at heq ⊢
        exact heq.symm
    · rw [he] at hz
      obtain ⟨j, ij, hj, hle, hall⟩ := ih1 z hz
      have hjlt : j < l.length := (List.getElem?_eq_some.mp hj).1
      have hnow : ij.env.now ≤ a.env.now :=
        hmono1.2.2 ij (List.getElem?_mem hj) a (List.mem_singleton_self _)
      refine ⟨j, ij, by rw [List.getElem?_append_left hjlt]; exact hj, by rw [hst]; omega, ?_⟩
      intro h hh
      rw [List.drop_append_of_le_length (by omega), List.mem_append, List.mem_singleton] at hh
      rcases hh with hh | hh
      · exact hall h hh
      · rw [hh, hf]
        rw [hz] at heq
        simp only [Option.map_some', Option.some.injEq] at heq ⊢
        exact heq.symm

/-- One accepted delivery, computed from the view of the state before it. -/
theorem stareView_step (s : EyeTracking) (p : Point) (e : Option Element) (st : ℤ)
    (i : GazeInput) (d p1 : Point) (f e1 : Option Element) (st1 : ℤ)
    (out : Option ActivationEvent)
    (h : StareView s p e st) (hd : i.data = some d)
    (hp : p1 = { x := lerp p.x d.x (3 / 10), y := lerp p.y d.y (3 / 10) })
    (hf : findElement p1 i.env.activatable = f)
    (hstep : dwellStep e st f i.env.now = ((e1, st1), out)) :
    (s.gazeListener i.env i.data i.timestamp).2 = out ∧
    StareView (s.gazeListener i.env i.data i.timestamp).1 p1 e1 st1 := by
  obtain ⟨ht, hth, hsf, hsm, he, hst⟩ := h
  rw [hd]
  have hacc := gazeListener_accept i.env s d i.timestamp ht
  have hsm1 : (s.gazeListener i.env (some d) i.timestamp).1.smoothedGazeData = p1 := by
    rw [hacc.1, hsf, hsm, hp]
  have hds := gazeListener_dwellStep i.env s d i.timestamp ht hth
  rw [hsm1, hf, he, hst, hstep] at hds
  simp only [Prod.mk.injEq] at hds
  exact ⟨hds.2, hacc.2.2.1, (gazeListener_stareThreshold _ _ _ _).trans hth,
    hacc.2.2.2.trans hsf, hsm1, hds.1.1, hds.1.2⟩

theorem tracking_view : StareView EyeTracking.tracking { x := 0, y := 0 } none 0 :=
  ⟨rfl, rfl, rfl, rfl, rfl, rfl⟩

theorem run_not_tracking (inputs : List GazeInput) :
    ∀ s : EyeTracking, s.isTracking = false → s.run inputs = s := by
  induction inputs with
  | nil => intro s _; rfl
  | cons i rest ih =>
    intro s h
    rw [run_cons, gazeListener_reject i.env s i.data i.timestamp (Or.inr h)]
    exact ih s h

/-- C15: starting idle, if a delivery at time `T` requests an activation, then
the activated zone `z` is the one found at that delivery, and some earlier
delivery `j`, made at a time at most `T - 1500`, found `z`, as did every
delivery from `j` up to the activating one. -/
theorem activation_needs_full_dwell (s : EyeTracking) (earlier : List GazeInput)
    (k : GazeInput) (ev : ActivationEvent)
    (hr : Reachable s) (hidle : s.stareElement = none)
    (hacc : ∀ i ∈ earlier, i.data ≠ none)
    (hmono : List.Pairwise (fun a b : GazeInput => a.env.now ≤ b.env.now) (earlier ++ [k]))
    (hact : ((s.run earlier).gazeListener k.env k.data k.timestamp).2 = some ev) :
    ∃ (z : Element) (j : ℕ) (ij : GazeInput),
      (s.hoverTrace (earlier ++ [k])).getLast? = some (some z) ∧
      ev.elementName = z.dataName ∧
      earlier[j]? = some ij ∧ ij.env.now + 1500 ≤ k.env.now ∧
      ∀ h ∈ (s.hoverTrace (earlier ++ [k])).drop j, h.map Element.ref = some z.ref := by
  have hth := reachable_stareThreshold s hr
  cases ht : s.isTracking with
  | false =>
    rw [run_not_tracking earlier s ht,
      gazeListener_reject k.env s k.data k.timestamp (Or.inr ht)] at hact
    cases hact
  | true =>
    cases hd : k.data with
    | none =>
      rw [hd, gazeListener_reject k.env _ none k.timestamp (Or.inl rfl)] at hact
      cases hact
    | some d =>
      have htl := run_isTracking earlier s ht
      have hthl : (s.run earlier).stareThreshold = 3 / 2 :=
        (run_stareThreshold earlier s).trans hth
      have hlen := hoverTrace_length earlier s
      rw [hd] at hact
      rw [hoverTrace_snoc, hd]
      rcases gazeListener_cases k.env (s.run earlier) d k.timestamp htl hthl with
        ⟨_, _, _, ho⟩ | ⟨_, _, _, _, _, ho⟩ | ⟨_, _, _, _, _, _, ho⟩ |
        ⟨z1, hf, heq, hdw, _, _, ho⟩
      · rw [ho] at hact; cases hact
      · rw [ho] at hact; cases hact
      · rw [ho] at hact; cases hact
      · rw [ho] at hact
        cases hact
        cases hz : (s.run earlier).stareElement with
        | none => rw [hz] at heq; cases heq
        | some z0 =>
          rw [hz] at heq
          simp only [Option.map_some', Option.some.injEq] at heq
          obtain ⟨j, ij, hj, hle, hall⟩ := hover_origin s ht hth hidle earlier hacc
            (List.pairwise_append.mp hmono).1 z0 hz
          have hjlt : j < earlier.length := (List.getElem?_eq_some.mp hj).1
          refine ⟨z1, j, ij, ?_, rfl, hj, by omega, ?_⟩
          · rw [hf, List.getLast?_concat]
          · intro h hh
            rw [List.drop_append_of_le_length (by omega), List.mem_append,
              List.mem_singleton] at hh
            rcases hh with hh | hh
            · rw [hall h hh, heq]
            · rw [hh, hf]; rfl

/-- The gaze listener refines `simulateStare`. -/
theorem simulateStare_correct (inputs : List GazeInput) :
    ∀ (s : EyeTracking) (p : Point) (e : Option Element) (st : ℤ), StareView s p e st →
      s.runTrace inputs = (simulateStare p e st inputs).map Prod.snd ∧
      s.hoverTrace inputs = (simulateStare p e st inputs).map Prod.fst := by
  induction inputs with
  | nil => intro s p e st _; exact ⟨rfl, rfl⟩
  | cons i rest ih =>
    intro s p e st h
    cases hd : i.data with
    | none =>
      have hrej := gazeListener_reject i.env s i.data i.timestamp (Or.inl hd)
      obtain ⟨h1, h2⟩ := ih s p e st h
      rw [EyeTracking.runTrace, EyeTracking.hoverTrace, hrej, simulateStare, hd]
      simp only [List.map_cons]
      rw [h1, h2, h.2.2.2.1]
      exact ⟨rfl, rfl⟩
    | some d =>
      obtain ⟨hout, hview⟩ := stareView_step s p e st i d _ _ _ _ _ h hd rfl rfl rfl
      obtain ⟨h1, h2⟩ := ih _ _ _ _ hview
      rw [EyeTracking.runTrace, EyeTracking.hoverTrace, h1, h2, hout, hview.2.2.2.1,
        simulateStare, hd]
      exact ⟨rfl, rfl⟩

/-- One step of `simulateStare` at an accepted delivery, with its values given. -/
theorem simulateStare_cons (p : Point) (e : Option Element) (st : ℤ) (i : GazeInput)
    (rest : List GazeInput) (d p1 : Point) (f e1 : Option Element) (st1 : ℤ)
    (out : Option ActivationEvent) (hd : i.data = some d)
    (hp : p1 = { x := lerp p.x d.x (3 / 10), y := lerp p.y d.y (3 / 10) })
    (hf : findElement p1 i.env.activatable = f)
    (hstep : dwellStep e st f i.env.now = ((e1, st1), out)) :
    simulateStare p e st (i :: rest) = (f, out) :: simulateStare p1 e1 st1 rest := by
  rw [simulateStare, hd]
  simp only []
  rw [← hp, hf, hstep]

theorem runTrace_snoc (s : EyeTracking) (l : List GazeInput) (a : GazeInput) :
    s.runTrace (l ++ [a]) =
      s.runTrace l ++ [((s.run l).gazeListener a.env a.data a.timestamp).2] := by
  rw [runTrace_append]; rfl

theorem centered_view :
    StareView EyeTracking.centered { x := 50, y := 50 } none
      EyeTracking.centered.stareStartTime :=
  ⟨centered_fields.1, reachable_stareThreshold _ centered_reachable,
    reachable_smoothingFactor _ centered_reachable, centered_fields.2.1, centered_fields.2.2, rfl⟩

/-- The dwell example: a hover from clock 1000, activated at 2500 and again at 6000. -/
theorem centered_simulation :
    simulateStare { x := 50, y := 50 } none EyeTracking.centered.stareStartTime
      [gazeAt [exampleZone] 1000 50 50, gazeAt [exampleZone] 2000 50 50,
        gazeAt [exampleZone] 2500 50 50, gazeAt [exampleZone] 3000 50 50,
        gazeAt [exampleZone] 4500 50 50, gazeAt [exampleZone] 6000 50 50] =
      [(some exampleZone, none), (some exampleZone, none),
        (some exampleZone, some { elementName := some "arc-reactor" }),
        (some exampleZone, none), (some exampleZone, none),
        (some exampleZone, some { elementName := some "arc-reactor" })] := by
  have hp : ({ x := 50, y := 50 } : Point) =
      { x := lerp 50 50 (3 / 10), y := lerp 50 50 (3 / 10) } := by norm_num [lerp]
  rw [simulateStare_cons _ _ _ _ _ { x := 50, y := 50 } { x := 50, y := 50 }
      (some exampleZone) (some exampleZone) 1000 none rfl hp (by decide) (by rfl),
    simulateStare_cons _ _ _ _ _ { x := 50, y := 50 } { x := 50, y := 50 }
      (some exampleZone) (some exampleZone) 1000 none rfl hp (by decide) (by rfl),
    simulateStare_cons _ _ _ _ _ { x := 50, y := 50 } { x := 50, y := 50 }
      (some exampleZone) (some exampleZone) 4500
      (some { elementName := some "arc-reactor" }) rfl hp (by decide) (by rfl),
    simulateStare_cons _ _ _ _ _ { x := 50, y := 50 } { x := 50, y := 50 }
      (some exampleZone) (some exampleZone) 4500 none rfl hp (by decide) (by rfl),
    simulateStare_cons _ _ _ _ _ { x := 50, y := 50 } { x := 50, y := 50 }
      (some exampleZone) (some exampleZone) 4500 none rfl hp (by decide) (by rfl),
    simulateStare_cons _ _ _ _ _ { x := 50, y := 50 } { x := 50, y := 50 }
      (some exampleZone) (some exampleZone) 8000
      (some { elementName := some "arc-reactor" }) rfl hp (by decide) (by rfl)]
  rfl

theorem runTrace_getElem (s : EyeTracking) (l : List GazeInput) (a : GazeInput)
    (r : List GazeInput) :
    (s.runTrace (l ++ a :: r))[l.length]? =
      some ((s.run l).gazeListener a.env a.data a.timestamp).2 := by
  rw [runTrace_append, List.getElem?_append_right (by rw [runTrace_length]), runTrace_length,
    Nat.sub_self, EyeTracking.runTrace, List.getElem?_cons_zero]

theorem centered_runTrace :
    EyeTracking.centered.runTrace
      [gazeAt [exampleZone] 1000 50 50, gazeAt [exampleZone] 2000 50 50,
        gazeAt [exampleZone] 2500 50 50, gazeAt [exampleZone] 3000 50 50,
        gazeAt [exampleZone] 4500 50 50, gazeAt [exampleZone] 6000 50 50] =
      [none, none, some { elementName := some "arc-reactor" }, none, none,
        some { elementName := some "arc-reactor" }] := by
  rw [(simulateStare_correct _ _ _ _ _ centered_view).1, centered_simulation]
  rfl

theorem centered_hoverTrace :
    EyeTracking.centered.hoverTrace
      [gazeAt [exampleZone] 1000 50 50, gazeAt [exampleZone] 2000 50 50,
        gazeAt [exampleZone] 2500 50 50, gazeAt [exampleZone] 3000 50 50,
        gazeAt [exampleZone] 4500 50 50, gazeAt [exampleZone] 6000 50 50] =
      [some exampleZone, some exampleZone, some exampleZone, some exampleZone,
        some exampleZone, some exampleZone] := by
  rw [(simulateStare_correct _ _ _ _ _ centered_view).2, centered_simulation]
  rfl

theorem centered_first_activation :
    ((EyeTracking.centered.run
        [gazeAt [exampleZone] 1000 50 50, gazeAt [exampleZone] 2000 50 50]).gazeListener
      (gazeAt [exampleZone] 2500 50 50).env (gazeAt [exampleZone] 2500 50 50).data
      (gazeAt [exampleZone] 2500 50 50).timestamp).2 =
      some { elementName := some "arc-reactor" } := by
  have h := runTrace_getElem EyeTracking.centered
    [gazeAt [exampleZone] 1000 50 50, gazeAt [exampleZone] 2000 50 50]
    (gazeAt [exampleZone] 2500 50 50)
    [gazeAt [exampleZone] 3000 50 50, gazeAt [exampleZone] 4500 50 50,
      gazeAt [exampleZone] 6000 50 50]
  rw [List.cons_append, List.cons_append, List.nil_append, centered_runTrace] at h
  exact (Option.some.inj h).symm

theorem centered_second_activation :
    ((EyeTracking.centered.run
        [gazeAt [exampleZone] 1000 50 50, gazeAt [exampleZone] 2000 50 50,
          gazeAt [exampleZone] 2500 50 50, gazeAt [exampleZone] 3000 50 50,
          gazeAt [exampleZone] 4500 50 50]).gazeListener
      (gazeAt [exampleZone] 6000 50 50).env (gazeAt [exampleZone] 6000 50 50).data
      (gazeAt [exampleZone] 6000 50 50).timestamp).2 =
      some { elementName := some "arc-reactor" } := by
  have h := runTrace_getElem EyeTracking.centered
    [gazeAt [exampleZone] 1000 50 50, gazeAt [exampleZone] 2000 50 50,
      gazeAt [exampleZone] 2500 50 50, gazeAt [exampleZone] 3000 50 50,
      gazeAt [exampleZone] 4500 50 50]
    (gazeAt [exampleZone] 6000 50 50) []
  simp only [List.cons_append, List.nil_append] at h
  rw [centered_runTrace] at h
  exact (Option.some.inj h).symm

theorem activation_needs_full_dwell_witness :
    Reachable EyeTracking.centered ∧ EyeTracking.centered.stareElement = none ∧
    ∃ (z : Element) (j : ℕ) (ij : GazeInput),
      (EyeTracking.centered.hoverTrace
        ([gazeAt [exampleZone] 1000 50 50, gazeAt [exampleZone] 2000 50 50] ++
          [gazeAt [exampleZone] 2500 50 50])).getLast? = some (some z) ∧
      (some "arc-reactor" : Option String) = z.dataName ∧
      [gazeAt [exampleZone] 1000 50 50, gazeAt [exampleZone] 2000 50 50][j]? = some ij ∧
      ij.env.now + 1500 ≤ (gazeAt [exampleZone] 2500 50 50).env.now ∧
      ∀ h ∈ (EyeTracking.centered.hoverTrace
        ([gazeAt [exampleZone] 1000 50 50, gazeAt [exampleZone] 2000 50 50] ++
          [gazeAt [exampleZone] 2500 50 50])).drop j,
        h.map Element.ref = some z.ref :=
  ⟨centered_reachable, centered_fields.2.2,
    activation_needs_full_dwell EyeTracking.centered
      [gazeAt [exampleZone] 1000 50 50, gazeAt [exampleZone] 2000 50 50]
      (gazeAt [exampleZone] 2500 50 50) { elementName := some "arc-reactor" }
      centered_reachable centered_fields.2.2
      (by intro i hi; simp only [List.mem_cons, List.mem_singleton, List.not_mem_nil,
            or_false] at hi; rcases hi with hi | hi <;> subst hi <;> simp [gazeAt])
      (by simp [gazeAt])
      centered_first_activation⟩

/-! ## The cooldown -/

/-- The dwell clock never falls below a time that no later delivery precedes. -/
theorem start_lower_bound (T : ℤ) (inputs : List GazeInput) :
    ∀ s : EyeTracking, s.stareThreshold = 3 / 2 → T ≤ s.stareStartTime →
      (∀ d ∈ inputs, T ≤ d.env.now) → T ≤ (s.run inputs).stareStartTime := by
  induction inputs with
  | nil => intro s _ h _; exact h
  | cons i rest ih =>
    intro s hth hT hall
    rw [run_cons]
    have hnow := hall i (List.mem_cons_self _ _)
    apply ih _ ((gazeListener_stareThreshold _ _ _ _).trans hth) _
      (fun d hd => hall d (List.mem_cons_of_mem _ hd))
    cases hd : i.data with
    | none => rw [gazeListener_reject i.env s none i.timestamp (Or.inl rfl)]; exact hT
    | some d =>
      cases ht : s.isTracking with
      | false => rw [gazeListener_reject i.env s (some d) i.timestamp (Or.inr ht)]; exact hT
      | true =>
        rcases gazeListener_cases i.env s d i.timestamp ht hth with
          ⟨_, _, hst, _⟩ | ⟨_, _, _, _, hst, _⟩ | ⟨_, _, _, _, _, hst, _⟩ |
          ⟨_, _, _, _, _, hst, _⟩ <;> rw [hst] <;> omega

/-- While every delivery finds the tracked element, the stare tracker keeps it
and the dwell clock does not fall below a bound it has reached. -/
theorem cooldown_held (r : ℕ) (B : ℤ) (inputs : List GazeInput) :
    ∀ s : EyeTracking, s.stareThreshold = 3 / 2 →
      s.stareElement.map Element.ref = some r → B ≤ s.stareStartTime →
      (∀ h ∈ s.hoverTrace inputs, h.map Element.ref = some r) →
      (s.run inputs).stareElement.map Element.ref = some r ∧
      B ≤ (s.run inputs).stareStartTime := by
  induction inputs with
  | nil => intro s _ he hB _; exact ⟨he, hB⟩
  | cons i rest ih =>
    intro s hth he hB hall
    rw [run_cons]
    rw [EyeTracking.hoverTrace] at hall
    have hfound := hall _ (List.mem_cons_self _ _)
    have hrest := fun h hh => hall h (List.mem_cons_of_mem _ hh)
    apply ih _ ((gazeListener_stareThreshold _ _ _ _).trans hth) _ _ hrest
    · cases hd : i.data with
      | none => rw [gazeListener_reject i.env s none i.timestamp (Or.inl rfl)]; exact he
      | some d =>
        cases ht : s.isTracking with
        | false => rw [gazeListener_reject i.env s (some d) i.timestamp (Or.inr ht)]; exact he
        | true =>
          rw [hd] at hfound
          rcases gazeListener_cases i.env s d i.timestamp ht hth with
            ⟨hf, _, _, _⟩ | ⟨z, hf, hne, _, _, _⟩ | ⟨_, _, _, _, hel, _, _⟩ |
            ⟨_, _, _, _, hel, _, _⟩
          · rw [hf] at hfound; cases hfound
          · rw [hf] at hfound
            rw [he] at hne
            exact absurd hfound.symm hne
          · rw [hel]; exact he
          · rw [hel]; exact he
    · cases hd : i.data with
      | none => rw [gazeListener_reject i.env s none i.timestamp (Or.inl rfl)]; exact hB
      | some d =>
        cases ht : s.isTracking with
        | false => rw [gazeListener_reject i.env s (some d) i.timestamp (Or.inr ht)]; exact hB
        | true =>
          rw [hd] at hfound
          rcases gazeListener_cases i.env s d i.timestamp ht hth with
            ⟨hf, _, _, _⟩ | ⟨z, hf, hne, _, _, _⟩ | ⟨_, _, _, _, _, hst, _⟩ |
            ⟨_, _, _, hdw, _, hst, _⟩
          · rw [hf] at hfound; cases hfound
          · rw [hf] at hfound
            rw [he] at hne
            exact absurd hfound.symm hne
          · rw [hst]; exact hB
          · rw [hst]; omega

/-- What an activation tells about the delivery that requested it. -/
theorem activation_facts (env : Env) (s : EyeTracking) (data : Option Point) (timestamp : ℚ)
    (hth : s.stareThreshold = 3 / 2)
    (hact : (s.gazeListener env data timestamp).2.isSome = true) :
    s.isTracking = true ∧
    1500 ≤ env.now - s.stareStartTime ∧
    (s.gazeListener env data timestamp).1.stareStartTime = env.now + 2000 ∧
    (s.gazeListener env data timestamp).1.stareElement = s.stareElement ∧
    s.stareElement.map Element.ref =
      (findElement (s.gazeListener env data timestamp).1.smoothedGazeData env.activatable).map
        Element.ref := by
  cases hd : data with
  | none =>
    rw [hd, gazeListener_reject env s none timestamp (Or.inl rfl)] at hact
    cases hact
  | some d =>
    cases ht : s.isTracking with
    | false =>
      rw [hd, gazeListener_reject env s (some d) timestamp (Or.inr ht)] at hact
      cases hact
    | true =>
      rw [hd] at hact
      rcases gazeListener_cases env s d timestamp ht hth with
        ⟨_, _, _, ho⟩ | ⟨_, _, _, _, _, ho⟩ | ⟨_, _, _, _, _, _, ho⟩ |
        ⟨z, hf, heq, hdw, hel, hst, _⟩
      · rw [ho] at hact; cases hact
      · rw [ho] at hact; cases hact
      · rw [ho] at hact; cases hact
      · exact ⟨rfl, hdw, hst, hel, by rw [hf, heq]; rfl⟩

/-- C14 (amended): with non-decreasing clocks, two activations are never less
than 1500 ms apart, on every gaze path; and when every delivery from the first
activation to the second finds one and the same zone, they are never less than
3500 ms (so never less than the 2000 ms cooldown) apart. -/
theorem activations_apart (s : EyeTracking) (i : GazeInput) (between : List GazeInput)
    (k : GazeInput) (hr : Reachable s)
    (hmono : List.Pairwise (fun a b : GazeInput => a.env.now ≤ b.env.now)
      (i :: (between ++ [k])))
    (hi : (s.gazeListener i.env i.data i.timestamp).2.isSome = true)
    (hk : ((s.run (i :: between)).gazeListener k.env k.data k.timestamp).2.isSome = true) :
    i.env.now + 1500 ≤ k.env.now ∧
    (∀ r : ℕ, (∀ h ∈ s.hoverTrace (i :: (between ++ [k])), h.map Element.ref = some r) →
      i.env.now + 3500 ≤ k.env.now) := by
  have hth := reachable_stareThreshold s hr
  have hth1 : (s.gazeListener i.env i.data i.timestamp).1.stareThreshold = 3 / 2 :=
    (gazeListener_stareThreshold _ _ _ _).trans hth
  have hthk : (s.run (i :: between)).stareThreshold = 3 / 2 :=
    (run_stareThreshold _ s).trans hth
  obtain ⟨_, _, hst1, hel1, href1⟩ := activation_facts i.env s i.data i.timestamp hth hi
  obtain ⟨_, hdwk, _, _, _⟩ := activation_facts k.env _ k.data k.timestamp hthk hk
  have hhead := (List.pairwise_cons.mp hmono).1
  constructor
  · have hlb := start_lower_bound i.env.now between _ hth1 (by rw [hst1]; omega)
      (fun d hd => hhead d (List.mem_append_left _ hd))
    rw [run_cons] at hdwk
    omega
  · intro r hall
    rw [EyeTracking.hoverTrace, hoverTrace_append] at hall
    have hfi := hall _ (List.mem_cons_self _ _)
    have hheld := cooldown_held r (i.env.now + 2000) between _ hth1
      (by rw [hel1, href1]; exact hfi) (by rw [hst1])
      (fun h hh => hall h (List.mem_cons_of_mem _ (List.mem_append_left _ hh)))
    rw [run_cons] at hdwk
    omega

theorem centered_tail_hoverTrace :
    (EyeTracking.centered.run
        [gazeAt [exampleZone] 1000 50 50, gazeAt [exampleZone] 2000 50 50]).hoverTrace
      [gazeAt [exampleZone] 2500 50 50, gazeAt [exampleZone] 3000 50 50,
        gazeAt [exampleZone] 4500 50 50, gazeAt [exampleZone] 6000 50 50] =
      [some exampleZone, some exampleZone, some exampleZone, some exampleZone] := by
  have h := hoverTrace_append
    [gazeAt [exampleZone] 1000 50 50, gazeAt [exampleZone] 2000 50 50]
    [gazeAt [exampleZone] 2500 50 50, gazeAt [exampleZone] 3000 50 50,
      gazeAt [exampleZone] 4500 50 50, gazeAt [exampleZone] 6000 50 50] EyeTracking.centered
  simp only [List.cons_append, List.nil_append] at h
  rw [centered_hoverTrace] at h
  have h2 := congrArg (List.drop 2) h
  have e : (EyeTracking.centered.hoverTrace
      [gazeAt [exampleZone] 1000 50 50, gazeAt [exampleZone] 2000 50 50]).length = 2 :=
    hoverTrace_length _ _
  rw [List.drop_left' e] at h2
  exact h2.symm

theorem activations_apart_witness :
    Reachable (EyeTracking.centered.run
      [gazeAt [exampleZone] 1000 50 50, gazeAt [exampleZone] 2000 50 50]) ∧
    (gazeAt [exampleZone] 2500 50 50).env.now + 3500 ≤
      (gazeAt [exampleZone] 6000 50 50).env.now :=
  ⟨run_reachable _ _ centered_reachable,
    (activations_apart
      (EyeTracking.centered.run
        [gazeAt [exampleZone] 1000 50 50, gazeAt [exampleZone] 2000 50 50])
      (gazeAt [exampleZone] 2500 50 50)
      [gazeAt [exampleZone] 3000 50 50, gazeAt [exampleZone] 4500 50 50]
      (gazeAt [exampleZone] 6000 50 50)
      (run_reachable _ _ centered_reachable)
      (by simp [gazeAt])
      (by rw [centered_first_activation]; rfl)
      (by
        have h := centered_second_activation
        rw [show EyeTracking.centered.run
            [gazeAt [exampleZone] 1000 50 50, gazeAt [exampleZone] 2000 50 50,
              gazeAt [exampleZone] 2500 50 50, gazeAt [exampleZone] 3000 50 50,
              gazeAt [exampleZone] 4500 50 50] =
          (EyeTracking.centered.run
            [gazeAt [exampleZone] 1000 50 50, gazeAt [exampleZone] 2000 50 50]).run
            (gazeAt [exampleZone] 2500 50 50 ::
              [gazeAt [exampleZone] 3000 50 50, gazeAt [exampleZone] 4500 50 50]) from rfl] at h
        rw [h]; rfl)).2 1
      (by
        intro h hh
        rw [show gazeAt [exampleZone] 2500 50 50 ::
            ([gazeAt [exampleZone] 3000 50 50, gazeAt [exampleZone] 4500 50 50] ++
              [gazeAt [exampleZone] 6000 50 50]) =
            [gazeAt [exampleZone] 2500 50 50, gazeAt [exampleZone] 3000 50 50,
              gazeAt [exampleZone] 4500 50 50, gazeAt [exampleZone] 6000 50 50] from rfl,
          centered_tail_hoverTrace] at hh
        simp only [List.mem_cons, List.mem_singleton, List.not_mem_nil, or_false, or_self] at hh
        rw [hh]; rfl)⟩

/-- The gaze dwells on `otherZone`, activates it at clock 1500, leaves it at
1600, is back at 1700 and dwells again. -/
theorem leaving_simulation :
    simulateStare { x := 0, y := 0 } none 0
      [gazeAt [otherZone] 0 1000 50, gazeAt [otherZone] 1500 300 15,
        gazeAt [otherZone] 1600 800 15, gazeAt [otherZone] 1700 0 15,
        gazeAt [otherZone] 3200 315 15] =
      [(some otherZone, none), (some otherZone, some { elementName := some "weapons" }),
        (none, none), (some otherZone, none),
        (some otherZone, some { elementName := some "weapons" })] := by
  rw [simulateStare_cons _ _ _ _ _ { x := 1000, y := 50 } { x := 300, y := 15 }
      (some otherZone) (some otherZone) 0 none rfl (by norm_num [lerp]) (by decide) (by rfl),
    simulateStare_cons _ _ _ _ _ { x := 300, y := 15 } { x := 300, y := 15 }
      (some otherZone) (some otherZone) 3500 (some { elementName := some "weapons" }) rfl
      (by norm_num [lerp]) (by decide) (by rfl),
    simulateStare_cons _ _ _ _ _ { x := 800, y := 15 } { x := 450, y := 15 }
      none none 3500 none rfl (by norm_num [lerp]) (by decide) (by rfl),
    simulateStare_cons _ _ _ _ _ { x := 0, y := 15 } { x := 315, y := 15 }
      (some otherZone) (some otherZone) 1700 none rfl (by norm_num [lerp]) (by decide) (by rfl),
    simulateStare_cons _ _ _ _ _ { x := 315, y := 15 } { x := 315, y := 15 }
      (some otherZone) (some otherZone) 5200 (some { elementName := some "weapons" }) rfl
      (by norm_num [lerp]) (by decide) (by rfl)]
  rfl

/-- C14 (what the code does): the gaze dwells on `otherZone` and activates it
at clock 1500, leaves the zone, comes back at 1700 and activates the same zone
again at 3200, only 1700 ms after the first activation: leaving the zone drops
the cooldown. -/
theorem cooldown_lost_on_leaving :
    List.Pairwise (fun a b : GazeInput => a.env.now ≤ b.env.now)
      [gazeAt [otherZone] 0 1000 50, gazeAt [otherZone] 1500 300 15,
        gazeAt [otherZone] 1600 800 15, gazeAt [otherZone] 1700 0 15,
        gazeAt [otherZone] 3200 315 15] ∧
    EyeTracking.tracking.runTrace
      [gazeAt [otherZone] 0 1000 50, gazeAt [otherZone] 1500 300 15,
        gazeAt [otherZone] 1600 800 15, gazeAt [otherZone] 1700 0 15,
        gazeAt [otherZone] 3200 315 15] =
      [none, some { elementName := some "weapons" }, none, none,
        some { elementName := some "weapons" }] ∧
    EyeTracking.tracking.hoverTrace
      [gazeAt [otherZone] 0 1000 50, gazeAt [otherZone] 1500 300 15,
        gazeAt [otherZone] 1600 800 15, gazeAt [otherZone] 1700 0 15,
        gazeAt [otherZone] 3200 315 15] =
      [some otherZone, some otherZone, none, some otherZone, some otherZone] ∧
    (gazeAt [otherZone] 3200 315 15).env.now - (gazeAt [otherZone] 1500 300 15).env.now
      < 2000 := by
  refine ⟨by simp [gazeAt], ?_, ?_, by decide⟩
  · rw [(simulateStare_correct _ _ _ _ _ tracking_view).1, leaving_simulation]
    rfl
  · rw [(simulateStare_correct _ _ _ _ _ tracking_view).2, leaving_simulation]
    rfl

/-! ## Zone selection -/

theorem findElement_snoc (p : Point) (l : List Element) (a : Element) :
    findElement p (l ++ [a]) = if isGazeOnElement p a then some a else findElement p l := by
  rw [findElement_append, findElement_singleton]
  cases isGazeOnElement p a <;> simp

theorem findElement_eq_getLast (p : Point) (els : List Element) :
    findElement p els = (els.filter (fun z => isGazeOnElement p z)).getLast? := by
  induction els using List.reverseRecOn with
  | nil => rfl
  | append_singleton l a ih =>
    rw [findElement_snoc, List.filter_append]
    cases hon : isGazeOnElement p a with
    | true =>
      have hf : List.filter (fun z => isGazeOnElement p z) [a] = [a] := by simp [hon]
      rw [hf, List.getLast?_concat]
      rfl
    | false =>
      have hf : List.filter (fun z => isGazeOnElement p z) [a] = [] := by simp [hon]
      rw [hf, List.append_nil, ← ih]
      rfl

theorem findElement_eq_some_iff (p : Point) (els : List Element) (z : Element) :
    findElement p els = some z ↔
      ∃ before after : List Element, els = before ++ z :: after ∧
        isGazeOnElement p z = true ∧ ∀ y ∈ after, isGazeOnElement p y = false := by
  constructor
  · intro h
    induction els with
    | nil => simp [findElement] at h
    | cons e rest ih =>
      rw [findElement_cons] at h
      cases hr : findElement p rest with
      | some z1 =>
        rw [hr] at h
        simp only [Option.or_some, Option.some.injEq] at h
        subst h
        obtain ⟨b, a, he, hon, hoff⟩ := ih hr
        exact ⟨e :: b, a, by rw [he]; rfl, hon, hoff⟩
      | none =>
        rw [hr] at h
        cases hon : isGazeOnElement p e with
        | true =>
          simp [hon] at h
          subst h
          exact ⟨[], rest, rfl, hon, (findElement_eq_none_iff p rest).mp hr⟩
        | false => simp [hon] at h
  · rintro ⟨b, a, he, hon, hoff⟩
    rw [he, findElement_append, findElement_cons, (findElement_eq_none_iff p a).mpr hoff, hon]
    rfl

/-- C21: the zone selected by `checkStaring` is the last element, in iteration
order, whose rectangle contains the gaze point: `findElement` returns the last
entry of the list of containing zones, returns `z` exactly when `z` contains the
point and no later zone does, and returns nothing exactly when no zone contains
the point; after a call made while tracking the stare tracker holds the
identity of that zone. -/
theorem zone_selection_last_containing (p : Point) (els : List Element) :
    findElement p els = (els.filter (fun z => isGazeOnElement p z)).getLast? ∧
    (∀ z : Element, findElement p els = some z ↔
      ∃ before after : List Element, els = before ++ z :: after ∧
        isGazeOnElement p z = true ∧ ∀ y ∈ after, isGazeOnElement p y = false) ∧
    (findElement p els = none ↔ ∀ z ∈ els, isGazeOnElement p z = false) ∧
    (∀ (s : EyeTracking) (now : ℤ), s.isTracking = true → s.smoothedGazeData = p →
      (s.checkStaring { activatable := els, now := now }).1.stareElement.map Element.ref =
        ((els.filter (fun z => isGazeOnElement p z)).getLast?).map Element.ref) := by
  refine ⟨findElement_eq_getLast p els, findElement_eq_some_iff p els,
    findElement_eq_none_iff p els, ?_⟩
  intro s now ht hp
  rw [← findElement_eq_getLast]
  subst hp
  cases hf : findElement s.smoothedGazeData els with
  | none => rw [checkStaring_found_none _ s ht hf]
  | some z =>
    by_cases hne : s.stareElement.map Element.ref ≠ some z.ref
    · rw [checkStaring_found_other _ s z ht hf hne]
    · have heq := not_not.mp hne
      unfold EyeTracking.checkStaring
      simp only [ht, Bool.not_true, Bool.false_eq_true, if_false, hf]
      rw [if_neg hne]
      split <;> exact heq

theorem zone_selection_last_containing_witness :
    EyeTracking.hovering.isTracking = true ∧
    findElement { x := 50, y := 50 } [exampleZone, coverZone, otherZone] = some coverZone ∧
    (EyeTracking.hovering.checkStaring
      { activatable := [exampleZone, coverZone, otherZone], now := 10 }).1.stareElement.map
        Element.ref = some 3 := by
  have h := zone_selection_last_containing { x := 50, y := 50 }
    [exampleZone, coverZone, otherZone]
  refine ⟨hovering_fields.1, ?_, ?_⟩
  · rw [h.1]; decide
  · rw [h.2.2.2 EyeTracking.hovering 10 hovering_fields.1 hovering_fields.2.1]; decide

/-! ## clamp -/

/-- C22: for bounds with `min ≤ max`, `clamp(value, min, max)` lies in
`[min, max]`, equals `value` inside the bounds, `min` below them and `max`
above them, and clamping twice is clamping once. -/
theorem clamp_spec (value min max : ℚ) (h : min ≤ max) :
    min ≤ clamp value min max ∧ clamp value min max ≤ max ∧
    (min ≤ value → value ≤ max → clamp value min max = value) ∧
    (value < min → clamp value min max = min) ∧
    (max < value → clamp value min max = max) ∧
    clamp (clamp value min max) min max = clamp value min max := by
  unfold clamp
  have h1 : min ≤ Min.min (Max.max value min) max := le_min (le_max_right _ _) h
  have h2 : Min.min (Max.max value min) max ≤ max := min_le_right _ _
  refine ⟨h1, h2, ?_, ?_, ?_, ?_⟩
  · intro hlo hhi
    rw [max_eq_left hlo, min_eq_left hhi]
  · intro hlt
    rw [max_eq_right (le_of_lt hlt), min_eq_left h]
  · intro hgt
    rw [max_eq_left (le_trans h (le_of_lt hgt)), min_eq_right (le_of_lt hgt)]
  · rw [max_eq_left h1, min_eq_left h2]

theorem clamp_spec_witness :
    (0 : ℚ) ≤ 100 ∧ clamp 120 0 100 = 100 ∧ clamp (-5) 0 100 = 0 ∧ clamp 42 0 100 = 42 :=
  ⟨by norm_num, (clamp_spec 120 0 100 (by norm_num)).2.2.2.2.1 (by norm_num),
    (clamp_spec (-5) 0 100 (by norm_num)).2.2.2.1 (by norm_num),
    (clamp_spec 42 0 100 (by norm_num)).2.2.1 (by norm_num) (by norm_num)⟩

/-! ## Containment -/

/-- C24: `isGazeOnElement(p, zone)` holds exactly when
`left ≤ p.x ≤ right` and `top ≤ p.y ≤ bottom`; the borders are inside, so each
corner of a rectangle with `left ≤ right` and `top ≤ bottom` is inside. -/
theorem isGazeOnElement_iff (p : Point) (zone : Element) :
    (isGazeOnElement p zone = true ↔
      zone.rect.left ≤ p.x ∧ p.x ≤ zone.rect.right ∧
      zone.rect.top ≤ p.y ∧ p.y ≤ zone.rect.bottom) ∧
    (isGazeOnElement { x := zone.rect.left, y := zone.rect.top } zone = true ↔
      zone.rect.left ≤ zone.rect.right ∧ zone.rect.top ≤ zone.rect.bottom) ∧
    (isGazeOnElement { x := zone.rect.right, y := zone.rect.top } zone = true ↔
      zone.rect.left ≤ zone.rect.right ∧ zone.rect.top ≤ zone.rect.bottom) ∧
    (isGazeOnElement { x := zone.rect.left, y := zone.rect.bottom } zone = true ↔
      zone.rect.left ≤ zone.rect.right ∧ zone.rect.top ≤ zone.rect.bottom) ∧
    (isGazeOnElement { x := zone.rect.right, y := zone.rect.bottom } zone = true ↔
      zone.rect.left ≤ zone.rect.right ∧ zone.rect.top ≤ zone.rect.bottom) := by
  have key : ∀ q : Point, (isGazeOnElement q zone = true ↔
      zone.rect.left ≤ q.x ∧ q.x ≤ zone.rect.right ∧
      zone.rect.top ≤ q.y ∧ q.y ≤ zone.rect.bottom) := by
    intro q
    unfold isGazeOnElement
    simp only [Bool.and_eq_true, decide_eq_true_eq, ge_iff_le, and_assoc]
  refine ⟨key p, ?_, ?_, ?_, ?_⟩ <;> rw [key] <;> simp only [le_refl, true_and, and_true]

/-! ## Calibration grid -/

/-- C29: `generateCalibrationPoints` stores exactly nine points, the 3x3 grid
over the percentages 10, 50, 90 in row-major order, point `i` at
`(10 + 40 * (i mod 3), 10 + 40 * (i / 3))`; the nine pairs are distinct, every
pair of the grid occurs exactly once, and the points stored before are gone. -/
theorem generateCalibrationPoints_grid (s : EyeTracking) :
    s.generateCalibrationPoints.calibrationPoints =
      [{ x := 10, y := 10 }, { x := 50, y := 10 }, { x := 90, y := 10 },
       { x := 10, y := 50 }, { x := 50, y := 50 }, { x := 90, y := 50 },
       { x := 10, y := 90 }, { x := 50, y := 90 }, { x := 90, y := 90 }] ∧
    s.generateCalibrationPoints.calibrationPoints.length = 9 ∧
    (∀ i : ℕ, i < 9 → s.generateCalibrationPoints.calibrationPoints[i]? =
      some { x := 10 + 40 * (i % 3), y := 10 + 40 * (i / 3) }) ∧
    s.generateCalibrationPoints.calibrationPoints.Nodup ∧
    (∀ x ∈ [10, 50, 90], ∀ y ∈ [10, 50, 90],
      s.generateCalibrationPoints.calibrationPoints.count { x := x, y := y } = 1) ∧
    s.generateCalibrationPoints = { s with calibrationPoints :=
      s.generateCalibrationPoints.calibrationPoints } := by
  have h : s.generateCalibrationPoints.calibrationPoints =
      [{ x := 10, y := 10 }, { x := 50, y := 10 }, { x := 90, y := 10 },
       { x := 10, y := 50 }, { x := 50, y := 50 }, { x := 90, y := 50 },
       { x := 10, y := 90 }, { x := 50, y := 90 }, { x := 90, y := 90 }] := rfl
  refine ⟨h, by rw [h]; rfl, ?_, by rw [h]; decide, by rw [h]; decide, rfl⟩
  rw [h]
  decide

/-! ## Tracking switched off -/

theorem run_reject (inputs : List GazeInput) :
    ∀ s : EyeTracking, (∀ i ∈ inputs, i.data = none ∨ s.isTracking = false) →
      s.run inputs = s ∧ s.runTrace inputs = List.replicate inputs.length none := by
  induction inputs with
  | nil => intro s _; exact ⟨rfl, rfl⟩
  | cons i rest ih =>
    intro s h
    have hrej := gazeListener_reject i.env s i.data i.timestamp (h i (List.mem_cons_self _ _))
    obtain ⟨h1, h2⟩ := ih s (fun j hj => h j (List.mem_cons_of_mem _ hj))
    rw [run_cons, EyeTracking.runTrace, hrej]
    exact ⟨h1, by rw [h2]; rfl⟩

/-- C30: a delivery with null data or made while tracking is off returns the
state exactly as it was and requests nothing, so after `stopTracking` any
sequence of deliveries leaves every field as it was; `startTracking` on a
tracker that is not initialized returns `false` and changes nothing, and on an
initialized one returns `true` with tracking on. -/
theorem rejected_sample_changes_nothing (s : EyeTracking) :
    (∀ (env : Env) (data : Option Point) (timestamp : ℚ),
      data = none ∨ s.isTracking = false → s.gazeListener env data timestamp = (s, none)) ∧
    (∀ env : Env, s.isTracking = false → s.checkStaring env = (s, none)) ∧
    (∀ inputs : List GazeInput, s.stopTracking.run inputs = s.stopTracking ∧
      s.stopTracking.runTrace inputs = List.replicate inputs.length none) ∧
    (s.isInitialized = false → s.startTracking = (s, false)) ∧
    (s.isInitialized = true →
      s.startTracking.2 = true ∧ s.startTracking.1.isTracking = true) := by
  refine ⟨fun env data timestamp h => gazeListener_reject env s data timestamp h, ?_, ?_, ?_, ?_⟩
  · intro env h
    unfold EyeTracking.checkStaring
    simp [h]
  · intro inputs
    exact run_reject inputs s.stopTracking (fun _ _ => Or.inr rfl)
  · intro h
    unfold EyeTracking.startTracking
    simp [h]
  · intro h
    unfold EyeTracking.startTracking
    simp [h]

theorem rejected_sample_changes_nothing_witness :
    EyeTracking.hovering.stopTracking.isTracking = false ∧
    EyeTracking.hovering.stopTracking.gazeListener { activatable := [exampleZone], now := 9000 }
      (some { x := 50, y := 50 }) 9000 = (EyeTracking.hovering.stopTracking, none) ∧
    EyeTracking.new.isInitialized = false ∧
    EyeTracking.new.startTracking = (EyeTracking.new, false) :=
  ⟨rfl,
    (rejected_sample_changes_nothing EyeTracking.hovering.stopTracking).1 _ _ _ (Or.inr rfl),
    rfl, (rejected_sample_changes_nothing EyeTracking.new).2.2.2.1 rfl⟩

/-! ## The next activation after a cooldown -/

theorem gazeListener_isTracking (env : Env) (s : EyeTracking) (data : Option Point)
    (timestamp : ℚ) :
    (s.gazeListener env data timestamp).1.isTracking = s.isTracking := by
  cases data with
  | none => rfl
  | some d =>
    cases ht : s.isTracking with
    | false => rw [gazeListener_reject env s (some d) timestamp (Or.inr ht)]; exact ht
    | true => exact (gazeListener_accept env s d timestamp ht).2.2.1

/-- While every delivery finds the tracked element and the dwell clock shows
less than 1500 ms, nothing is requested and the stare tracker is unchanged. -/
theorem hover_waits (r : ℕ) (st : ℤ) (inputs : List GazeInput) :
    ∀ s : EyeTracking, s.isTracking = true → s.stareThreshold = 3 / 2 →
      s.stareElement.map Element.ref = some r → s.stareStartTime = st →
      (∀ d ∈ inputs, d.data ≠ none ∧ d.env.now - st < 1500) →
      (∀ h ∈ s.hoverTrace inputs, h.map Element.ref = some r) →
      s.runTrace inputs = List.replicate inputs.length none ∧
      (s.run inputs).isTracking = true ∧ (s.run inputs).stareThreshold = 3 / 2 ∧
      (s.run inputs).stareElement.map Element.ref = some r ∧
      (s.run inputs).stareStartTime = st := by
  induction inputs with
  | nil => intro s ht hth he hst _ _; exact ⟨rfl, ht, hth, he, hst⟩
  | cons i rest ih =>
    intro s ht hth he hst hall hhov
    obtain ⟨hdata, hlt⟩ := hall i (List.mem_cons_self _ _)
    obtain ⟨d, hd⟩ := Option.ne_none_iff_exists'.mp hdata
    rw [EyeTracking.hoverTrace] at hhov
    have hfound := hhov _ (List.mem_cons_self _ _)
    have hrest := fun h hh => hhov h (List.mem_cons_of_mem _ hh)
    rw [EyeTracking.runTrace, run_cons]
    rw [hd] at hfound hrest ⊢
    have htt := gazeListener_tracking_threshold i.env s d i.timestamp ht
    rcases gazeListener_cases i.env s d i.timestamp ht hth with
      ⟨hf, _, _, _⟩ | ⟨z, hf, hne, _, _, _⟩ | ⟨_, _, _, _, hel, hs1, ho⟩ |
      ⟨_, _, _, hdw, _, _, _⟩
    · rw [hf] at hfound; cases hfound
    · rw [hf] at hfound
      rw [he] at hne
      exact absurd hfound.symm hne
    · obtain ⟨htr, hfin⟩ := ih _ htt.1 (htt.2.trans hth) (by rw [hel]; exact he)
        (by rw [hs1]; exact hst) (fun d hd => hall d (List.mem_cons_of_mem _ hd)) hrest
      rw [ho, htr]
      exact ⟨rfl, hfin⟩
    · rw [hst] at hdw
      omega

/-- C25: after an activation at time `T`, while every later delivery finds the
same zone, no delivery with clock below `T + 3500` requests anything and the
first delivery with clock at least `T + 3500` requests the next activation. -/
theorem next_activation_after_cooldown (s : EyeTracking) (i : GazeInput)
    (before : List GazeInput) (atT : GazeInput) (r : ℕ)
    (hr : Reachable s)
    (hi : (s.gazeListener i.env i.data i.timestamp).2.isSome = true)
    (hacc : ∀ d ∈ before ++ [atT], d.data ≠ none)
    (hhover : ∀ h ∈ s.hoverTrace (i :: (before ++ [atT])), h.map Element.ref = some r)
    (hbefore : ∀ d ∈ before, d.env.now < i.env.now + 3500)
    (hatT : i.env.now + 3500 ≤ atT.env.now) :
    ∃ z : Element,
      (s.hoverTrace (i :: (before ++ [atT]))).getLast? = some (some z) ∧
      (s.gazeListener i.env i.data i.timestamp).1.runTrace (before ++ [atT]) =
        List.replicate before.length none ++ [some { elementName := z.dataName }] := by
  have hth := reachable_stareThreshold s hr
  obtain ⟨ht, _, hst1, hel1, href1⟩ := activation_facts i.env s i.data i.timestamp hth hi
  rw [EyeTracking.hoverTrace, hoverTrace_snoc] at hhover ⊢
  have hfi := hhover _ (List.mem_cons_self _ _)
  have ht1 : (s.gazeListener i.env i.data i.timestamp).1.isTracking = true :=
    (gazeListener_isTracking _ _ _ _).trans ht
  have hth1 : (s.gazeListener i.env i.data i.timestamp).1.stareThreshold = 3 / 2 :=
    (gazeListener_stareThreshold _ _ _ _).trans hth
  obtain ⟨htr, ht2, hth2, he2, hst2⟩ := hover_waits r (i.env.now + 2000) before _ ht1 hth1
    (by rw [hel1, href1]; exact hfi) hst1
    (fun d hd => ⟨hacc d (List.mem_append_left _ hd), by have := hbefore d hd; omega⟩)
    (fun h hh => hhover h (List.mem_cons_of_mem _ (List.mem_append_left _ hh)))
  obtain ⟨d, hd⟩ := Option.ne_none_iff_exists'.mp
    (hacc atT (List.mem_append_right _ (List.mem_singleton_self _)))
  have hfT := hhover _ (List.mem_cons_of_mem _
    (List.mem_append_right _ (List.mem_singleton_self _)))
  rw [runTrace_snoc, htr]
  rw [hd] at hfT ⊢
  rcases gazeListener_cases atT.env _ d atT.timestamp ht2 hth2 with
    ⟨hf, _, _, _⟩ | ⟨z, hf, hne, _, _, _⟩ | ⟨_, _, _, hlt, _, _, _⟩ |
    ⟨z, hf, _, _, _, _, ho⟩
  · rw [hf] at hfT; cases hfT
  · rw [hf] at hfT
    rw [he2] at hne
    exact absurd hfT.symm hne
  · rw [hst2] at hlt
    omega
  · refine ⟨z, ?_, by rw [ho]⟩
    rw [hf, ← List.cons_append, List.getLast?_concat]

theorem next_activation_after_cooldown_witness :
    Reachable (EyeTracking.centered.run
      [gazeAt [exampleZone] 1000 50 50, gazeAt [exampleZone] 2000 50 50]) ∧
    (gazeAt [exampleZone] 2500 50 50).env.now + 3500 ≤
      (gazeAt [exampleZone] 6000 50 50).env.now ∧
    ∃ z : Element,
      ((EyeTracking.centered.run
          [gazeAt [exampleZone] 1000 50 50, gazeAt [exampleZone] 2000 50 50]).hoverTrace
        (gazeAt [exampleZone] 2500 50 50 ::
          ([gazeAt [exampleZone] 3000 50 50, gazeAt [exampleZone] 4500 50 50] ++
            [gazeAt [exampleZone] 6000 50 50]))).getLast? = some (some z) ∧
      ((EyeTracking.centered.run
          [gazeAt [exampleZone] 1000 50 50, gazeAt [exampleZone] 2000 50 50]).gazeListener
        (gazeAt [exampleZone] 2500 50 50).env (gazeAt [exampleZone] 2500 50 50).data
        (gazeAt [exampleZone] 2500 50 50).timestamp).1.runTrace
        ([gazeAt [exampleZone] 3000 50 50, gazeAt [exampleZone] 4500 50 50] ++
          [gazeAt [exampleZone] 6000 50 50]) =
        List.replicate
          [gazeAt [exampleZone] 3000 50 50, gazeAt [exampleZone] 4500 50 50].length none ++
          [some { elementName := z.dataName }] :=
  ⟨run_reachable _ _ centered_reachable, by decide,
    next_activation_after_cooldown
      (EyeTracking.centered.run
        [gazeAt [exampleZone] 1000 50 50, gazeAt [exampleZone] 2000 50 50])
      (gazeAt [exampleZone] 2500 50 50)
      [gazeAt [exampleZone] 3000 50 50, gazeAt [exampleZone] 4500 50 50]
      (gazeAt [exampleZone] 6000 50 50) 1
      (run_reachable _ _ centered_reachable)
      (by rw [centered_first_activation]; rfl)
      (by
        intro d hd
        simp only [List.cons_append, List.nil_append, List.mem_cons, List.mem_singleton,
          List.not_mem_nil, or_false] at hd
        rcases hd with hd | hd | hd <;> subst hd <;> simp [gazeAt])
      (by
        intro h hh
        rw [show gazeAt [exampleZone] 2500 50 50 ::
            ([gazeAt [exampleZone] 3000 50 50, gazeAt [exampleZone] 4500 50 50] ++
              [gazeAt [exampleZone] 6000 50 50]) =
            [gazeAt [exampleZone] 2500 50 50, gazeAt [exampleZone] 3000 50 50,
              gazeAt [exampleZone] 4500 50 50, gazeAt [exampleZone] 6000 50 50] from rfl,
          centered_tail_hoverTrace] at hh
        simp only [List.mem_cons, List.mem_singleton, List.not_mem_nil, or_false, or_self] at hh
        rw [hh]; rfl)
      (by
        intro d hd
        simp only [List.mem_cons, List.mem_singleton, List.not_mem_nil, or_false] at hd
        rcases hd with hd | hd <;> subst hd <;> decide)
      (by decide)⟩

/-! ## The performance optimizer: optimization level -/

theorem setOptimizationLevel_level (s : PerformanceOptimizer) (level : ℤ) :
    (s.setOptimizationLevel level).optimizationLevel = Max.max 0 (Min.min 3 level) := by
  unfold PerformanceOptimizer.setOptimizationLevel
  simp only []
  split
  · next h => exact h.symm
  · rfl

theorem setOptimizationLevel_eq (s : PerformanceOptimizer) (level : ℤ) :
    s.setOptimizationLevel level =
      { s with optimizationLevel := Max.max 0 (Min.min 3 level) } := by
  unfold PerformanceOptimizer.setOptimizationLevel
  simp only []
  split
  · next h => rw [h]
  · rfl

theorem clampLevel_range (level : ℤ) :
    0 ≤ Max.max 0 (Min.min 3 level) ∧ Max.max 0 (Min.min 3 level) ≤ 3 :=
  ⟨le_max_left _ _, max_le (by norm_num) (min_le_left _ _)⟩

theorem clampLevel_id (level : ℤ) (h0 : 0 ≤ level) (h3 : level ≤ 3) :
    Max.max 0 (Min.min 3 level) = level := by
  rw [min_eq_right h3, max_eq_right h0]

theorem setStats_level (s : PerformanceOptimizer) (type : String) (values : List ℚ) :
    (s.setStats type values).optimizationLevel = s.optimizationLevel := by
  unfold PerformanceOptimizer.setStats
  split_ifs <;> rfl

/-- The lookups of the three own keys find the arrays. -/
theorem stats_own (s : PerformanceOptimizer) :
    s.stats "fps" = StatsValue.history s.statsFps ∧
    s.stats "frameTime" = StatsValue.history s.statsFrameTime ∧
    s.stats "memory" = StatsValue.history s.statsMemory :=
  ⟨rfl, rfl, rfl⟩

/-- On a key that holds an array `addStat` returns: it pushes the value and
drops the oldest entry above 60. -/
theorem addStat_own (s : PerformanceOptimizer) (type : String) (l : List ℚ) (value : ℚ)
    (h : s.stats type = StatsValue.history l) :
    s.addStat type value =
      Except.ok (s.setStats type
        (if (l ++ [value]).length > 60 then (l ++ [value]).tail else l ++ [value])) := by
  unfold PerformanceOptimizer.addStat
  rw [h]

/-- A call of `addStat` that returns has either changed nothing (no such
property) or pushed onto one of the arrays. -/
theorem addStat_cases (s after : PerformanceOptimizer) (type : String) (value : ℚ)
    (h : s.addStat type value = Except.ok after) :
    after = s ∨ ∃ l : List ℚ, s.stats type = StatsValue.history l ∧
      after = s.setStats type
        (if (l ++ [value]).length > 60 then (l ++ [value]).tail else l ++ [value]) := by
  unfold PerformanceOptimizer.addStat at h
  cases hs : s.stats type with
  | undefined =>
    rw [hs] at h
    exact Or.inl (Except.ok.inj h).symm
  | inherited length =>
    rw [hs] at h
    cases h
  | history l =>
    rw [hs] at h
    exact Or.inr ⟨l, rfl, (Except.ok.inj h).symm⟩

theorem addStat_level (s after : PerformanceOptimizer) (type : String) (value : ℚ)
    (h : s.addStat type value = Except.ok after) :
    after.optimizationLevel = s.optimizationLevel := by
  rcases addStat_cases s after type value h with h1 | ⟨l, _, h1⟩
  · rw [h1]
  · rw [h1]; exact setStats_level _ _ _

/-- On a key that holds an array `getAverageStat` returns. -/
theorem getAverageStat_own (s : PerformanceOptimizer) (type : String) (samples : ℕ)
    (l : List ℚ) (h : s.stats type = StatsValue.history l) :
    ∃ average : JSNumber, s.getAverageStat type samples = Except.ok average := by
  unfold PerformanceOptimizer.getAverageStat
  rw [h]
  simp only []
  split
  · exact ⟨_, rfl⟩
  · exact ⟨_, rfl⟩

/-- `checkOptimization` returns, and the level it asks for. -/
theorem checkOptimization_eq (s : PerformanceOptimizer) :
    ∃ (avgFps avgFrameTime : JSNumber) (newLevel : ℤ),
      s.getAverageStat "fps" 5 = Except.ok avgFps ∧
      s.getAverageStat "frameTime" 5 = Except.ok avgFrameTime ∧
      newLevel =
        (if avgFps.lt 20 || avgFrameTime.gt 50 then Min.min 3 (s.optimizationLevel + 1)
        else if avgFps.lt 30 || avgFrameTime.gt 33 then Min.min 2 s.optimizationLevel
        else if avgFps.gt 50 && avgFrameTime.lt 16 && decide (s.optimizationLevel > 0) then
          Max.max 0 (s.optimizationLevel - 1)
        else s.optimizationLevel) ∧
      s.checkOptimization =
        Except.ok (if newLevel ≠ s.optimizationLevel then
          { s with optimizationLevel := Max.max 0 (Min.min 3 newLevel) } else s) := by
  obtain ⟨a, ha⟩ := getAverageStat_own s "fps" 5 _ (stats_own s).1
  obtain ⟨b, hb⟩ := getAverageStat_own s "frameTime" 5 _ (stats_own s).2.1
  refine ⟨a, b, _, ha, hb, rfl, ?_⟩
  unfold PerformanceOptimizer.checkOptimization
  rw [ha, hb]
  simp only [bind, Except.bind, pure, Except.pure]
  rw [setOptimizationLevel_eq]

theorem checkOptimization_range (s after : PerformanceOptimizer)
    (hc : s.checkOptimization = Except.ok after)
    (h : 0 ≤ s.optimizationLevel ∧ s.optimizationLevel ≤ 3) :
    0 ≤ after.optimizationLevel ∧ after.optimizationLevel ≤ 3 := by
  obtain ⟨_, _, n, _, _, _, hc1⟩ := checkOptimization_eq s
  rw [hc1] at hc
  rw [← Except.ok.inj hc]
  split
  · exact clampLevel_range n
  · exact h

theorem checkOptimization_stats (s after : PerformanceOptimizer)
    (hc : s.checkOptimization = Except.ok after) :
    after.statsFps = s.statsFps ∧ after.statsFrameTime = s.statsFrameTime ∧
    after.statsMemory = s.statsMemory := by
  obtain ⟨_, _, n, _, _, _, hc1⟩ := checkOptimization_eq s
  rw [hc1] at hc
  rw [← Except.ok.inj hc]
  split <;> exact ⟨rfl, rfl, rfl⟩

/-- Sequencing two calls that return: if the first returns a state with `P`,
and the second returns a state with `Q` from every state with `P`, the
sequence returns a state with `Q`. -/
theorem bind_returns {α β : Type} (P : α → Prop) (Q : β → Prop) (x : Except JSError α)
    (f : α → Except JSError β) (hx : ∃ a, x = Except.ok a ∧ P a)
    (hf : ∀ a, P a → ∃ b, f a = Except.ok b ∧ Q b) :
    ∃ b, (x >>= f) = Except.ok b ∧ Q b := by
  obtain ⟨a, hxa, ha⟩ := hx
  rw [hxa]
  exact hf a ha

theorem setStats_bounds (s : PerformanceOptimizer) (type : String) (values : List ℚ)
    (h : s.WithinBounds) (hv : values.length ≤ 60) : (s.setStats type values).WithinBounds := by
  unfold PerformanceOptimizer.setStats
  split_ifs
  · exact ⟨h.1, hv, h.2.2.1, h.2.2.2⟩
  · exact ⟨h.1, h.2.1, hv, h.2.2.2⟩
  · exact ⟨h.1, h.2.1, h.2.2.1, hv⟩
  · exact h

theorem stats_cases (s : PerformanceOptimizer) (type : String) (l : List ℚ)
    (h : s.stats type = StatsValue.history l) :
    (type = "fps" ∧ l = s.statsFps) ∨ (type = "frameTime" ∧ l = s.statsFrameTime) ∨
    (type = "memory" ∧ l = s.statsMemory) := by
  unfold PerformanceOptimizer.stats at h
  split_ifs at h with h1 h2 h3
  · exact Or.inl ⟨h1, (StatsValue.history.inj h).symm⟩
  · exact Or.inr (Or.inl ⟨h2, (StatsValue.history.inj h).symm⟩)
  · exact Or.inr (Or.inr ⟨h3, (StatsValue.history.inj h).symm⟩)
  · split at h <;> cases h

theorem addStat_bounds (s after : PerformanceOptimizer) (type : String) (value : ℚ)
    (h : s.WithinBounds) (ha : s.addStat type value = Except.ok after) :
    after.WithinBounds := by
  rcases addStat_cases s after type value ha with h1 | ⟨l, hl, h1⟩
  · rw [h1]; exact h
  · rw [h1]
    apply setStats_bounds s type _ h
    have hlen : l.length ≤ 60 := by
      rcases stats_cases s type l hl with ⟨_, e⟩ | ⟨_, e⟩ | ⟨_, e⟩
      · rw [e]; exact h.2.1
      · rw [e]; exact h.2.2.1
      · rw [e]; exact h.2.2.2
    split
    · simp only [List.length_tail, List.length_append, List.length_singleton]; omega
    · next hn => exact not_lt.mp hn

/-- On the three own keys `addStat` returns and keeps the bounds. -/
theorem addStat_own_bounds (s : PerformanceOptimizer) (type : String) (l : List ℚ) (value : ℚ)
    (hs : s.stats type = StatsValue.history l) (h : s.WithinBounds) :
    ∃ after, s.addStat type value = Except.ok after ∧ after.WithinBounds :=
  ⟨_, addStat_own s type l value hs, addStat_bounds s _ type value h (addStat_own s type l value hs)⟩

theorem checkOptimization_bounds (s : PerformanceOptimizer) (h : s.WithinBounds) :
    ∃ after, s.checkOptimization = Except.ok after ∧ after.WithinBounds := by
  obtain ⟨_, _, n, _, _, _, hc⟩ := checkOptimization_eq s
  refine ⟨_, hc, ?_⟩
  split
  · exact ⟨clampLevel_range n, h.2⟩
  · exact h

theorem monitorPerformance_bounds (s : PerformanceOptimizer) (now : ℚ) (heap : Option ℚ)
    (h : s.WithinBounds) :
    ∃ after, s.monitorPerformance now heap = Except.ok after ∧ after.WithinBounds := by
  unfold PerformanceOptimizer.monitorPerformance
  split
  · exact ⟨s, rfl, h⟩
  · apply bind_returns PerformanceOptimizer.WithinBounds
    · exact addStat_own_bounds _ "frameTime" _ _ rfl h
    · intro s2 h2
      simp only []
      split
      · apply bind_returns PerformanceOptimizer.WithinBounds
        · exact addStat_own_bounds _ "fps" _ _ rfl h2
        · intro s7 h7
          apply bind_returns PerformanceOptimizer.WithinBounds
          · exact checkOptimization_bounds s7 h7
          · intro s8 h8
            cases heap with
            | none => exact ⟨_, rfl, h8⟩
            | some used =>
              apply bind_returns PerformanceOptimizer.WithinBounds
              · exact addStat_own_bounds _ "memory" _ _ rfl h8
              · intro s9 h9
                exact ⟨_, rfl, h9⟩
      · exact ⟨_, rfl, h2⟩

theorem startMonitoring_bounds (s : PerformanceOptimizer) (now now2 : ℚ) (heap : Option ℚ)
    (h : s.WithinBounds) :
    ∃ after, s.startMonitoring now now2 heap = Except.ok after ∧ after.WithinBounds := by
  unfold PerformanceOptimizer.startMonitoring
  split
  · exact ⟨s, rfl, h⟩
  · exact monitorPerformance_bounds _ _ _ h

theorem setOptimizationLevel_bounds (s : PerformanceOptimizer) (level : ℤ)
    (h : s.WithinBounds) : (s.setOptimizationLevel level).WithinBounds := by
  rw [setOptimizationLevel_eq]
  exact ⟨clampLevel_range level, h.2⟩

theorem init_bounds (s : PerformanceOptimizer) (now now2 : ℚ) (heap : Option ℚ)
    (h : s.WithinBounds) :
    ∃ after, s.init now now2 heap = Except.ok after ∧ after.WithinBounds := by
  unfold PerformanceOptimizer.init
  apply bind_returns PerformanceOptimizer.WithinBounds
  · exact startMonitoring_bounds s now now2 heap h
  · intro s1 h1
    exact ⟨_, rfl, setOptimizationLevel_bounds s1 1 h1⟩

theorem reachable_bounds (s : PerformanceOptimizer) (h : OptimizerReachable s) :
    s.WithinBounds := by
  induction h with
  | constructed =>
    exact ⟨⟨le_refl _, by norm_num [PerformanceOptimizer.new]⟩,
      Nat.zero_le _, Nat.zero_le _, Nat.zero_le _⟩
  | init s after now now2 heap _ hcall ih =>
    obtain ⟨a, ha, hb⟩ := init_bounds s now now2 heap ih
    rw [ha] at hcall
    rw [← Except.ok.inj hcall]
    exact hb
  | start s after now now2 heap _ hcall ih =>
    obtain ⟨a, ha, hb⟩ := startMonitoring_bounds s now now2 heap ih
    rw [ha] at hcall
    rw [← Except.ok.inj hcall]
    exact hb
  | stop s _ ih => exact ih
  | monitor s after now heap _ hcall ih =>
    obtain ⟨a, ha, hb⟩ := monitorPerformance_bounds s now heap ih
    rw [ha] at hcall
    rw [← Except.ok.inj hcall]
    exact hb
  | stat s after type value _ hcall ih => exact addStat_bounds s after type value ih hcall
  | check s after _ hcall ih =>
    obtain ⟨a, ha, hb⟩ := checkOptimization_bounds s ih
    rw [ha] at hcall
    rw [← Except.ok.inj hcall]
    exact hb
  | level s level _ ih => exact setOptimizationLevel_bounds s level ih

theorem reachable_level_range (s : PerformanceOptimizer) (h : OptimizerReachable s) :
    0 ≤ s.optimizationLevel ∧ s.optimizationLevel ≤ 3 :=
  (reachable_bounds s h).1

theorem reachable_stats_bounded (s : PerformanceOptimizer) (h : OptimizerReachable s) :
    s.statsFps.length ≤ 60 ∧ s.statsFrameTime.length ≤ 60 ∧ s.statsMemory.length ≤ 60 :=
  (reachable_bounds s h).2

theorem tableLookup_isSome {α : Type} (a b c d : α) (level : ℤ)
    (h0 : 0 ≤ level) (h3 : level ≤ 3) : (tableLookup [a, b, c, d] level).isSome = true := by
  have hcases : level = 0 ∨ level = 1 ∨ level = 2 ∨ level = 3 := by omega
  rcases hcases with h | h | h | h <;> subst h <;> rfl

theorem init_startedOptimizer :
    PerformanceOptimizer.new.init 0 16 none = Except.ok startedOptimizer := by
  norm_num [PerformanceOptimizer.init, PerformanceOptimizer.startMonitoring,
    PerformanceOptimizer.monitorPerformance, PerformanceOptimizer.addStat,
    PerformanceOptimizer.stats, PerformanceOptimizer.setStats,
    PerformanceOptimizer.setOptimizationLevel, PerformanceOptimizer.new, startedOptimizer,
    bind, Except.bind, pure, Except.pure, (by decide : ¬ ("frameTime" = "fps"))]

/-- C23: `setOptimizationLevel` stores `max(0, min(3, level))` for every integer
argument, the level is one of 0, 1, 2, 3 in every reachable state, and there
every table lookup of `applyOptimizations` finds an entry. -/
theorem optimizationLevel_in_range :
    (∀ (s : PerformanceOptimizer) (level : ℤ),
      (s.setOptimizationLevel level).optimizationLevel = Max.max 0 (Min.min 3 level)) ∧
    (∀ s : PerformanceOptimizer, OptimizerReachable s →
      (s.optimizationLevel = 0 ∨ s.optimizationLevel = 1 ∨ s.optimizationLevel = 2 ∨
        s.optimizationLevel = 3) ∧
      s.applyOptimizations.particleCount.isSome = true ∧
      s.applyOptimizations.shadowsEnabled.isSome = true ∧
      s.applyOptimizations.renderScale.isSome = true ∧
      s.applyOptimizations.effectsQuality.isSome = true) := by
  refine ⟨setOptimizationLevel_level, fun s hr => ?_⟩
  obtain ⟨h0, h3⟩ := reachable_level_range s hr
  exact ⟨by omega, tableLookup_isSome _ _ _ _ _ h0 h3, tableLookup_isSome _ _ _ _ _ h0 h3,
    tableLookup_isSome _ _ _ _ _ h0 h3, tableLookup_isSome _ _ _ _ _ h0 h3⟩

theorem optimizationLevel_in_range_witness :
    PerformanceOptimizer.new.init 0 16 none = Except.ok startedOptimizer ∧
    OptimizerReachable (startedOptimizer.setOptimizationLevel 7) ∧
    (startedOptimizer.setOptimizationLevel 7).optimizationLevel = 3 ∧
    (startedOptimizer.setOptimizationLevel 7).applyOptimizations.particleCount.isSome = true := by
  have hr : OptimizerReachable (startedOptimizer.setOptimizationLevel 7) :=
    OptimizerReachable.level _ _
      (OptimizerReachable.init _ _ _ _ _ OptimizerReachable.constructed init_startedOptimizer)
  refine ⟨init_startedOptimizer, hr, ?_, (optimizationLevel_in_range.2 _ hr).2.1⟩
  rw [optimizationLevel_in_range.1]
  decide

/-! ## The performance optimizer: statistics -/

theorem foldl_add_eq_sum (l : List ℚ) :
    ∀ a : ℚ, l.foldl (fun sum value => sum + value) a = a + l.sum := by
  induction l with
  | nil => intro a; simp
  | cons x rest ih => intro a; rw [List.foldl_cons, ih, List.sum_cons]; ring

theorem getAverageStat_mean (s : PerformanceOptimizer) (type : String) (samples : ℕ)
    (l : List ℚ) (hs : s.stats type = StatsValue.history l) (hne : l ≠ []) (h1 : 1 ≤ samples) :
    s.getAverageStat type samples =
      Except.ok (JSNumber.finite ((l.drop (l.length - Min.min samples l.length)).sum /
        ((Min.min samples l.length : ℕ) : ℚ))) := by
  have hlen : 0 < l.length := List.length_pos.mpr hne
  have hcount : Min.min samples l.length ≠ 0 := by
    have : 1 ≤ Min.min samples l.length := le_min h1 hlen
    omega
  have hq : ((Min.min samples l.length : ℕ) : ℚ) ≠ 0 := by exact_mod_cast hcount
  unfold PerformanceOptimizer.getAverageStat
  rw [hs]
  simp only []
  rw [if_neg (by omega), if_neg hcount, foldl_add_eq_sum, zero_add]
  unfold jsDiv
  rw [if_neg hq]

theorem stats_setStats (s : PerformanceOptimizer) (type : String) (l values : List ℚ)
    (h : s.stats type = StatsValue.history l) :
    (s.setStats type values).stats type = StatsValue.history values := by
  rcases stats_cases s type l h with ⟨ht, _⟩ | ⟨ht, _⟩ | ⟨ht, _⟩ <;> subst ht <;> rfl

theorem addStat_history (s : PerformanceOptimizer) (type : String) (l : List ℚ) (value : ℚ)
    (h : s.stats type = StatsValue.history l) (hlen : l.length ≤ 60) :
    ∃ after, s.addStat type value = Except.ok after ∧
      after.stats type = StatsValue.history ((l ++ [value]).drop (l.length + 1 - 60)) := by
  refine ⟨_, addStat_own s type l value h, ?_⟩
  rw [stats_setStats s type l _ h]
  by_cases h60 : l.length = 60
  · have h1 : (l ++ [value]).length > 60 := by simp [h60]
    rw [if_pos h1, h60]
    simp
  · have h1 : ¬ (l ++ [value]).length > 60 := by
      simp only [List.length_append, List.length_singleton]; omega
    have h2 : l.length + 1 - 60 = 0 := by omega
    rw [if_neg h1, h2, List.drop_zero]

/-- Trimming a list to its last `c` entries before appending more and trimming
again gives the last `c` entries of the whole. -/
theorem drop_overflow_capacity {α : Type} (c : ℕ) (L T : List α) (k : ℕ)
    (hk : k = L.length - c) :
    (L.drop k ++ T).drop ((L.drop k ++ T).length - c) =
      (L ++ T).drop ((L ++ T).length - c) := by
  have hk1 : k ≤ L.length := by omega
  have h1 : L.drop k ++ T = (L ++ T).drop k := (List.drop_append_of_le_length hk1).symm
  have e : k + (((L ++ T).drop k).length - c) = (L ++ T).length - c := by
    simp only [List.length_drop, List.length_append]
    omega
  rw [h1, List.drop_drop, e]

theorem addStats_history (type : String) (values : List ℚ) :
    ∀ (s : PerformanceOptimizer) (l : List ℚ), s.stats type = StatsValue.history l →
      l.length ≤ 60 →
      ∃ after, s.addStats type values = Except.ok after ∧
        after.stats type =
          StatsValue.history ((l ++ values).drop ((l ++ values).length - 60)) := by
  induction values with
  | nil =>
    intro s l h hlen
    have h0 : l.length - 60 = 0 := by omega
    refine ⟨s, rfl, ?_⟩
    simp [h, h0]
  | cons v rest ih =>
    intro s l h hlen
    obtain ⟨s1, hs1, hstep⟩ := addStat_history s type l v h hlen
    have hlen1 : ((l ++ [v]).drop (l.length + 1 - 60)).length ≤ 60 := by
      simp only [List.length_drop, List.length_append, List.length_singleton]; omega
    obtain ⟨after, hafter, hgoal⟩ := ih s1 _ hstep hlen1
    have hrun : s.addStats type (v :: rest) = s1.addStats type rest := by
      show (s.addStat type v >>= fun s1 => s1.addStats type rest) = _
      rw [hs1]
      rfl
    refine ⟨after, by rw [hrun, hafter], ?_⟩
    rw [hgoal]
    have happ : l ++ v :: rest = (l ++ [v]) ++ rest := by simp
    rw [happ]
    exact congrArg StatsValue.history (drop_overflow_capacity 60 (l ++ [v]) rest
      (l.length + 1 - 60) (by rw [List.length_append, List.length_singleton]))

theorem addStats_reachable (type : String) (values : List ℚ) :
    ∀ s after : PerformanceOptimizer, OptimizerReachable s →
      s.addStats type values = Except.ok after → OptimizerReachable after := by
  induction values with
  | nil =>
    intro s after hr h
    rw [← Except.ok.inj h]
    exact hr
  | cons v rest ih =>
    intro s after hr h
    cases hs : s.addStat type v with
    | error e =>
      have hrun : s.addStats type (v :: rest) =
          (s.addStat type v >>= fun s1 => s1.addStats type rest) := rfl
      rw [hrun, hs] at h
      cases h
    | ok s1 =>
      have hrun : s.addStats type (v :: rest) =
          (s.addStat type v >>= fun s1 => s1.addStats type rest) := rfl
      rw [hrun, hs] at h
      exact ih s1 after (OptimizerReachable.stat s s1 type v hr hs) h

/-- Where `type` names one of the three arrays or no property at all,
`getAverageStat(type, samples)` is 0 for no property and for an empty history;
otherwise, for `samples ≥ 1`, it is the arithmetic mean of the last
`min(samples, length)` values of that history.  A history holds at most 60
values in every reachable state, and after a series of `addStat` calls it holds
the most recent 60 of the values it was given. -/
theorem getAverageStat_on_histories (s : PerformanceOptimizer) (type : String) (samples : ℕ) :
    (s.stats type = StatsValue.undefined →
      s.getAverageStat type samples = Except.ok (JSNumber.finite 0)) ∧
    (s.stats type = StatsValue.history [] →
      s.getAverageStat type samples = Except.ok (JSNumber.finite 0)) ∧
    (∀ l : List ℚ, s.stats type = StatsValue.history l → l ≠ [] → 1 ≤ samples →
      s.getAverageStat type samples =
        Except.ok (JSNumber.finite ((l.drop (l.length - Min.min samples l.length)).sum /
          ((Min.min samples l.length : ℕ) : ℚ))) ∧
      (l.drop (l.length - Min.min samples l.length)).length = Min.min samples l.length) ∧
    (OptimizerReachable s → ∀ l : List ℚ, s.stats type = StatsValue.history l →
      l.length ≤ 60) ∧
    (∀ l values : List ℚ, s.stats type = StatsValue.history l → l.length ≤ 60 →
      ∃ after, s.addStats type values = Except.ok after ∧
        after.stats type =
          StatsValue.history ((l ++ values).drop ((l ++ values).length - 60))) := by
  refine ⟨?_, ?_, ?_, ?_, ?_⟩
  · intro h
    unfold PerformanceOptimizer.getAverageStat
    rw [h]
  · intro h
    unfold PerformanceOptimizer.getAverageStat
    rw [h]
    rfl
  · intro l h hne h1
    refine ⟨getAverageStat_mean s type samples l h hne h1, ?_⟩
    rw [List.length_drop]
    have : Min.min samples l.length ≤ l.length := min_le_right _ _
    omega
  · intro hr l h
    obtain ⟨b1, b2, b3⟩ := reachable_stats_bounded s hr
    rcases stats_cases s type l h with ⟨_, hl⟩ | ⟨_, hl⟩ | ⟨_, hl⟩ <;> rw [hl] <;> assumption
  · intro l values h hlen
    exact addStats_history type values s l h hlen

/-- Seven `fps` readings on a fresh optimizer: the average over 5 samples is the
mean of the last five, 40. -/
theorem getAverageStat_on_histories_example :
    ∃ after, PerformanceOptimizer.new.addStats "fps" [60, 58, 20, 30, 40, 50, 60] =
        Except.ok after ∧
      after.stats "fps" = StatsValue.history [60, 58, 20, 30, 40, 50, 60] ∧
      after.getAverageStat "fps" 5 = Except.ok (JSNumber.finite 40) := by
  obtain ⟨after, h1, h2⟩ :=
    (getAverageStat_on_histories PerformanceOptimizer.new "fps" 5).2.2.2.2 []
      [60, 58, 20, 30, 40, 50, 60] rfl (by decide)
  have hst : after.stats "fps" = StatsValue.history [60, 58, 20, 30, 40, 50, 60] := h2
  refine ⟨after, h1, hst, ?_⟩
  rw [((getAverageStat_on_histories after "fps" 5).2.2.1 _ hst (by simp) (by decide)).1]
  norm_num

/-- C27 (what the code does): the object `this.stats` inherits the properties of
`Object.prototype`, so for the names `constructor` and `__proto__`, which are
not stat types, the lookup `this.stats[type]` is truthy and its `.length` is not
0: the guard of `getAverageStat` does not return 0, the call reaches `.slice`
on a value that has none and throws a `TypeError`, in every state and for every
number of samples.  `addStat` throws on such a name as well.  A name that is no
property at all gets the 0 the guard is there for. -/
theorem getAverageStat_inherited_key (s : PerformanceOptimizer) (samples : ℕ) (value : ℚ) :
    s.stats "constructor" = StatsValue.inherited (some 1) ∧
    s.getAverageStat "constructor" samples = Except.error JSError.typeError ∧
    s.stats "__proto__" = StatsValue.inherited none ∧
    s.getAverageStat "__proto__" samples = Except.error JSError.typeError ∧
    s.addStat "constructor" value = Except.error JSError.typeError ∧
    s.getAverageStat "latency" samples = Except.ok (JSNumber.finite 0) :=
  ⟨rfl, rfl, rfl, rfl, rfl, rfl⟩

/-! ## The performance optimizer: one check -/

theorem getAverageStat_finite (s : PerformanceOptimizer) (type : String) (samples : ℕ)
    (l : List ℚ) (hs : s.stats type = StatsValue.history l) (h1 : 1 ≤ samples) :
    ∃ q : ℚ, s.getAverageStat type samples = Except.ok (JSNumber.finite q) := by
  cases l with
  | nil => exact ⟨0, by unfold PerformanceOptimizer.getAverageStat; rw [hs]; rfl⟩
  | cons x rest =>
    exact ⟨_, getAverageStat_mean s type samples (x :: rest) hs (List.cons_ne_nil _ _) h1⟩

/-- C26: in a reachable state `checkOptimization` returns and changes nothing
but the level, and the new level follows from the two 5-sample averages:
`min(3, level + 1)` when performance is poor, else `min(2, level)` when it is
medium, else `level - 1` when it is good and the level is positive, else the
level as it is; the level moves by at most one step. -/
theorem checkOptimization_step (s : PerformanceOptimizer) (hr : OptimizerReachable s) :
    ∃ (avgFps avgFrameTime : ℚ) (after : PerformanceOptimizer),
      s.getAverageStat "fps" 5 = Except.ok (JSNumber.finite avgFps) ∧
      s.getAverageStat "frameTime" 5 = Except.ok (JSNumber.finite avgFrameTime) ∧
      s.checkOptimization = Except.ok after ∧
      after =
        { s with optimizationLevel :=
            if avgFps < 20 ∨ avgFrameTime > 50 then Min.min 3 (s.optimizationLevel + 1)
            else if avgFps < 30 ∨ avgFrameTime > 33 then Min.min 2 s.optimizationLevel
            else if avgFps > 50 ∧ avgFrameTime < 16 ∧ s.optimizationLevel > 0 then
              s.optimizationLevel - 1
            else s.optimizationLevel } ∧
      |after.optimizationLevel - s.optimizationLevel| ≤ 1 := by
  obtain ⟨f, hf⟩ := getAverageStat_finite s "fps" 5 _ (stats_own s).1 (by norm_num)
  obtain ⟨t, ht⟩ := getAverageStat_finite s "frameTime" 5 _ (stats_own s).2.1 (by norm_num)
  obtain ⟨h0, h3⟩ := reachable_level_range s hr
  obtain ⟨a, b, n, ha, hb, hn, hc⟩ := checkOptimization_eq s
  rw [hf] at ha
  rw [ht] at hb
  rw [← Except.ok.inj ha, ← Except.ok.inj hb] at hn
  simp only [JSNumber.lt, JSNumber.gt, Bool.or_eq_true, Bool.and_eq_true, decide_eq_true_eq,
    and_assoc] at hn
  have hgood : Max.max 0 (s.optimizationLevel - 1) = s.optimizationLevel - 1 ∨
      ¬ s.optimizationLevel > 0 := by
    by_cases hp : s.optimizationLevel > 0
    · exact Or.inl (max_eq_right (by omega))
    · exact Or.inr hp
  have hn1 : n =
      (if f < 20 ∨ t > 50 then Min.min 3 (s.optimizationLevel + 1)
        else if f < 30 ∨ t > 33 then Min.min 2 s.optimizationLevel
        else if f > 50 ∧ t < 16 ∧ s.optimizationLevel > 0 then s.optimizationLevel - 1
        else s.optimizationLevel) := by
    rw [hn]
    split_ifs with c1 c2 c3
    · rfl
    · rfl
    · rcases hgood with hg | hg
      · exact hg
      · exact absurd c3.2.2 hg
    · rfl
  have hrange : 0 ≤ n ∧ n ≤ 3 ∧ |n - s.optimizationLevel| ≤ 1 := by
    rw [hn1]
    split_ifs with c1 c2 c3
    · rcases le_total 3 (s.optimizationLevel + 1) with h | h
      · rw [min_eq_left h]
        refine ⟨by norm_num, le_refl _, ?_⟩
        rw [abs_le]; constructor <;> omega
      · rw [min_eq_right h]
        refine ⟨by omega, h, ?_⟩
        rw [abs_le]; constructor <;> omega
    · rcases le_total 2 s.optimizationLevel with h | h
      · rw [min_eq_left h]
        refine ⟨by norm_num, by norm_num, ?_⟩
        rw [abs_le]; constructor <;> omega
      · rw [min_eq_right h]
        refine ⟨h0, h3, ?_⟩
        rw [abs_le]; constructor <;> omega
    · have := c3.2.2
      refine ⟨by omega, by omega, ?_⟩
      rw [abs_le]; constructor <;> omega
    · refine ⟨h0, h3, ?_⟩
      rw [abs_le]; constructor <;> omega
  have hres : s.checkOptimization = Except.ok { s with optimizationLevel := n } := by
    rw [hc]
    split
    · rw [clampLevel_id n hrange.1 hrange.2.1]
    · next heq =>
      have : n = s.optimizationLevel := not_not.mp heq
      rw [this]
  refine ⟨f, t, { s with optimizationLevel := n }, hf, ht, hres, ?_, hrange.2.2⟩
  rw [hn1]

theorem checkOptimization_step_witness :
    OptimizerReachable slowOptimizer ∧
    slowOptimizer.checkOptimization =
      Except.ok { slowOptimizer with optimizationLevel := 2 } := by
  have hstats : PerformanceOptimizer.new.addStats "fps" [15, 15, 15, 15, 15] =
      Except.ok { PerformanceOptimizer.new with statsFps := [15, 15, 15, 15, 15] } := rfl
  have hlevel : PerformanceOptimizer.setOptimizationLevel
      { PerformanceOptimizer.new with statsFps := [15, 15, 15, 15, 15] } 1 = slowOptimizer := by
    rw [setOptimizationLevel_eq]
    rfl
  have hr : OptimizerReachable slowOptimizer := by
    rw [← hlevel]
    exact OptimizerReachable.level _ _
      (addStats_reachable "fps" _ _ _ OptimizerReachable.constructed hstats)
  refine ⟨hr, ?_⟩
  obtain ⟨f, t, after, hf, ht, hc, hafter, _⟩ := checkOptimization_step _ hr
  have hfps : slowOptimizer.getAverageStat "fps" 5 = Except.ok (JSNumber.finite 15) := by
    rw [getAverageStat_mean slowOptimizer "fps" 5 [15, 15, 15, 15, 15] rfl (by simp)
      (by decide)]
    norm_num
  rw [hfps] at hf
  have hf15 : f = 15 := (JSNumber.finite.inj (Except.ok.inj hf)).symm
  rw [hc, hafter, hf15]
  have hpoor : (15 : ℚ) < 20 ∨ t > 50 := Or.inl (by norm_num)
  rw [if_pos hpoor]
  rfl

/-! ## The speech queue -/

/-- A call made by a callback is a call of `speak`. -/
theorem runCallback_speakThen (w : VoiceWorld) (text : String) (callback rest : Callback) :
    VoiceWorld.runCallback (Callback.speakThen text callback rest) w =
      VoiceWorld.runCallback rest
        (VoiceWorld.speak { w with requested := w.requested ++ [text] } text callback) := rfl

/-- A `speak` call made while speaking only appends to the queue. -/
theorem speak_while_speaking (w : VoiceWorld) (text : String) (callback : Callback)
    (hi : w.voice.initialized = true) (hv : w.voice.hasSelectedVoice = true)
    (hs : w.voice.speaking = true) :
    w.speak text callback =
      { w with voice := { w.voice with queue := w.voice.queue ++ [(text, callback)] } } := by
  unfold VoiceWorld.speak VoiceWorld.queueOrStart
  simp [hi, hv, hs]

theorem onend_orderly (w : VoiceWorld) (h : w.Orderly) : w.onend.Orderly := by
  obtain ⟨⟨hasVoice, speaking, queue, initialized⟩, utterances, started, requested⟩ := w
  obtain ⟨hi, hv, hreq, hsil, hu, hq⟩ := h
  simp only at hi hv hreq hsil hu hq
  subst hi hv hreq
  unfold VoiceWorld.onend
  cases utterances with
  | nil => exact ⟨rfl, rfl, rfl, hsil, hu, hq⟩
  | cons u pending =>
    obtain ⟨ut, ucb⟩ := u
    have hucb : ucb = Callback.done := hu (ut, ucb) (List.mem_cons_self _ _)
    subst hucb
    have hpend : ∀ x ∈ pending, x.2 = Callback.done :=
      fun x hx => hu x (List.mem_cons_of_mem _ hx)
    cases queue with
    | nil =>
      exact ⟨rfl, rfl, rfl, fun _ => rfl, hpend, fun q hq1 => by cases hq1⟩
    | cons q rest =>
      obtain ⟨qt, qcb⟩ := q
      have hqcb : qcb = Callback.done := hq (qt, qcb) (List.mem_cons_self _ _)
      subst hqcb
      have hrest : ∀ x ∈ rest, x.2 = Callback.done :=
        fun x hx => hq x (List.mem_cons_of_mem _ hx)
      refine ⟨rfl, rfl, ?_, fun hf => (by cases hf), ?_, hrest⟩
      · show started ++ List.map Prod.fst ((qt, Callback.done) :: rest) =
          (started ++ [qt]) ++ List.map Prod.fst rest
        simp
      · intro x hx
        have hx1 : x ∈ pending ++ [(qt, Callback.done)] := hx
        rw [List.mem_append, List.mem_singleton] at hx1
        rcases hx1 with hx1 | hx1
        · exact hpend x hx1
        · rw [hx1]

theorem speak_orderly (w : VoiceWorld) (text : String) (h : w.Orderly) :
    (VoiceWorld.speak { w with requested := w.requested ++ [text] } text
      Callback.done).Orderly := by
  obtain ⟨⟨hasVoice, speaking, queue, initialized⟩, utterances, started, requested⟩ := w
  obtain ⟨hi, hv, hreq, hsil, hu, hq⟩ := h
  simp only at hi hv hreq hsil hu hq
  subst hi hv hreq
  cases speaking with
  | true =>
    refine ⟨rfl, rfl, ?_, fun hf => (by cases hf), hu, ?_⟩
    · show (started ++ List.map Prod.fst queue) ++ [text] =
        started ++ List.map Prod.fst (queue ++ [(text, Callback.done)])
      simp
    · intro x hx
      have hx1 : x ∈ queue ++ [(text, Callback.done)] := hx
      rw [List.mem_append, List.mem_singleton] at hx1
      rcases hx1 with hx1 | hx1
      · exact hq x hx1
      · rw [hx1]
  | false =>
    have hqe : queue = [] := hsil rfl
    subst hqe
    refine ⟨rfl, rfl, ?_, fun hf => (by cases hf), ?_, hq⟩
    · show (started ++ List.map Prod.fst ([] : List (String × Callback))) ++ [text] =
        (started ++ [text]) ++ List.map Prod.fst ([] : List (String × Callback))
      simp
    · intro x hx
      have hx1 : x ∈ utterances ++ [(text, Callback.done)] := hx
      rw [List.mem_append, List.mem_singleton] at hx1
      rcases hx1 with hx1 | hx1
      · exact hu x hx1
      · rw [hx1]

theorem handle_orderly (w : VoiceWorld) (e : VoiceEvent) (h : w.Orderly)
    (he : ∀ text callback, e = VoiceEvent.speak text callback → callback = Callback.done) :
    (w.handle e).Orderly := by
  cases e with
  | ended => exact onend_orderly w h
  | failed => exact onend_orderly w h
  | speak text callback =>
    have hcb : callback = Callback.done := he text callback rfl
    subst hcb
    exact speak_orderly w text h

/-- When no callback calls `speak`, the queue is first in, first out: after any
sequence of events the texts requested are the texts started, in the same
order, followed by the texts still queued. -/
theorem fifo_without_speaking_callbacks (events : List VoiceEvent) :
    ∀ w : VoiceWorld, w.Orderly →
      (∀ e ∈ events, ∀ text callback, e = VoiceEvent.speak text callback →
        callback = Callback.done) →
      (w.runEvents events).requested =
        (w.runEvents events).started ++ (w.runEvents events).voice.queue.map Prod.fst := by
  induction events with
  | nil => intro w h _; exact h.2.2.1
  | cons e rest ih =>
    intro w h hall
    exact ih (w.handle e) (handle_orderly w e h (hall e (List.mem_cons_self _ _)))
      (fun e1 he1 => hall e1 (List.mem_cons_of_mem _ he1))

/-- C28 (what the code does): with the voice set up, "X" is requested with a
callback that requests "C", then "A" and "B" are requested while "X" is spoken.
When "X" ends, the callback runs with `speaking` already false, so "C" starts at
once, ahead of "A" and "B"; the head of the queue, "A", is then handed to
`speak` while "C" is spoken and goes to the back of the queue.  The texts were
requested in the order X, A, B, C and are started in the order X, C, B, A. -/
theorem speech_queue_reordered :
    (VoiceWorld.ready.runEvents
      [VoiceEvent.speak "X" (Callback.speakThen "C" Callback.done Callback.done),
        VoiceEvent.speak "A" Callback.done, VoiceEvent.speak "B" Callback.done,
        VoiceEvent.ended]).started = ["X", "C"] ∧
    (VoiceWorld.ready.runEvents
      [VoiceEvent.speak "X" (Callback.speakThen "C" Callback.done Callback.done),
        VoiceEvent.speak "A" Callback.done, VoiceEvent.speak "B" Callback.done,
        VoiceEvent.ended]).voice.queue.map Prod.fst = ["B", "A"] ∧
    (VoiceWorld.ready.runEvents
      [VoiceEvent.speak "X" (Callback.speakThen "C" Callback.done Callback.done),
        VoiceEvent.speak "A" Callback.done, VoiceEvent.speak "B" Callback.done,
        VoiceEvent.ended, VoiceEvent.ended, VoiceEvent.ended, VoiceEvent.ended]).requested =
      ["X", "A", "B", "C"] ∧
    (VoiceWorld.ready.runEvents
      [VoiceEvent.speak "X" (Callback.speakThen "C" Callback.done Callback.done),
        VoiceEvent.speak "A" Callback.done, VoiceEvent.speak "B" Callback.done,
        VoiceEvent.ended, VoiceEvent.ended, VoiceEvent.ended, VoiceEvent.ended]).started =
      ["X", "C", "B", "A"] := by
  decide

end IronmanHud
